import Mathlib

/-!
# Transaction engine: directory subsystem and transaction dispatcher

A shallow embedding of `src/TransactionEngine.cpp`.

* Machine integers are natural numbers; `uint64` arithmetic is reduced modulo `2 ^ 64`.
* A `SLE::pointer` is a value; a null pointer is `none`.  Where the source mutates an entry
  through a pointer that is already in the staged list, the embedding rewrites the staged
  element.
* The in/out parameters `accounts` and `uNodeDir` are returned next to the result code.
* Dereferencing a null pointer is the fault `Fault.nullDeref`.  The `while` loop of `dirDelete`
  runs on fuel; `dirDelete_fuel_suffices` shows that the fuel it is given never runs out.
* The store maps indexes to entries.  A read hands out the stored entry under the index it
  was read from; a write-back stores the entry under its own index, in create and in update
  mode alike; a delete removes the index.  These operations always succeed, so the
  assertions of the write-back loop are not part of the embedding.
-/

namespace TransactionEngine

/-! ## Identifiers, amounts and ledger entries -/

/-- Ledger entry kinds named by the engine (`LedgerEntryType` of the source). -/
inductive LedgerEntryType where
  | ltACCOUNT_ROOT
  | ltDIR_ROOT
  | ltDIR_NODE
  | ltGENERATOR_MAP
  | ltRIPPLE_STATE
  deriving DecidableEq, Repr

/-- Modelled from the spec: the `Ledger::get…Index` functions are not part of the source file.
The spec derives every ledger index with a hash `H(tag ‖ fields)`; the hash is taken
collision free, so an index is the term that names its derivation.  `value n` is a plain
256-bit number (a transaction id, an extended account id). -/
inductive uint256 where
  | value (n : Nat)
  | accountRootIndex (uAccountID : Nat)
  | dirRootIndex (uBase : uint256) (letKind : LedgerEntryType)
  | dirNodeIndex (uBase : uint256) (letKind : LedgerEntryType) (uNodeDir : Nat)
  | generatorIndex (uGeneratorID : Nat)
  | rippleStateIndex (uLowID uHighID uCurrency : Nat)
  deriving DecidableEq, Repr

/-- The C++ test `!u` on a 256-bit value. -/
def uint256.isZero (u : uint256) : Bool := decide (u = uint256.value 0)

/-- Number of values of a `uint64`. -/
def UINT64_SIZE : Nat := 2 ^ 64

/-- Number of values of a `uint32`. -/
def UINT32_SIZE : Nat := 2 ^ 32

/-- The constant `DIR_NODE_MAX` of the source. -/
def DIR_NODE_MAX : Nat := 32

/-- Modelled from the spec: `STAmount` is declared outside the source file.  The spec gives
"a signed value carrying a currency tag"; currency `0` is the native currency.  Comparison
and arithmetic act on the value and keep the currency of the left operand. -/
structure STAmount where
  currency : Nat
  value : Int
  deriving DecidableEq, Repr

/-- An amount of the native currency, as built from a configured fee. -/
def STAmount.native (v : Int) : STAmount := ⟨0, v⟩

/-- The amount `STAmount saZero(uCurrency)`. -/
def STAmount.zero (uCurrency : Nat) : STAmount := ⟨uCurrency, 0⟩

/-- The test `sa.isZero()`, which is also the negation of `if (sa)`. -/
def STAmount.isZero (a : STAmount) : Bool := decide (a.value = 0)

/-- The comparison `a < b`. -/
def STAmount.lt (a b : STAmount) : Bool := decide (a.value < b.value)

/-- The difference `a - b`. -/
def STAmount.sub (a b : STAmount) : STAmount := ⟨a.currency, a.value - b.value⟩

/-- The sum `a + b`. -/
def STAmount.add (a b : STAmount) : STAmount := ⟨a.currency, a.value + b.value⟩

/-- Field names used by the engine on ledger entries. -/
inductive SField where
  | sfAccount
  | sfAuthorizedKey
  | sfBalance
  | sfFirstNode
  | sfGenerator
  | sfGeneratorID
  | sfHighID
  | sfHighLimit
  | sfIndexes
  | sfLastNode
  | sfLowID
  | sfLowLimit
  | sfSequence
  deriving DecidableEq, Repr

/-- A typed field value of a serialized entry. -/
inductive STValue where
  | u32 (n : Nat)
  | u64 (n : Nat)
  | h160 (n : Nat)
  | account (n : Nat)
  | amount (a : STAmount)
  | v256 (l : List uint256)
  | vl (l : List Nat)
  deriving DecidableEq, Repr

/-- Modelled from the spec: `SerializedLedgerEntry` is declared outside the source file.  The
spec lets the engine depend "only on field accessors by tagged name": an entry is its
type, its index, its flags word and a map from field names to typed values.  A getter
returns the zero of its type when the name holds no value of that type; a setter stores its
value under the name. -/
structure SLE where
  mType : LedgerEntryType
  mIndex : uint256
  mFlags : Nat
  mFields : SField → Option STValue

namespace SLE

/-- The entry `boost::make_shared<SerializedLedgerEntry>(type)`: no index, no field. -/
def make (type : LedgerEntryType) : SLE := ⟨type, uint256.value 0, 0, fun _ => none⟩

/-- Store a value under a field name. -/
def setField (e : SLE) (f : SField) (v : STValue) : SLE :=
  { e with mFields := fun g => if g = f then some v else e.mFields g }

def getIndex (e : SLE) : uint256 := e.mIndex

def setIndex (e : SLE) (i : uint256) : SLE := { e with mIndex := i }

def getFlags (e : SLE) : Nat := e.mFlags

def setFlag (e : SLE) (f : Nat) : SLE := { e with mFlags := e.mFlags ||| f }

def getIFieldPresent (e : SLE) (f : SField) : Bool := (e.mFields f).isSome

def getIFieldU32 (e : SLE) (f : SField) : Nat :=
  match e.mFields f with
  | some (STValue.u32 n) => n % UINT32_SIZE
  | _ => 0

def setIFieldU32 (e : SLE) (f : SField) (n : Nat) : SLE := e.setField f (STValue.u32 n)

def getIFieldU64 (e : SLE) (f : SField) : Nat :=
  match e.mFields f with
  | some (STValue.u64 n) => n % UINT64_SIZE
  | _ => 0

def setIFieldU64 (e : SLE) (f : SField) (n : Nat) : SLE := e.setField f (STValue.u64 n)

def getIFieldV256 (e : SLE) (f : SField) : List uint256 :=
  match e.mFields f with
  | some (STValue.v256 l) => l
  | _ => []

def setIFieldV256 (e : SLE) (f : SField) (l : List uint256) : SLE :=
  e.setField f (STValue.v256 l)

def getIValueFieldAmount (e : SLE) (f : SField) : STAmount :=
  match e.mFields f with
  | some (STValue.amount a) => a
  | _ => STAmount.zero 0

def setIFieldAmount (e : SLE) (f : SField) (a : STAmount) : SLE :=
  e.setField f (STValue.amount a)

def getIFieldAccount (e : SLE) (f : SField) : Nat :=
  match e.mFields f with
  | some (STValue.account n) => n
  | _ => 0

def setIFieldAccount (e : SLE) (f : SField) (n : Nat) : SLE := e.setField f (STValue.account n)

def getIFieldH160 (e : SLE) (f : SField) : Nat :=
  match e.mFields f with
  | some (STValue.h160 n) => n
  | _ => 0

def setIFieldH160 (e : SLE) (f : SField) (n : Nat) : SLE := e.setField f (STValue.h160 n)

def getIFieldVL (e : SLE) (f : SField) : List Nat :=
  match e.mFields f with
  | some (STValue.vl l) => l
  | _ => []

def setIFieldVL (e : SLE) (f : SField) (l : List Nat) : SLE := e.setField f (STValue.vl l)

end SLE

/-! ## Transactions -/

/-- Transaction type tags; `ttOTHER` stands for every tag the dispatcher does not name. -/
inductive TransactionType where
  | ttINVALID
  | ttPAYMENT
  | ttCLAIM
  | ttINVOICE
  | ttOFFER
  | ttCREDIT_SET
  | ttTRANSIT_SET
  | ttOTHER (tag : Nat)
  deriving DecidableEq, Repr

/-- Modelled from the spec: `SerializedTransaction` is declared outside the source file.  The
record holds what the engine reads through the transaction's accessors.  `sfDestination`
is `0` when the field is absent; `sfCurrency` is the only field tested for presence. -/
structure SerializedTransaction where
  transactionID : uint256
  signingPubKey : List Nat
  txnType : TransactionType
  flags : Nat
  transactionFee : STAmount
  sourceAccount : Nat
  sequence : Nat
  sfDestination : Nat
  sfCurrency : Option Nat
  sfAmount : STAmount
  sfLimitAmount : STAmount
  sfGenerator : List Nat
  sfPubKey : List Nat
  sfSignature : List Nat
  deriving DecidableEq, Repr

/-- Result codes of the engine that occur in the source file. -/
inductive TransactionEngineResult where
  | terSUCCESS
  | tenINVALID
  | tenUNKNOWN
  | tenINSUF_FEE_P
  | tenDST_NEEDED
  | tenDST_IS_SRC
  | tenEXPLICITXNC
  | tenCREATEXNC
  | tenGEN_IN_USE
  | tenTRANSIT_WORSE
  | terNO_ACCOUNT
  | terNO_DST
  | terNO_LINE_NO_ZERO
  | terINSUF_FEE_B
  | terPRE_SEQ
  | terPAST_SEQ
  | terALREADY
  | terNODE_NOT_FOUND
  | terNODE_NOT_MENTIONED
  | terNODE_NO_ROOT
  | terCLAIMED
  | terCREATED
  | terUNFUNDED
  | terDIR_FULL
  deriving DecidableEq, Repr

/-- What is staged for an entry (`TransactionAccountAction`). -/
inductive TransactionAccountAction where
  | taaCREATE
  | taaMODIFY
  | taaDELETE
  deriving DecidableEq, Repr

/-- A staged pair of an action and an entry. -/
abbrev AffectedAccount := TransactionAccountAction × SLE

/-- Ways in which a call does not return. -/
inductive Fault where
  | nullDeref
  | outOfFuel
  deriving DecidableEq, Repr

/-! ## The ledger -/

/-- Modelled from the spec: class `Ledger` is declared outside the source file.  The spec's
`LedgerStore` reads entries by index, writes entries back under their own index, deletes by
index, and keeps an append-only transaction log. -/
structure Ledger where
  mAccountStateMap : uint256 → Option SLE
  mTransactions : List (uint256 × SerializedTransaction × STAmount)

namespace Ledger

def getAccountRootIndex (uAccountID : Nat) : uint256 := uint256.accountRootIndex uAccountID

/-- The two-argument `Ledger::getDirIndex(uBase, letKind)`: index of a directory root. -/
def getDirIndex (uBase : uint256) (letKind : LedgerEntryType) : uint256 :=
  uint256.dirRootIndex uBase letKind

/-- The three-argument `Ledger::getDirIndex(uBase, letKind, uNodeDir)`: index of a page. -/
def getDirNodeIndex (uBase : uint256) (letKind : LedgerEntryType) (uNodeDir : Nat) : uint256 :=
  uint256.dirNodeIndex uBase letKind uNodeDir

def getGeneratorIndex (uGeneratorID : Nat) : uint256 := uint256.generatorIndex uGeneratorID

/-- The index of a credit line; the two account ids are put in ascending order. -/
def getRippleStateIndex (uA uB uCurrency : Nat) : uint256 :=
  if uA < uB then uint256.rippleStateIndex uA uB uCurrency
  else uint256.rippleStateIndex uB uA uCurrency

/-- Read the entry stored under an index; the entry handed out carries that index. -/
def getASNode (l : Ledger) (uIndex : uint256) : Option SLE :=
  (l.mAccountStateMap uIndex).map (fun e => e.setIndex uIndex)

def getAccountRoot (l : Ledger) (uAccountID : Nat) : Option SLE :=
  l.getASNode (getAccountRootIndex uAccountID)

def getDirRoot (l : Ledger) (uRootIndex : uint256) : Option SLE := l.getASNode uRootIndex

def getDirNode (l : Ledger) (uNodeIndex : uint256) : Option SLE := l.getASNode uNodeIndex

def getRippleState (l : Ledger) (uA uB uCurrency : Nat) : Option SLE :=
  l.getASNode (getRippleStateIndex uA uB uCurrency)

def getGenerator (l : Ledger) (uGeneratorID : Nat) : Option SLE :=
  l.getASNode (getGeneratorIndex uGeneratorID)

/-- Write an entry back under its own index (`writeBack`, in create and in update mode). -/
def writeBack (l : Ledger) (e : SLE) : Ledger :=
  { l with mAccountStateMap := fun i => if i = e.mIndex then some e else l.mAccountStateMap i }

/-- Remove the entry stored under an index (`peekAccountStateMap()->delItem`). -/
def delItem (l : Ledger) (uIndex : uint256) : Ledger :=
  { l with mAccountStateMap := fun i => if i = uIndex then none else l.mAccountStateMap i }

def hasTransaction (l : Ledger) (txID : uint256) : Bool :=
  l.mTransactions.any (fun t => decide (t.1 = txID))

def addTransaction (l : Ledger) (txID : uint256) (txn : SerializedTransaction)
    (saPaid : STAmount) : Ledger :=
  { l with mTransactions := l.mTransactions ++ [(txID, txn, saPaid)] }

/-- The ledger without entries and without transactions. -/
def empty : Ledger := ⟨fun _ => none, []⟩

end Ledger

/-- The body of the write-back loop of `applyTransaction` (source lines 433-447), for one
staged pair. -/
def commitOne (l : Ledger) (a : AffectedAccount) : Ledger :=
  match a.1 with
  | TransactionAccountAction.taaCREATE => l.writeBack a.2
  | TransactionAccountAction.taaMODIFY => l.writeBack a.2
  | TransactionAccountAction.taaDELETE => l.delItem a.2.getIndex

/-- The write-back loop of `applyTransaction` (source lines 430-448): the staged pairs are
applied in list order. -/
def commit (l : Ledger) (accounts : List AffectedAccount) : Ledger :=
  accounts.foldl commitOne l

/-! ## Directory subsystem -/

open TransactionEngineResult TransactionAccountAction SField LedgerEntryType

/-- The function `TransactionEngine::dirAdd` (source lines 14-105).  Returns the result code,
the staged list and the final value of `uNodeDir`.  `uNodeIndex` is computed once, from the
value `uNodeDir` has before the increment of the full-page branch, as in the source. -/
def dirAdd (mLedger : Ledger) (accounts : List AffectedAccount) (letKind : LedgerEntryType)
    (uBase uLedgerIndex : uint256) :
    TransactionEngineResult × List AffectedAccount × Nat :=
  let uRootIndex := Ledger.getDirIndex uBase letKind
  let found := mLedger.getDirRoot uRootIndex
  -- Get the last node index.
  let bRootNew : Bool := found.isNone
  let uNodeDir : Nat :=
    match found with
    | some sleRoot => sleRoot.getIFieldU64 sfLastNode
    | none => 1
  let sleRoot : SLE :=
    match found with
    | some sleRoot => sleRoot
    | none =>
      (((SLE.make ltDIR_ROOT).setIndex uRootIndex).setIFieldU64 sfFirstNode 1).setIFieldU64
        sfLastNode 1
  let accounts : List AffectedAccount :=
    if bRootNew then accounts ++ [(taaCREATE, sleRoot)] else accounts
  -- Get the last node.
  let uNodeIndex := Ledger.getDirNodeIndex uBase letKind uNodeDir
  let sleNode : Option SLE := if bRootNew then none else mLedger.getDirNode uNodeIndex
  let createNode (accounts : List AffectedAccount) (uNodeDir : Nat) :
      TransactionEngineResult × List AffectedAccount × Nat :=
    -- Add to last node, which is empty.
    let sleNew := ((SLE.make ltDIR_NODE).setIndex uNodeIndex).setIFieldV256 sfIndexes
      [uLedgerIndex]
    (terSUCCESS, accounts ++ [(taaCREATE, sleNew)], uNodeDir)
  match sleNode with
  | some node =>
    let svIndexes := node.getIFieldV256 sfIndexes
    if DIR_NODE_MAX ≠ svIndexes.length then
      -- Last node is not full, append.
      let node := node.setIFieldV256 sfIndexes (svIndexes ++ [uLedgerIndex])
      (terSUCCESS, accounts ++ [(taaMODIFY, node)], uNodeDir)
    else
      -- Last node is full, add a new node.
      let uNodeDir := (uNodeDir + 1) % UINT64_SIZE
      if uNodeDir = 0 then (terDIR_FULL, accounts, uNodeDir)
      else
        -- Record new last node.
        let sleRoot := sleRoot.setIFieldU64 sfLastNode uNodeDir
        createNode (accounts ++ [(taaMODIFY, sleRoot)]) uNodeDir
  | none => createNode accounts uNodeDir

/-- The removal step of `dirDelete` (source lines 130 and 153-158): `std::find` gives the
first position of the key; with more than one element that position receives the last
element; the vector is then shortened by one. -/
def removeEntry (vuiIndexes : List uint256) (uLedgerIndex : uint256) : List uint256 :=
  let it := vuiIndexes.indexOf uLedgerIndex
  let moved :=
    if vuiIndexes.length > 1 then vuiIndexes.set it (vuiIndexes.getLastD uLedgerIndex)
    else vuiIndexes
  moved.dropLast

/-- The `while` loop of `dirDelete` (source lines 168-199).  `fuel` bounds the number of
iterations.  The replacement page is read through its pointer without a test, so a missing
page is a null dereference.  Returns the final `uFirstNode`, `uLastNode` and staged list. -/
def dirDeleteLoop (mLedger : Ledger) (letKind : LedgerEntryType) (uBase : uint256) :
    Nat → Nat → Nat → Nat → SLE → List uint256 → List AffectedAccount →
    Except Fault (Nat × Nat × List AffectedAccount)
  | fuel, uFirstNode, uLastNode, uNodeCur, sleNode, svIndexes, accounts =>
    if uFirstNode ≠ 0 ∧ svIndexes = [] ∧ (uFirstNode = uNodeCur ∨ uLastNode = uNodeCur) then
      match fuel with
      | 0 => Except.error Fault.outOfFuel
      | fuel + 1 =>
        -- Current node is empty and first or last, delete it.
        let accounts := accounts ++ [(taaDELETE, sleNode)]
        if uFirstNode = uLastNode then
          -- Complete deletion.
          dirDeleteLoop mLedger letKind uBase fuel 0 uLastNode uNodeCur sleNode svIndexes accounts
        else
          let uNodeNext : Nat :=
            if uFirstNode = uNodeCur then (uNodeCur + 1) % UINT64_SIZE
            else (uNodeCur + (UINT64_SIZE - 1)) % UINT64_SIZE
          let uFirstNext : Nat :=
            if uFirstNode = uNodeCur then (uFirstNode + 1) % UINT64_SIZE else uFirstNode
          let uLastNext : Nat :=
            if uFirstNode = uNodeCur then uLastNode
            else (uLastNode + (UINT64_SIZE - 1)) % UINT64_SIZE
          -- Get replacement node.
          match mLedger.getDirNode (Ledger.getDirNodeIndex uBase letKind uNodeNext) with
          | none => Except.error Fault.nullDeref
          | some sleNext =>
            dirDeleteLoop mLedger letKind uBase fuel uFirstNext uLastNext uNodeNext sleNext
              (sleNext.getIFieldV256 sfIndexes) accounts
    else Except.ok (uFirstNode, uLastNode, accounts)

/-- The function `TransactionEngine::dirDelete` (source lines 107-223).  Returns the result
code and the staged list, or the fault of the coalescing loop.  The loop gets `2 ^ 64`
iterations, one for every value of a node number. -/
def dirDelete (mLedger : Ledger) (accounts : List AffectedAccount) (uNodeDir : Nat)
    (letKind : LedgerEntryType) (uBase uLedgerIndex : uint256) :
    Except Fault (TransactionEngineResult × List AffectedAccount) :=
  let uNodeCur := uNodeDir
  let uNodeIndex := Ledger.getDirNodeIndex uBase letKind uNodeCur
  match mLedger.getDirNode uNodeIndex with
  | none => Except.ok (terNODE_NOT_FOUND, accounts)
  | some sleNode =>
    let vuiIndexes := sleNode.getIFieldV256 sfIndexes
    if uLedgerIndex ∉ vuiIndexes then Except.ok (terNODE_NOT_MENTIONED, accounts)
    else
      -- Get root information
      match mLedger.getDirRoot (Ledger.getDirIndex uBase letKind) with
      | none => Except.ok (terNODE_NO_ROOT, accounts)
      | some sleRoot =>
        let uFirstNodeOrig := sleRoot.getIFieldU64 sfFirstNode
        let uLastNodeOrig := sleRoot.getIFieldU64 sfLastNode
        -- Remove the element.
        let svIndexes := removeEntry vuiIndexes uLedgerIndex
        let sleNode := sleNode.setIFieldV256 sfIndexes svIndexes
        let accounts : List AffectedAccount :=
          if svIndexes ≠ [] ∨ (uFirstNodeOrig ≠ uNodeCur ∧ uLastNodeOrig ≠ uNodeCur) then
            -- Node is not being deleted.
            accounts ++ [(taaMODIFY, sleNode)]
          else accounts
        match dirDeleteLoop mLedger letKind uBase UINT64_SIZE uFirstNodeOrig uLastNodeOrig
            uNodeCur sleNode svIndexes accounts with
        | Except.error f => Except.error f
        | Except.ok (uFirstNode, uLastNode, accounts) =>
          if uFirstNode = uFirstNodeOrig ∧ uLastNode = uLastNodeOrig then
            -- Dir is fine.
            Except.ok (terSUCCESS, accounts)
          else if uFirstNode ≠ 0 then
            -- Update root's pointer pointers.
            let sleRoot := (sleRoot.setIFieldU64 sfFirstNode uFirstNode).setIFieldU64
              sfLastNode uLastNode
            Except.ok (terSUCCESS, accounts ++ [(taaMODIFY, sleRoot)])
          else
            -- Delete the root.
            Except.ok (terSUCCESS, accounts ++ [(taaDELETE, sleRoot)])

/-! ## Transaction dispatcher and handlers -/

/-- The fee schedule `theConfig` read by the engine. -/
structure Config where
  FEE_DEFAULT : Nat
  FEE_CREATE : Nat

/-- Constants and collaborators that the source file uses and does not define: the fee
schedule, flag bits, the transaction codec's signature checks and the key hashes. -/
structure Externals where
  theConfig : Config
  tfCreateAccount : Nat
  tepNO_CHECK_FEE : Nat
  lsfLowIndexed : Nat
  lsfHighIndexed : Nat
  checkSign : SerializedTransaction → List Nat → Bool
  getAccountID : List Nat → Nat
  accountPublicVerify : List Nat → Nat → List Nat → Bool
  getSHA512Half : List Nat → Nat
  uint160extend256 : Nat → Nat → uint256

/-- The empty parameter set `tepNONE`. -/
def tepNONE : Nat := 0

/-- The entry `accounts[i].second`.  Every index the handlers use is in range: the
dispatcher stages the source first and `doPayment` stages the destination before it reads
`accounts[1]`.  Out of range the embedding hands out an entry without fields. -/
def peekEntry (accounts : List AffectedAccount) (i : Nat) : SLE :=
  match accounts.get? i with
  | some a => a.2
  | none => SLE.make ltACCOUNT_ROOT

/-- A mutation of the entry `accounts[i].second` through its pointer. -/
def pokeEntry : List AffectedAccount → Nat → (SLE → SLE) → List AffectedAccount
  | [], _, _ => []
  | a :: rest, 0, f => (a.1, f a.2) :: rest
  | a :: rest, i + 1, f => a :: pokeEntry rest i f

/-- The function `TransactionEngine::doClaim` (source lines 458-547). -/
def doClaim (env : Externals) (mLedger : Ledger) (txn : SerializedTransaction)
    (accounts : List AffectedAccount) : TransactionEngineResult × List AffectedAccount :=
  let sourceAccountID := env.getAccountID txn.signingPubKey
  if sourceAccountID ≠ txn.sourceAccount then
    -- Signing Pub Key must be for Source Account ID.
    (tenINVALID, accounts)
  else
    match accounts.get? 0 with
    | none =>
      -- Source account does not exist.
      (terNO_ACCOUNT, accounts)
    | some staged =>
      let sleDst := staged.2
      if sleDst.getIFieldPresent sfAuthorizedKey then
        -- Source account already claimed.
        (terCLAIMED, accounts)
      else
        -- Verify claim is authorized for public key.
        let vucCipher := txn.sfGenerator
        let vucPubKey := txn.sfPubKey
        let vucSignature := txn.sfSignature
        if !env.accountPublicVerify vucPubKey (env.getSHA512Half vucCipher) vucSignature then
          (tenINVALID, accounts)
        else
          -- Verify generator not already in use.
          let hGeneratorID := env.getAccountID vucPubKey
          match mLedger.getGenerator hGeneratorID with
          | some _ => (tenGEN_IN_USE, accounts)
          | none =>
            -- Set the public key needed to use the account.
            let accounts := pokeEntry accounts 0
              (fun e => e.setIFieldH160 sfAuthorizedKey hGeneratorID)
            -- Construct a generator map entry.
            let sleGen := (((SLE.make ltGENERATOR_MAP).setIndex
              (Ledger.getGeneratorIndex hGeneratorID)).setIFieldH160 sfGeneratorID
              hGeneratorID).setIFieldVL sfGenerator vucCipher
            (terSUCCESS, accounts ++ [(taaCREATE, sleGen)])

/-- The function `TransactionEngine::doCreditSet` (source lines 549-645).  In the branch of
an existing line the limit of the high side is stored under `sfHighID`, as in the source. -/
def doCreditSet (env : Externals) (mLedger : Ledger) (txn : SerializedTransaction)
    (accounts : List AffectedAccount) (uSrcAccountID : Nat) :
    TransactionEngineResult × List AffectedAccount :=
  -- Check if destination makes sense.
  let uDstAccountID := txn.sfDestination
  if uDstAccountID = 0 then (tenDST_NEEDED, accounts)
  else if uSrcAccountID = uDstAccountID then (tenDST_IS_SRC, accounts)
  else
    match mLedger.getAccountRoot uDstAccountID with
    | none => (terNO_DST, accounts)
    | some _ =>
      let saLimitAmount := txn.sfLimitAmount
      let uCurrency := saLimitAmount.currency
      let bSltD : Bool := decide (uSrcAccountID < uDstAccountID)
      let uFlags := if bSltD then env.lsfLowIndexed else env.lsfHighIndexed
      let addIndex (sleRippleState : SLE) (accounts : List AffectedAccount) :
          TransactionEngineResult × List AffectedAccount :=
        -- Add entries so clients can find lines.
        let r := dirAdd mLedger accounts ltRIPPLE_STATE (env.uint160extend256 uSrcAccountID 0)
          sleRippleState.getIndex
        (r.1, r.2.1)
      match mLedger.getRippleState uSrcAccountID uDstAccountID uCurrency with
      | some sleRippleState =>
        let bAddIndex : Bool := decide (sleRippleState.getFlags &&& uFlags = 0)
        let sleRippleState := sleRippleState.setIFieldAmount
          (if bSltD then sfLowLimit else sfHighID) saLimitAmount
        let sleRippleState := if bAddIndex then sleRippleState.setFlag uFlags else sleRippleState
        let accounts := accounts ++ [(taaMODIFY, sleRippleState)]
        if bAddIndex then addIndex sleRippleState accounts else (terSUCCESS, accounts)
      | none =>
        -- Line does not exist.
        if saLimitAmount.isZero then (terNO_LINE_NO_ZERO, accounts)
        else
          let saZero := STAmount.zero uCurrency
          let sleRippleState := (SLE.make ltRIPPLE_STATE).setIndex
            (Ledger.getRippleStateIndex uSrcAccountID uDstAccountID uCurrency)
          let sleRippleState := sleRippleState.setFlag uFlags
          let sleRippleState := sleRippleState.setIFieldAmount sfBalance saZero
          let sleRippleState := sleRippleState.setIFieldAmount
            (if bSltD then sfLowLimit else sfHighLimit) saLimitAmount
          let sleRippleState := sleRippleState.setIFieldAmount
            (if bSltD then sfHighLimit else sfLowLimit) saZero
          let sleRippleState := sleRippleState.setIFieldAccount
            (if bSltD then sfLowID else sfHighID) uSrcAccountID
          let sleRippleState := sleRippleState.setIFieldAccount
            (if bSltD then sfHighID else sfLowID) uDstAccountID
          addIndex sleRippleState (accounts ++ [(taaCREATE, sleRippleState)])

/-- The function `TransactionEngine::doPayment` (source lines 647-737). -/
def doPayment (env : Externals) (mLedger : Ledger) (txn : SerializedTransaction)
    (accounts : List AffectedAccount) (srcAccountID : Nat) :
    TransactionEngineResult × List AffectedAccount :=
  let txFlags := txn.flags
  let uDstAccountID := txn.sfDestination
  if uDstAccountID = 0 then (tenINVALID, accounts)
  else if srcAccountID = uDstAccountID then (tenINVALID, accounts)
  else
    let bCreate : Bool := decide (txFlags &&& env.tfCreateAccount ≠ 0)
    let uCurrency : Nat := txn.sfCurrency.getD 0
    if txn.sfCurrency = some 0 then (tenEXPLICITXNC, accounts)
    else
      let transfer (accounts : List AffectedAccount) :
          TransactionEngineResult × List AffectedAccount :=
        let saAmount := txn.sfAmount
        if uCurrency = 0 then
          let saSrcBalance := (peekEntry accounts 0).getIValueFieldAmount sfBalance
          if saSrcBalance.lt saAmount then (terUNFUNDED, accounts)
          else
            let accounts := pokeEntry accounts 0
              (fun e => e.setIFieldAmount sfBalance (saSrcBalance.sub saAmount))
            let accounts := pokeEntry accounts 1
              (fun e => e.setIFieldAmount sfBalance
                ((e.getIValueFieldAmount sfBalance).add saAmount))
            (terSUCCESS, accounts)
        else
          -- WRITEME: Handle non-native currencies, paths
          (tenUNKNOWN, accounts)
      match mLedger.getAccountRoot uDstAccountID with
      | none =>
        -- Destination account does not exist.
        if bCreate ∧ uCurrency ≠ 0 then (tenCREATEXNC, accounts)
        else if ¬ bCreate then (terNO_DST, accounts)
        else
          -- Create the account.
          let sleDst := (((SLE.make ltACCOUNT_ROOT).setIndex
            (Ledger.getAccountRootIndex uDstAccountID)).setIFieldAccount sfAccount
            uDstAccountID).setIFieldU32 sfSequence 1
          transfer (accounts ++ [(taaCREATE, sleDst)])
      | some sleDst =>
        -- Destination exists.
        if bCreate then (terCREATED, accounts)
        else transfer (accounts ++ [(taaMODIFY, sleDst)])

/-- The function `TransactionEngine::doTransitSet` (source lines 739-856). -/
def doTransitSet (_txn : SerializedTransaction) (accounts : List AffectedAccount) :
    TransactionEngineResult × List AffectedAccount := (tenINVALID, accounts)

/-- The function `TransactionEngine::doInvoice` (source lines 858-862). -/
def doInvoice (_txn : SerializedTransaction) (accounts : List AffectedAccount) :
    TransactionEngineResult × List AffectedAccount := (tenUNKNOWN, accounts)

/-- The function `TransactionEngine::doOffer` (source lines 864-868). -/
def doOffer (_txn : SerializedTransaction) (accounts : List AffectedAccount) :
    TransactionEngineResult × List AffectedAccount := (tenUNKNOWN, accounts)

open TransactionType

/-- The first `switch` of `applyTransaction` (source lines 255-287): the required cost and
the result of the type gate. -/
def transactionCost (env : Externals) (txn : SerializedTransaction) :
    STAmount × TransactionEngineResult :=
  match txn.txnType with
  | ttCLAIM => (STAmount.native 0, terSUCCESS)
  | ttPAYMENT =>
    if txn.flags &&& env.tfCreateAccount ≠ 0 then
      (STAmount.native env.theConfig.FEE_CREATE, terSUCCESS)
    else (STAmount.native env.theConfig.FEE_DEFAULT, terSUCCESS)
  | ttINVOICE => (STAmount.native env.theConfig.FEE_DEFAULT, terSUCCESS)
  | ttOFFER => (STAmount.native env.theConfig.FEE_DEFAULT, terSUCCESS)
  | ttCREDIT_SET => (STAmount.native env.theConfig.FEE_DEFAULT, terSUCCESS)
  | ttTRANSIT_SET => (STAmount.native env.theConfig.FEE_DEFAULT, terSUCCESS)
  | ttINVALID => (STAmount.native env.theConfig.FEE_DEFAULT, tenINVALID)
  | ttOTHER _ => (STAmount.native env.theConfig.FEE_DEFAULT, tenUNKNOWN)

/-- The second `switch` of `applyTransaction` (source lines 391-425). -/
def dispatch (env : Externals) (mLedger : Ledger) (txn : SerializedTransaction)
    (accounts : List AffectedAccount) (srcAccountID : Nat) :
    TransactionEngineResult × List AffectedAccount :=
  match txn.txnType with
  | ttCLAIM => doClaim env mLedger txn accounts
  | ttCREDIT_SET => doCreditSet env mLedger txn accounts srcAccountID
  | ttINVALID => (tenINVALID, accounts)
  | ttINVOICE => doInvoice txn accounts
  | ttOFFER => doOffer txn accounts
  | ttPAYMENT => doPayment env mLedger txn accounts srcAccountID
  | ttTRANSIT_SET => doTransitSet txn accounts
  | ttOTHER _ => (tenUNKNOWN, accounts)

/-- The fee test of `applyTransaction` (source lines 292-312): the code returned early, if
any.  The test is entered when `(params & tepNO_CHECK_FEE) != tepNONE`, as in the source. -/
def checkFee (env : Externals) (params : Nat) (saCost saPaid : STAmount) :
    Option TransactionEngineResult :=
  if (params &&& env.tepNO_CHECK_FEE) ≠ tepNONE then
    if !saCost.isZero then
      if saPaid.lt saCost then some tenINSUF_FEE_P else none
    else
      if !saPaid.isZero then some tenINSUF_FEE_P else none
  else none

/-- The fee debit of `applyTransaction` (source lines 334-351): the code returned early, or
the source entry after the debit. -/
def deductFee (saCost saPaid : STAmount) (sleSrc : SLE) : Except TransactionEngineResult SLE :=
  if !saCost.isZero then
    let saSrcBalance := sleSrc.getIValueFieldAmount sfBalance
    if saSrcBalance.lt saPaid then Except.error terINSUF_FEE_B
    else Except.ok (sleSrc.setIFieldAmount sfBalance (saSrcBalance.sub saPaid))
  else Except.ok sleSrc

/-- The sequence test of `applyTransaction` (source lines 353-386): the code returned early,
or the source entry after `setIFieldU32(sfSequence, t_seq)`. -/
def validateSequence (mLedger : Ledger) (txn : SerializedTransaction) (txID : uint256)
    (saCost : STAmount) (sleSrc : SLE) : Except TransactionEngineResult SLE :=
  let t_seq := txn.sequence
  if !saCost.isZero then
    let a_seq := sleSrc.getIFieldU32 sfSequence
    if t_seq ≠ a_seq then
      if a_seq < t_seq then Except.error terPRE_SEQ
      else if mLedger.hasTransaction txID then Except.error terALREADY
      else Except.error terPAST_SEQ
    else Except.ok (sleSrc.setIFieldU32 sfSequence t_seq)
  else
    if t_seq ≠ 0 then Except.error terPAST_SEQ
    else Except.ok sleSrc

/-- The function `TransactionEngine::applyTransaction` (source lines 225-456).  Returns the
result code and the ledger after the call. -/
def applyTransaction (env : Externals) (mLedger : Ledger) (txn : SerializedTransaction)
    (params : Nat) : TransactionEngineResult × Ledger :=
  let txID := txn.transactionID
  if txID.isZero then (tenINVALID, mLedger)
  else
    -- Extract signing key, check signature
    let naPubKey := txn.signingPubKey
    if !env.checkSign txn naPubKey then (tenINVALID, mLedger)
    else
      let saCost := (transactionCost env txn).1
      let result := (transactionCost env txn).2
      if terSUCCESS ≠ result then (result, mLedger)
      else
        let saPaid := txn.transactionFee
        match checkFee env params saCost saPaid with
        | some early => (early, mLedger)
        | none =>
          -- Get source account ID.
          let srcAccountID := txn.sourceAccount
          if srcAccountID = 0 then (tenINVALID, mLedger)
          else
            -- find source account
            match mLedger.getAccountRoot srcAccountID with
            | none => (terNO_ACCOUNT, mLedger)
            | some sleSrc =>
              -- deduct the fee, so it's not available during the transaction
              match deductFee saCost saPaid sleSrc with
              | Except.error early => (early, mLedger)
              | Except.ok sleSrc =>
                -- Validate sequence
                match validateSequence mLedger txn txID saCost sleSrc with
                | Except.error early => (early, mLedger)
                | Except.ok sleSrc =>
                  let accounts : List AffectedAccount := [(taaMODIFY, sleSrc)]
                  let handled := dispatch env mLedger txn accounts srcAccountID
                  if handled.1 = terSUCCESS then
                    -- Write back the account states and add the transaction to the ledger
                    (handled.1, (commit mLedger handled.2).addTransaction txID txn saPaid)
                  else (handled.1, mLedger)

/-! ## Observations of results, and the ledgers and transactions of the examples -/

/-- The result code of a call that returned. -/
def resultOf {α : Type} : Except Fault (TransactionEngineResult × α) →
    Option TransactionEngineResult
  | Except.ok r => some r.1
  | Except.error _ => none

/-- The fault of a call that did not return. -/
def faultOf {α : Type} : Except Fault α → Option Fault
  | Except.ok _ => none
  | Except.error f => some f

/-- What a staged pair does to the store: its action and the index it acts on. -/
def stagedAt (a : AffectedAccount) : TransactionAccountAction × uint256 := (a.1, a.2.mIndex)

/-- The index list of the page with a given number, if the page is in the ledger. -/
def pageIndexes (l : Ledger) (letKind : LedgerEntryType) (uBase : uint256) (uNodeDir : Nat) :
    Option (List uint256) :=
  (l.getDirNode (Ledger.getDirNodeIndex uBase letKind uNodeDir)).map
    (fun e => e.getIFieldV256 sfIndexes)

/-- The pair `(sfFirstNode, sfLastNode)` of the directory root, if the root is in the ledger. -/
def rootBounds (l : Ledger) (letKind : LedgerEntryType) (uBase : uint256) : Option (Nat × Nat) :=
  (l.getDirRoot (Ledger.getDirIndex uBase letKind)).map
    (fun e => (e.getIFieldU64 sfFirstNode, e.getIFieldU64 sfLastNode))

/-- A directory page entry with the given keys. -/
def mkDirNode (letKind : LedgerEntryType) (uBase : uint256) (uNodeDir : Nat)
    (keys : List uint256) : SLE :=
  ((SLE.make ltDIR_NODE).setIndex (Ledger.getDirNodeIndex uBase letKind uNodeDir)).setIFieldV256
    sfIndexes keys

/-- A directory root entry with the given boundaries. -/
def mkDirRoot (letKind : LedgerEntryType) (uBase : uint256) (uFirstNode uLastNode : Nat) : SLE :=
  (((SLE.make ltDIR_ROOT).setIndex (Ledger.getDirIndex uBase letKind)).setIFieldU64 sfFirstNode
    uFirstNode).setIFieldU64 sfLastNode uLastNode

/-- The keys `value 0`, …, `value (n - 1)`. -/
def sampleKeys (n : Nat) : List uint256 := (List.range n).map uint256.value

/-- The directory base of the examples. -/
def sampleBase : uint256 := uint256.value 7

/-- A directory whose root spans pages 1 to 3 and whose page 2 is missing: page 1 holds one
key, page 3 holds one key. -/
def ledgerMissingPage : Ledger :=
  ((Ledger.empty.writeBack (mkDirRoot ltRIPPLE_STATE sampleBase 1 3)).writeBack
    (mkDirNode ltRIPPLE_STATE sampleBase 1 [uint256.value 5])).writeBack
    (mkDirNode ltRIPPLE_STATE sampleBase 3 [uint256.value 6])

/-- Successive `dirAdd` calls, each on an empty staged list, each committed before the next:
the final ledger and the node numbers returned, in call order. -/
def dirAddAll (l : Ledger) (letKind : LedgerEntryType) (uBase : uint256) :
    List uint256 → Ledger × List Nat
  | [] => (l, [])
  | uLedgerIndex :: rest =>
    let r := dirAdd l [] letKind uBase uLedgerIndex
    let next := dirAddAll (commit l r.2.1) letKind uBase rest
    (next.1, r.2.2 :: next.2)

/-- Successive `dirDelete` calls on one page, each on an empty staged list, each committed
before the next: the final ledger and the result codes, in call order. -/
def dirDeleteAll (l : Ledger) (uNodeDir : Nat) (letKind : LedgerEntryType) (uBase : uint256) :
    List uint256 → Except Fault (Ledger × List TransactionEngineResult)
  | [] => Except.ok (l, [])
  | uLedgerIndex :: rest =>
    match dirDelete l [] uNodeDir letKind uBase uLedgerIndex with
    | Except.error f => Except.error f
    | Except.ok r =>
      match dirDeleteAll (commit l r.2) uNodeDir letKind uBase rest with
      | Except.error f => Except.error f
      | Except.ok next => Except.ok (next.1, r.1 :: next.2)

/-- A directory of one page: the root spans page 1 only and page 1 holds the 32 keys
`value 0`, …, `value 31`. -/
def ledgerFullPage : Ledger :=
  (Ledger.empty.writeBack (mkDirRoot ltRIPPLE_STATE sampleBase 1 1)).writeBack
    (mkDirNode ltRIPPLE_STATE sampleBase 1 (sampleKeys 32))

/-- The ledger `ledgerFullPage` after a committed `dirAdd` of the key `value 32`. -/
def ledgerFullPageAdded : Ledger :=
  commit ledgerFullPage (dirAdd ledgerFullPage [] ltRIPPLE_STATE sampleBase (uint256.value 32)).2.1

/-- A directory of three pages with one key each: the root spans pages 1 to 3 and page `n`
holds the key `value n`. -/
def ledgerThreePages : Ledger :=
  (((Ledger.empty.writeBack (mkDirRoot ltRIPPLE_STATE sampleBase 1 3)).writeBack
    (mkDirNode ltRIPPLE_STATE sampleBase 1 [uint256.value 1])).writeBack
    (mkDirNode ltRIPPLE_STATE sampleBase 2 [uint256.value 2])).writeBack
    (mkDirNode ltRIPPLE_STATE sampleBase 3 [uint256.value 3])

/-- The staged list of a call that returned; empty for a call that did not. -/
def stagedOf : Except Fault (TransactionEngineResult × List AffectedAccount) →
    List AffectedAccount
  | Except.ok r => r.2
  | Except.error _ => []

/-- The staged deletion of the page with a given number, as action and index. -/
def deleteAt (letKind : LedgerEntryType) (uBase : uint256) (uNodeDir : Nat) :
    TransactionAccountAction × uint256 :=
  (taaDELETE, Ledger.getDirNodeIndex uBase letKind uNodeDir)

/-- A directory whose root has `sfFirstNode = 0`: the root spans pages 0 to 1, page 0 holds
the key `value 5` and page 1 holds the key `value 6`. -/
def ledgerFirstNodeZero : Ledger :=
  ((Ledger.empty.writeBack (mkDirRoot ltRIPPLE_STATE sampleBase 0 1)).writeBack
    (mkDirNode ltRIPPLE_STATE sampleBase 0 [uint256.value 5])).writeBack
    (mkDirNode ltRIPPLE_STATE sampleBase 1 [uint256.value 6])

/-- An account root entry with a native balance and a sequence number. -/
def mkAccountRoot (uAccountID : Nat) (balance : Int) (sequence : Nat) : SLE :=
  ((((SLE.make ltACCOUNT_ROOT).setIndex (Ledger.getAccountRootIndex uAccountID)).setIFieldAccount
    sfAccount uAccountID).setIFieldAmount sfBalance (STAmount.native balance)).setIFieldU32
    sfSequence sequence

/-- The balance value and the sequence number of an account, if the account is in the
ledger. -/
def accountState (l : Ledger) (uAccountID : Nat) : Option (Int × Nat) :=
  (l.getAccountRoot uAccountID).map
    (fun e => ((e.getIValueFieldAmount sfBalance).value, e.getIFieldU32 sfSequence))

/-- Externals of the examples: `FEE_DEFAULT = 10`, `FEE_CREATE = 100`, every flag is bit 0
of its word, every signature verifies, and a key's account id is its first byte. -/
def sampleExternals : Externals where
  theConfig := ⟨10, 100⟩
  tfCreateAccount := 1
  tepNO_CHECK_FEE := 1
  lsfLowIndexed := 1
  lsfHighIndexed := 2
  checkSign := fun _ _ => true
  getAccountID := fun k => k.headD 0
  accountPublicVerify := fun _ _ _ => true
  getSHA512Half := fun l => l.sum
  uint160extend256 := fun u _ => uint256.value u

/-- The ledger of the spec's scenario 2: account 1 with balance 10000 and sequence 5. -/
def ledgerScenario2 : Ledger := Ledger.empty.writeBack (mkAccountRoot 1 10000 5)

/-- The transaction of the spec's scenario 2: account 1 pays 500 to the absent account 2
with `CreateAccount`, fee 100 (`FEE_CREATE`) and sequence 5. -/
def paymentScenario2 : SerializedTransaction where
  transactionID := uint256.value 77
  signingPubKey := [1]
  txnType := ttPAYMENT
  flags := 1
  transactionFee := STAmount.native 100
  sourceAccount := 1
  sequence := 5
  sfDestination := 2
  sfCurrency := none
  sfAmount := STAmount.native 500
  sfLimitAmount := STAmount.native 0
  sfGenerator := []
  sfPubKey := []
  sfSignature := []

/-- A ledger with account 1 (balance 10000, sequence 5) and account 2 (balance 0,
sequence 1). -/
def ledgerTwoAccounts : Ledger := ledgerScenario2.writeBack (mkAccountRoot 2 0 1)

/-- A payment of 500 from account 1 to the existing account 2, without `CreateAccount`,
with a given fee and sequence 5; the required cost is `FEE_DEFAULT = 10`. -/
def paymentPlain (fee : Int) : SerializedTransaction :=
  { paymentScenario2 with flags := 0, transactionFee := STAmount.native fee }

/-- A directory of one page with four keys: the root spans page 1 only and page 1 holds the
keys `value 0`, …, `value 3`. -/
def ledgerFourKeys : Ledger :=
  (Ledger.empty.writeBack (mkDirRoot ltRIPPLE_STATE sampleBase 1 1)).writeBack
    (mkDirNode ltRIPPLE_STATE sampleBase 1 (sampleKeys 4))

/-- The transfer step of `doPayment` (source lines 713-736), as a function of the staged
list, which holds the source first and the destination second. -/
def paymentTransfer (txn : SerializedTransaction) (accounts : List AffectedAccount) :
    TransactionEngineResult × List AffectedAccount :=
  let uCurrency : Nat := txn.sfCurrency.getD 0
  let saAmount := txn.sfAmount
  if uCurrency = 0 then
    let saSrcBalance := (peekEntry accounts 0).getIValueFieldAmount sfBalance
    if saSrcBalance.lt saAmount then (terUNFUNDED, accounts)
    else
      let accounts := pokeEntry accounts 0
        (fun e => e.setIFieldAmount sfBalance (saSrcBalance.sub saAmount))
      let accounts := pokeEntry accounts 1
        (fun e => e.setIFieldAmount sfBalance
          ((e.getIValueFieldAmount sfBalance).add saAmount))
      (terSUCCESS, accounts)
  else
    -- WRITEME: Handle non-native currencies, paths
    (tenUNKNOWN, accounts)

/-- The account root `doPayment` makes for a destination that does not exist (source lines
697-701): the index, the account id and sequence 1. -/
def newAccountRoot (uDstAccountID : Nat) : SLE :=
  (((SLE.make ltACCOUNT_ROOT).setIndex (Ledger.getAccountRootIndex uDstAccountID)).setIFieldAccount
    sfAccount uDstAccountID).setIFieldU32 sfSequence 1

/-- The generator map entry `doClaim` constructs (source lines 535-539). -/
def newGeneratorMap (hGeneratorID : Nat) (vucCipher : List Nat) : SLE :=
  (((SLE.make ltGENERATOR_MAP).setIndex (Ledger.getGeneratorIndex hGeneratorID)).setIFieldH160
    sfGeneratorID hGeneratorID).setIFieldVL sfGenerator vucCipher

/-- Whether an account carries an authorized key, the key, the balance value and the
sequence number, if the account is in the ledger. -/
def claimState (l : Ledger) (uAccountID : Nat) : Option (Bool × Nat × Int × Nat) :=
  (l.getAccountRoot uAccountID).map
    (fun e => (e.getIFieldPresent sfAuthorizedKey, e.getIFieldH160 sfAuthorizedKey,
      (e.getIValueFieldAmount sfBalance).value, e.getIFieldU32 sfSequence))

/-- The generator id and the cipher of a generator map entry, if the entry is in the
ledger. -/
def generatorState (l : Ledger) (uGeneratorID : Nat) : Option (Nat × List Nat) :=
  (l.getGenerator uGeneratorID).map
    (fun e => (e.getIFieldH160 sfGeneratorID, e.getIFieldVL sfGenerator))

/-- The ledger of the spec's scenario 1: account 1 with balance 1000 and sequence 0,
unclaimed. -/
def ledgerScenario1 : Ledger := Ledger.empty.writeBack (mkAccountRoot 1 1000 0)

/-- The transaction of the spec's scenario 1: a claim of account 1 with fee 0 and
sequence 0, signed by the key `[1]`, for the public key `[1]` and the cipher `[9, 9]`. -/
def claimScenario1 : SerializedTransaction where
  transactionID := uint256.value 78
  signingPubKey := [1]
  txnType := ttCLAIM
  flags := 0
  transactionFee := STAmount.native 0
  sourceAccount := 1
  sequence := 0
  sfDestination := 0
  sfCurrency := none
  sfAmount := STAmount.native 0
  sfLimitAmount := STAmount.native 0
  sfGenerator := [9, 9]
  sfPubKey := [1]
  sfSignature := [5]

/-- A fee schedule without fees: `FEE_DEFAULT = 0` and `FEE_CREATE = 0`; everything else is
as in `sampleExternals`. -/
def freeExternals : Externals := { sampleExternals with theConfig := ⟨0, 0⟩ }

/-- The fee that `addTransaction` recorded for the transaction logged last. -/
def lastFeeRecorded (l : Ledger) : Option STAmount := l.mTransactions.getLast?.map (fun t => t.2.2)

/-- The ids, the limits, the balance and the flags of a credit line, if the line is in the
ledger: `(low_id, high_id, low_limit, high_limit, balance, flags)`. -/
def lineState (l : Ledger) (uA uB uCurrency : Nat) : Option (Nat × Nat × Int × Int × Int × Nat) :=
  (l.getRippleState uA uB uCurrency).map
    (fun e => (e.getIFieldAccount sfLowID, e.getIFieldAccount sfHighID,
      (e.getIValueFieldAmount sfLowLimit).value, (e.getIValueFieldAmount sfHighLimit).value,
      (e.getIValueFieldAmount sfBalance).value, e.getFlags))

/-- A ledger with account 3 and account 5, each with balance 1000 and sequence 1, and
without credit lines. -/
def ledgerAccounts35 : Ledger :=
  (Ledger.empty.writeBack (mkAccountRoot 3 1000 1)).writeBack (mkAccountRoot 5 1000 1)

/-- A `CREDIT_SET` from `src` to `dst` with a limit in currency 7, fee 10 (`FEE_DEFAULT`) and
sequence 1, signed by the key of `src`. -/
def creditSet (src dst : Nat) (limit : Int) (txid : Nat) : SerializedTransaction where
  transactionID := uint256.value txid
  signingPubKey := [src]
  txnType := ttCREDIT_SET
  flags := 0
  transactionFee := STAmount.native 10
  sourceAccount := src
  sequence := 1
  sfDestination := dst
  sfCurrency := none
  sfAmount := STAmount.native 0
  sfLimitAmount := ⟨7, limit⟩
  sfGenerator := []
  sfPubKey := []
  sfSignature := []

/-- The ledger `ledgerAccounts35` after account 3, the low side, has opened a line to
account 5 with limit 100. -/
def ledgerLineFromLow : Ledger :=
  (applyTransaction sampleExternals ledgerAccounts35 (creditSet 3 5 100 80) tepNONE).2

/-- The ledger `ledgerAccounts35` after account 5, the high side, has opened a line to
account 3 with limit 100. -/
def ledgerLineFromHigh : Ledger :=
  (applyTransaction sampleExternals ledgerAccounts35 (creditSet 5 3 100 80) tepNONE).2

/-- What a run of the coalescing loop did, beyond its result: the number of iterations, the
node numbers of the replacement pages it fetched, and whether an increment or a decrement
of a node number left the range of a `uint64`. -/
structure LoopTrace where
  iterations : Nat
  fetched : List Nat
  wrapped : Bool
  deriving DecidableEq, Repr

/-- The `while` loop of `dirDelete` (source lines 168-199) as in `dirDeleteLoop`, with a
trace that the source does not keep: every iteration is counted, every node number passed
to `getDirNode` is recorded, and `wrapped` is raised when `++uNodeCur`, `++uFirstNode`,
`--uNodeCur` or `--uLastNode` wraps. -/
def dirDeleteLoopTrace (mLedger : Ledger) (letKind : LedgerEntryType) (uBase : uint256) :
    Nat → Nat → Nat → Nat → SLE → List uint256 → List AffectedAccount → LoopTrace →
    Except Fault ((Nat × Nat × List AffectedAccount) × LoopTrace)
  | fuel, uFirstNode, uLastNode, uNodeCur, sleNode, svIndexes, accounts, trace =>
    if uFirstNode ≠ 0 ∧ svIndexes = [] ∧ (uFirstNode = uNodeCur ∨ uLastNode = uNodeCur) then
      match fuel with
      | 0 => Except.error Fault.outOfFuel
      | fuel + 1 =>
        -- Current node is empty and first or last, delete it.
        let accounts := accounts ++ [(taaDELETE, sleNode)]
        if uFirstNode = uLastNode then
          -- Complete deletion.
          dirDeleteLoopTrace mLedger letKind uBase fuel 0 uLastNode uNodeCur sleNode svIndexes
            accounts { trace with iterations := trace.iterations + 1 }
        else
          let uNodeNext : Nat :=
            if uFirstNode = uNodeCur then (uNodeCur + 1) % UINT64_SIZE
            else (uNodeCur + (UINT64_SIZE - 1)) % UINT64_SIZE
          let uFirstNext : Nat :=
            if uFirstNode = uNodeCur then (uFirstNode + 1) % UINT64_SIZE else uFirstNode
          let uLastNext : Nat :=
            if uFirstNode = uNodeCur then uLastNode
            else (uLastNode + (UINT64_SIZE - 1)) % UINT64_SIZE
          let wraps : Bool :=
            if uFirstNode = uNodeCur then
              decide (UINT64_SIZE ≤ uNodeCur + 1 ∨ UINT64_SIZE ≤ uFirstNode + 1)
            else decide (uNodeCur = 0 ∨ uLastNode = 0)
          -- Get replacement node.
          match mLedger.getDirNode (Ledger.getDirNodeIndex uBase letKind uNodeNext) with
          | none => Except.error Fault.nullDeref
          | some sleNext =>
            dirDeleteLoopTrace mLedger letKind uBase fuel uFirstNext uLastNext uNodeNext sleNext
              (sleNext.getIFieldV256 sfIndexes) accounts
              { iterations := trace.iterations + 1, fetched := trace.fetched ++ [uNodeNext],
                wrapped := trace.wrapped || wraps }
    else Except.ok ((uFirstNode, uLastNode, accounts), trace)

/-- The trace of a run, if the run returned. -/
def traceOf {α : Type} : Except Fault (α × LoopTrace) → Option LoopTrace
  | Except.ok r => some r.2
  | Except.error _ => none

/-- A directory whose root spans pages 1 to 4 and whose interior pages are empty: page 1
holds the key `value 1`, pages 2 and 3 hold no key, page 4 holds the key `value 4`. -/
def ledgerEmptyInterior : Ledger :=
  ((((Ledger.empty.writeBack (mkDirRoot ltRIPPLE_STATE sampleBase 1 4)).writeBack
    (mkDirNode ltRIPPLE_STATE sampleBase 1 [uint256.value 1])).writeBack
    (mkDirNode ltRIPPLE_STATE sampleBase 2 [])).writeBack
    (mkDirNode ltRIPPLE_STATE sampleBase 3 [])).writeBack
    (mkDirNode ltRIPPLE_STATE sampleBase 4 [uint256.value 4])

/-- The indexed flag of the submitter's side (source lines 583-584): `lsfLowIndexed` when
the source id is below the destination id, `lsfHighIndexed` otherwise. -/
def sideFlag (env : Externals) (uSrcAccountID uDstAccountID : Nat) : Nat :=
  if uSrcAccountID < uDstAccountID then env.lsfLowIndexed else env.lsfHighIndexed

/-- The field the existing-line branch of `doCreditSet` writes the limit to (source line
594): `sfLowLimit` for the low side, `sfHighID` for the high side. -/
def sideLimitField (uSrcAccountID uDstAccountID : Nat) : SField :=
  if uSrcAccountID < uDstAccountID then sfLowLimit else sfHighID

/-- Successive `applyTransaction` calls with the same parameters, each on the ledger the
call before it left. -/
def applyAll (env : Externals) (l : Ledger) (txns : List SerializedTransaction)
    (params : Nat) : Ledger :=
  txns.foldl (fun acc txn => (applyTransaction env acc txn params).2) l

/-- Every account root of the ledger has a non-negative balance. -/
def balancesNonNegative (l : Ledger) : Prop :=
  ∀ (uAccountID : Nat) (e : SLE), l.getAccountRoot uAccountID = some e →
    0 ≤ (e.getIValueFieldAmount sfBalance).value

/-- A payment of a given amount from account 1 to the existing account 2, without
`CreateAccount`, with a given fee and sequence 5. -/
def paymentOf (fee amount : Int) : SerializedTransaction :=
  { paymentPlain fee with sfAmount := STAmount.native amount }

theorem UINT64_SIZE_eq : UINT64_SIZE = 18446744073709551616 := by
  unfold UINT64_SIZE; norm_num

theorem SLE.getIFieldV256_setIFieldV256 (e : SLE) (f : SField) (l : List uint256) :
    (e.setIFieldV256 f l).getIFieldV256 f = l := by
  simp [SLE.getIFieldV256, SLE.setIFieldV256, SLE.setField]

@[simp] theorem SLE.setField_mIndex (e : SLE) (f : SField) (v : STValue) :
    (e.setField f v).mIndex = e.mIndex := rfl

@[simp] theorem SLE.setIFieldV256_mIndex (e : SLE) (f : SField) (l : List uint256) :
    (e.setIFieldV256 f l).mIndex = e.mIndex := rfl

@[simp] theorem SLE.setIFieldU64_mIndex (e : SLE) (f : SField) (n : Nat) :
    (e.setIFieldU64 f n).mIndex = e.mIndex := rfl

@[simp] theorem SLE.setIFieldU32_mIndex (e : SLE) (f : SField) (n : Nat) :
    (e.setIFieldU32 f n).mIndex = e.mIndex := rfl

@[simp] theorem SLE.setIFieldAmount_mIndex (e : SLE) (f : SField) (a : STAmount) :
    (e.setIFieldAmount f a).mIndex = e.mIndex := rfl

@[simp] theorem SLE.setIFieldAccount_mIndex (e : SLE) (f : SField) (n : Nat) :
    (e.setIFieldAccount f n).mIndex = e.mIndex := rfl

@[simp] theorem SLE.setFlag_mIndex (e : SLE) (f : Nat) : (e.setFlag f).mIndex = e.mIndex := rfl

@[simp] theorem SLE.setIndex_mIndex (e : SLE) (i : uint256) : (e.setIndex i).mIndex = i := rfl

@[simp] theorem SLE.getIFieldV256_setIndex (e : SLE) (i : uint256) (f : SField) :
    (e.setIndex i).getIFieldV256 f = e.getIFieldV256 f := rfl

@[simp] theorem SLE.getIFieldU64_setIndex (e : SLE) (i : uint256) (f : SField) :
    (e.setIndex i).getIFieldU64 f = e.getIFieldU64 f := rfl

@[simp] theorem SLE.getIFieldU32_setIndex (e : SLE) (i : uint256) (f : SField) :
    (e.setIndex i).getIFieldU32 f = e.getIFieldU32 f := rfl

theorem SLE.getIFieldU64_lt (e : SLE) (f : SField) : e.getIFieldU64 f < UINT64_SIZE := by
  unfold SLE.getIFieldU64
  split
  · exact Nat.mod_lt _ (by unfold UINT64_SIZE; positivity)
  · unfold UINT64_SIZE; positivity

theorem SLE.getIFieldU32_lt (e : SLE) (f : SField) : e.getIFieldU32 f < UINT32_SIZE := by
  unfold SLE.getIFieldU32
  split
  · exact Nat.mod_lt _ (by unfold UINT32_SIZE; positivity)
  · unfold UINT32_SIZE; positivity

@[simp] theorem SLE.getIFieldU64_setIFieldU64 (e : SLE) (f : SField) (n : Nat) :
    (e.setIFieldU64 f n).getIFieldU64 f = n % UINT64_SIZE := by
  simp [SLE.getIFieldU64, SLE.setIFieldU64, SLE.setField]

theorem SLE.getIFieldU64_setIFieldU64_ne (e : SLE) (f g : SField) (n : Nat) (h : g ≠ f) :
    (e.setIFieldU64 f n).getIFieldU64 g = e.getIFieldU64 g := by
  simp [SLE.getIFieldU64, SLE.setIFieldU64, SLE.setField, h]

@[simp] theorem SLE.getIFieldU32_setIFieldU32 (e : SLE) (f : SField) (n : Nat) :
    (e.setIFieldU32 f n).getIFieldU32 f = n % UINT32_SIZE := by
  simp [SLE.getIFieldU32, SLE.setIFieldU32, SLE.setField]

theorem SLE.getIFieldU32_setIFieldAmount (e : SLE) (f g : SField) (a : STAmount) (h : g ≠ f) :
    (e.setIFieldAmount f a).getIFieldU32 g = e.getIFieldU32 g := by
  simp [SLE.getIFieldU32, SLE.setIFieldAmount, SLE.setField, h]

@[simp] theorem mkDirNode_mIndex (letKind : LedgerEntryType) (uBase : uint256) (n : Nat)
    (ks : List uint256) :
    (mkDirNode letKind uBase n ks).mIndex = Ledger.getDirNodeIndex uBase letKind n := rfl

@[simp] theorem mkDirNode_indexes (letKind : LedgerEntryType) (uBase : uint256) (n : Nat)
    (ks : List uint256) : (mkDirNode letKind uBase n ks).getIFieldV256 sfIndexes = ks := by
  simp [mkDirNode, SLE.getIFieldV256, SLE.setIFieldV256, SLE.setField]

@[simp] theorem mkDirRoot_mIndex (letKind : LedgerEntryType) (uBase : uint256) (f l : Nat) :
    (mkDirRoot letKind uBase f l).mIndex = Ledger.getDirIndex uBase letKind := rfl

/-! ## Lemmas on ledger reads and on the write-back loop -/

theorem Ledger.getASNode_mIndex (l : Ledger) (i : uint256) (e : SLE)
    (h : l.getASNode i = some e) : e.mIndex = i := by
  unfold Ledger.getASNode at h
  cases hm : l.mAccountStateMap i with
  | none => rw [hm] at h; cases h
  | some e0 =>
    rw [hm] at h
    simp only [Option.map_some', Option.some.injEq] at h
    rw [← h]; rfl

theorem Ledger.getDirNode_mIndex (l : Ledger) (i : uint256) (e : SLE)
    (h : l.getDirNode i = some e) : e.mIndex = i := Ledger.getASNode_mIndex l i e h

theorem Ledger.getDirRoot_mIndex (l : Ledger) (i : uint256) (e : SLE)
    (h : l.getDirRoot i = some e) : e.mIndex = i := Ledger.getASNode_mIndex l i e h

theorem Ledger.getRippleState_mIndex (l : Ledger) (uA uB uCurrency : Nat) (e : SLE)
    (h : l.getRippleState uA uB uCurrency = some e) :
    e.mIndex = Ledger.getRippleStateIndex uA uB uCurrency :=
  Ledger.getASNode_mIndex l _ e h

theorem dirNodeIndex_ne_dirIndex (uBase uBase2 : uint256) (letKind letKind2 : LedgerEntryType)
    (n : Nat) : Ledger.getDirIndex uBase letKind ≠ Ledger.getDirNodeIndex uBase2 letKind2 n := by
  intro h; cases h

theorem dirNodeIndex_inj (uBase : uint256) (letKind : LedgerEntryType) (n m : Nat)
    (h : Ledger.getDirNodeIndex uBase letKind n = Ledger.getDirNodeIndex uBase letKind m) :
    n = m := by
  cases h; rfl

theorem getRippleStateIndex_ne_account (uA uB uCurrency id : Nat) :
    Ledger.getRippleStateIndex uA uB uCurrency ≠ Ledger.getAccountRootIndex id := by
  unfold Ledger.getRippleStateIndex
  split_ifs <;> (intro h; cases h)

theorem commit_nil (l : Ledger) : commit l [] = l := rfl

theorem commit_cons (l : Ledger) (a : AffectedAccount) (rest : List AffectedAccount) :
    commit l (a :: rest) = commit (commitOne l a) rest := rfl

theorem commitOne_map (l : Ledger) (a : AffectedAccount) (i : uint256) :
    (commitOne l a).mAccountStateMap i =
      if i = a.2.mIndex then (if a.1 = taaDELETE then none else some a.2)
      else l.mAccountStateMap i := by
  obtain ⟨act, e⟩ := a
  cases act <;> simp [commitOne, Ledger.writeBack, Ledger.delItem, SLE.getIndex]

/-- What the write-back loop leaves under an index: the entry that was there, nothing, or
an entry of the staged list that was written back under that index. -/
theorem commit_map_cases (staged : List AffectedAccount) :
    ∀ (l : Ledger) (i : uint256),
      (commit l staged).mAccountStateMap i = l.mAccountStateMap i ∨
      (commit l staged).mAccountStateMap i = none ∨
      ∃ a ∈ staged, a.1 ≠ taaDELETE ∧ a.2.mIndex = i ∧
        (commit l staged).mAccountStateMap i = some a.2 := by
  induction staged with
  | nil => intro l i; left; rfl
  | cons a rest ih =>
    intro l i
    rw [commit_cons]
    rcases ih (commitOne l a) i with h | h | ⟨b, hb, h1, h2, h3⟩
    · rw [h, commitOne_map]
      by_cases hi : i = a.2.mIndex
      · rw [if_pos hi]
        by_cases hd : a.1 = taaDELETE
        · right; left; rw [if_pos hd]
        · right; right
          refine ⟨a, List.mem_cons_self _ _, hd, hi.symm, ?_⟩
          rw [if_neg hd]
      · left; rw [if_neg hi]
    · right; left; exact h
    · right; right
      exact ⟨b, List.mem_cons_of_mem _ hb, h1, h2, h3⟩

theorem commit_map_of_not_staged (staged : List AffectedAccount) (i : uint256) :
    ∀ l : Ledger, (∀ b ∈ staged, b.2.mIndex ≠ i) →
      (commit l staged).mAccountStateMap i = l.mAccountStateMap i := by
  induction staged with
  | nil => intro l _; rfl
  | cons a rest ih =>
    intro l h
    rw [commit_cons, ih _ (fun b hb => h b (List.mem_cons_of_mem _ hb)), commitOne_map,
      if_neg (fun hi => h a (List.mem_cons_self _ _) hi.symm)]

theorem pageIndexes_eq_some (l : Ledger) (letKind : LedgerEntryType) (uBase : uint256)
    (n : Nat) (ks : List uint256) :
    pageIndexes l letKind uBase n = some ks ↔
      ∃ e, l.mAccountStateMap (Ledger.getDirNodeIndex uBase letKind n) = some e ∧
        e.getIFieldV256 sfIndexes = ks := by
  unfold pageIndexes Ledger.getDirNode Ledger.getASNode
  cases l.mAccountStateMap (Ledger.getDirNodeIndex uBase letKind n) <;> simp

theorem pageIndexes_eq_some_getDirNode (l : Ledger) (letKind : LedgerEntryType)
    (uBase : uint256) (n : Nat) (ks : List uint256) :
    pageIndexes l letKind uBase n = some ks ↔
      ∃ e, l.getDirNode (Ledger.getDirNodeIndex uBase letKind n) = some e ∧
        e.getIFieldV256 sfIndexes = ks := by
  unfold pageIndexes
  cases l.getDirNode (Ledger.getDirNodeIndex uBase letKind n) <;> simp

theorem pageIndexes_of_getDirNode (l : Ledger) (letKind : LedgerEntryType) (uBase : uint256)
    (n : Nat) (e : SLE) (h : l.getDirNode (Ledger.getDirNodeIndex uBase letKind n) = some e) :
    pageIndexes l letKind uBase n = some (e.getIFieldV256 sfIndexes) := by
  unfold pageIndexes; rw [h]; rfl

theorem pageIndexes_nonempty_of_ne (l : Ledger) (letKind : LedgerEntryType) (uBase : uint256)
    (n : Nat) (h1 : (pageIndexes l letKind uBase n).isSome)
    (h2 : pageIndexes l letKind uBase n ≠ some []) :
    ∃ ks, pageIndexes l letKind uBase n = some ks ∧ ks ≠ [] := by
  obtain ⟨ks, hks⟩ := Option.isSome_iff_exists.mp h1
  refine ⟨ks, hks, ?_⟩
  intro h; rw [h] at hks; exact h2 hks

theorem pageIndexes_empty_of_not (l : Ledger) (letKind : LedgerEntryType) (uBase : uint256)
    (n : Nat) (h2 : ¬ pageIndexes l letKind uBase n ≠ some []) :
    pageIndexes l letKind uBase n = some [] := not_not.mp h2

theorem rootBounds_eq_some_getDirRoot (l : Ledger) (letKind : LedgerEntryType)
    (uBase : uint256) (f t : Nat) :
    rootBounds l letKind uBase = some (f, t) ↔
      ∃ e, l.getDirRoot (Ledger.getDirIndex uBase letKind) = some e ∧
        e.getIFieldU64 sfFirstNode = f ∧ e.getIFieldU64 sfLastNode = t := by
  unfold rootBounds
  cases l.getDirRoot (Ledger.getDirIndex uBase letKind) <;> simp

theorem rootBounds_of_getDirRoot (l : Ledger) (letKind : LedgerEntryType) (uBase : uint256)
    (e : SLE) (h : l.getDirRoot (Ledger.getDirIndex uBase letKind) = some e) :
    rootBounds l letKind uBase = some (e.getIFieldU64 sfFirstNode, e.getIFieldU64 sfLastNode) := by
  unfold rootBounds; rw [h]; rfl

theorem pageIndexes_commitOne (l : Ledger) (a : AffectedAccount) (letKind : LedgerEntryType)
    (uBase : uint256) (n : Nat) :
    pageIndexes (commitOne l a) letKind uBase n =
      if Ledger.getDirNodeIndex uBase letKind n = a.2.mIndex then
        (if a.1 = taaDELETE then none else some (a.2.getIFieldV256 sfIndexes))
      else pageIndexes l letKind uBase n := by
  unfold pageIndexes Ledger.getDirNode Ledger.getASNode
  rw [commitOne_map]
  split_ifs <;> simp

theorem rootBounds_commitOne (l : Ledger) (a : AffectedAccount) (letKind : LedgerEntryType)
    (uBase : uint256) :
    rootBounds (commitOne l a) letKind uBase =
      if Ledger.getDirIndex uBase letKind = a.2.mIndex then
        (if a.1 = taaDELETE then none
          else some (a.2.getIFieldU64 sfFirstNode, a.2.getIFieldU64 sfLastNode))
      else rootBounds l letKind uBase := by
  unfold rootBounds Ledger.getDirRoot Ledger.getASNode
  rw [commitOne_map]
  split_ifs <;> simp

theorem commit_pageIndexes (P : List uint256 → Prop) (l : Ledger)
    (staged : List AffectedAccount) (letKind : LedgerEntryType) (uBase : uint256) (n : Nat)
    (hold : ∀ ks, pageIndexes l letKind uBase n = some ks → P ks)
    (hnew : ∀ a ∈ staged, a.1 ≠ taaDELETE →
      a.2.mIndex = Ledger.getDirNodeIndex uBase letKind n → P (a.2.getIFieldV256 sfIndexes))
    (ks : List uint256) (h : pageIndexes (commit l staged) letKind uBase n = some ks) : P ks := by
  obtain ⟨e, he, hks⟩ := (pageIndexes_eq_some _ _ _ _ _).mp h
  rcases commit_map_cases staged l (Ledger.getDirNodeIndex uBase letKind n) with h1 | h1 | h1
  · rw [h1] at he
    exact hold ks ((pageIndexes_eq_some _ _ _ _ _).mpr ⟨e, he, hks⟩)
  · rw [h1] at he; cases he
  · obtain ⟨a, ha, hd, hi, hv⟩ := h1
    rw [hv] at he
    cases he
    rw [← hks]
    exact hnew a ha hd hi

theorem eq_ok_of_resultOf (r : Except Fault (TransactionEngineResult × List AffectedAccount))
    (t : TransactionEngineResult) (h : resultOf r = some t) :
    r = Except.ok (t, stagedOf r) := by
  cases r with
  | error f => cases h
  | ok p =>
    obtain ⟨t2, acc⟩ := p
    simp only [resultOf, Option.some.injEq] at h
    subst h; rfl

theorem map_stagedAt_cancel (accounts dels : List AffectedAccount)
    (sigs : List (TransactionAccountAction × uint256))
    (h : (accounts ++ dels).map stagedAt = accounts.map stagedAt ++ sigs) :
    dels.map stagedAt = sigs := by
  rw [List.map_append] at h
  exact List.append_cancel_left h

/-! ## Removal of a key from a page -/

theorem removeEntry_length (xs : List uint256) (k : uint256) :
    (removeEntry xs k).length = xs.length - 1 := by
  unfold removeEntry
  split_ifs <;> simp

theorem removeEntry_singleton (k : uint256) : removeEntry [k] k = [] := by
  simp [removeEntry]

theorem removeEntry_last (a : List uint256) (k : uint256) (hk : k ∉ a) :
    removeEntry (a ++ [k]) k = a := by
  unfold removeEntry
  have hi : List.indexOf k (a ++ [k]) = a.length := by
    rw [List.indexOf_append_of_not_mem hk, List.indexOf_cons_self]; rfl
  have hl : (a ++ [k]).getLastD k = k := by simp [List.getLastD_eq_getLast?]
  simp only [hi, hl]
  have hs : (a ++ [k]).set a.length k = a ++ [k] := by
    rw [List.set_append_right _ _ (le_refl _)]; simp
  rw [hs]
  split_ifs <;> simp

theorem removeEntry_inner (a b : List uint256) (k z : uint256) (hk : k ∉ a) :
    removeEntry (a ++ k :: (b ++ [z])) k = a ++ z :: b := by
  unfold removeEntry
  have hi : List.indexOf k (a ++ k :: (b ++ [z])) = a.length := by
    rw [List.indexOf_append_of_not_mem hk, List.indexOf_cons_self]; rfl
  have hl : (a ++ k :: (b ++ [z])).getLastD k = z := by
    simp [List.getLastD_eq_getLast?, List.getLast?_append, List.getLast?_cons]
  have hlen : (a ++ k :: (b ++ [z])).length > 1 := by simp; omega
  simp only [hi, hl, if_pos hlen]
  rw [List.set_append_right _ _ (le_refl _)]
  simp only [Nat.sub_self, List.set_cons_zero]
  rw [List.dropLast_append_cons]
  congr 1
  rw [← List.cons_append, List.dropLast_concat]

/-- The removal step takes exactly one occurrence of the key out of the page. -/
theorem removeEntry_perm (xs : List uint256) (k : uint256) (hk : k ∈ xs) :
    List.Perm xs (k :: removeEntry xs k) := by
  obtain ⟨a, b, hx, hka⟩ := List.eq_append_cons_of_mem hk
  subst hx
  rcases List.eq_nil_or_concat b with hb | ⟨b2, z, hb⟩
  · subst hb
    rw [removeEntry_last a k hka]
    exact List.perm_append_singleton k a
  · rw [List.concat_eq_append] at hb
    subst hb
    rw [removeEntry_inner a b2 k z hka]
    have h1 : List.Perm (a ++ k :: (b2 ++ [z])) (k :: (a ++ (b2 ++ [z]))) :=
      List.perm_middle
    have h2 : List.Perm (a ++ (b2 ++ [z])) (a ++ z :: b2) :=
      List.Perm.append_left a (List.perm_append_singleton z b2)
    exact h1.trans (List.Perm.cons k h2)

/-! ## The branches of `dirAdd` (C1, C2, C3) -/

theorem dirAdd_root_absent (mLedger : Ledger) (accounts : List AffectedAccount)
    (letKind : LedgerEntryType) (uBase uLedgerIndex : uint256)
    (hroot : mLedger.getDirRoot (Ledger.getDirIndex uBase letKind) = none) :
    dirAdd mLedger accounts letKind uBase uLedgerIndex =
      (terSUCCESS,
        accounts ++ [(taaCREATE, mkDirRoot letKind uBase 1 1)]
          ++ [(taaCREATE, mkDirNode letKind uBase 1 [uLedgerIndex])], 1) := by
  unfold dirAdd
  simp [hroot, mkDirRoot, mkDirNode]

theorem dirAdd_page_absent (mLedger : Ledger) (accounts : List AffectedAccount)
    (letKind : LedgerEntryType) (uBase uLedgerIndex : uint256) (sleRoot : SLE)
    (hroot : mLedger.getDirRoot (Ledger.getDirIndex uBase letKind) = some sleRoot)
    (hpage : mLedger.getDirNode
      (Ledger.getDirNodeIndex uBase letKind (sleRoot.getIFieldU64 sfLastNode)) = none) :
    dirAdd mLedger accounts letKind uBase uLedgerIndex =
      (terSUCCESS,
        accounts ++ [(taaCREATE,
          mkDirNode letKind uBase (sleRoot.getIFieldU64 sfLastNode) [uLedgerIndex])],
        sleRoot.getIFieldU64 sfLastNode) := by
  unfold dirAdd
  simp [hroot, hpage, mkDirNode]

theorem dirAdd_append (mLedger : Ledger) (accounts : List AffectedAccount)
    (letKind : LedgerEntryType) (uBase uLedgerIndex : uint256) (sleRoot sleNode : SLE)
    (hroot : mLedger.getDirRoot (Ledger.getDirIndex uBase letKind) = some sleRoot)
    (hpage : mLedger.getDirNode
      (Ledger.getDirNodeIndex uBase letKind (sleRoot.getIFieldU64 sfLastNode)) = some sleNode)
    (hroom : (sleNode.getIFieldV256 sfIndexes).length ≠ DIR_NODE_MAX) :
    dirAdd mLedger accounts letKind uBase uLedgerIndex =
      (terSUCCESS,
        accounts ++ [(taaMODIFY,
          sleNode.setIFieldV256 sfIndexes (sleNode.getIFieldV256 sfIndexes ++ [uLedgerIndex]))],
        sleRoot.getIFieldU64 sfLastNode) := by
  unfold dirAdd
  simp [hroot, hpage, Ne.symm hroom]

/-- The full-page branch of `dirAdd`: the root is staged with `sfLastNode` one higher and
that number is returned, but the new page is staged under `uNodeIndex`, the index of the
full page. -/
theorem dirAdd_full_page (mLedger : Ledger) (accounts : List AffectedAccount)
    (letKind : LedgerEntryType) (uBase uLedgerIndex : uint256) (sleRoot sleNode : SLE)
    (hroot : mLedger.getDirRoot (Ledger.getDirIndex uBase letKind) = some sleRoot)
    (hpage : mLedger.getDirNode
      (Ledger.getDirNodeIndex uBase letKind (sleRoot.getIFieldU64 sfLastNode)) = some sleNode)
    (hfull : (sleNode.getIFieldV256 sfIndexes).length = DIR_NODE_MAX)
    (hlast : sleRoot.getIFieldU64 sfLastNode + 1 < UINT64_SIZE) :
    dirAdd mLedger accounts letKind uBase uLedgerIndex =
      (terSUCCESS,
        accounts ++ [(taaMODIFY,
            sleRoot.setIFieldU64 sfLastNode (sleRoot.getIFieldU64 sfLastNode + 1))]
          ++ [(taaCREATE,
            mkDirNode letKind uBase (sleRoot.getIFieldU64 sfLastNode) [uLedgerIndex])],
        sleRoot.getIFieldU64 sfLastNode + 1) := by
  unfold dirAdd
  simp [hroot, hpage, hfull, mkDirNode, Nat.mod_eq_of_lt hlast]

theorem dirAdd_dir_full (mLedger : Ledger) (accounts : List AffectedAccount)
    (letKind : LedgerEntryType) (uBase uLedgerIndex : uint256) (sleRoot sleNode : SLE)
    (hroot : mLedger.getDirRoot (Ledger.getDirIndex uBase letKind) = some sleRoot)
    (hpage : mLedger.getDirNode
      (Ledger.getDirNodeIndex uBase letKind (sleRoot.getIFieldU64 sfLastNode)) = some sleNode)
    (hfull : (sleNode.getIFieldV256 sfIndexes).length = DIR_NODE_MAX)
    (hlast : sleRoot.getIFieldU64 sfLastNode + 1 = UINT64_SIZE) :
    dirAdd mLedger accounts letKind uBase uLedgerIndex = (terDIR_FULL, accounts, 0) := by
  unfold dirAdd
  simp [hroot, hpage, hfull, hlast]

theorem dirAdd_result (mLedger : Ledger) (accounts : List AffectedAccount)
    (letKind : LedgerEntryType) (uBase uLedgerIndex : uint256) :
    (dirAdd mLedger accounts letKind uBase uLedgerIndex).1 = terSUCCESS ∨
    (dirAdd mLedger accounts letKind uBase uLedgerIndex).1 = terDIR_FULL := by
  unfold dirAdd
  dsimp only
  repeat' split
  all_goals simp

theorem dirAdd_staged_shape (mLedger : Ledger) (accounts : List AffectedAccount)
    (letKind : LedgerEntryType) (uBase uLedgerIndex : uint256) :
    ∃ extra, (dirAdd mLedger accounts letKind uBase uLedgerIndex).2.1 = accounts ++ extra ∧
      ∀ a ∈ extra, ∀ id, a.2.mIndex ≠ Ledger.getAccountRootIndex id := by
  cases hroot : mLedger.getDirRoot (Ledger.getDirIndex uBase letKind) with
  | none =>
    rw [dirAdd_root_absent _ _ _ _ _ hroot]
    refine ⟨_, List.append_assoc _ _ _, ?_⟩
    intro a ha id
    simp only [List.cons_append, List.nil_append, List.mem_cons, List.mem_singleton,
      List.not_mem_nil, or_false] at ha
    rcases ha with ha | ha <;> rw [ha] <;> intro h <;> cases h
  | some sleRoot =>
    have hri := Ledger.getDirRoot_mIndex _ _ _ hroot
    cases hpage : mLedger.getDirNode
        (Ledger.getDirNodeIndex uBase letKind (sleRoot.getIFieldU64 sfLastNode)) with
    | none =>
      rw [dirAdd_page_absent _ _ _ _ _ _ hroot hpage]
      refine ⟨_, rfl, ?_⟩
      intro a ha id
      rw [List.mem_singleton.mp ha]
      intro h; cases h
    | some sleNode =>
      have hni := Ledger.getDirNode_mIndex _ _ _ hpage
      by_cases hroom : (sleNode.getIFieldV256 sfIndexes).length = DIR_NODE_MAX
      · by_cases hlast : sleRoot.getIFieldU64 sfLastNode + 1 = UINT64_SIZE
        · rw [dirAdd_dir_full _ _ _ _ _ _ _ hroot hpage hroom hlast]
          exact ⟨[], by simp, by simp⟩
        · have hlt := SLE.getIFieldU64_lt sleRoot sfLastNode
          rw [dirAdd_full_page _ _ _ _ _ _ _ hroot hpage hroom (by omega)]
          refine ⟨_, List.append_assoc _ _ _, ?_⟩
          intro a ha id
          simp only [List.cons_append, List.nil_append, List.mem_cons, List.mem_singleton,
            List.not_mem_nil, or_false] at ha
          rcases ha with ha | ha
          · rw [ha]
            simp only [SLE.setIFieldU64_mIndex, hri]
            intro h; cases h
          · rw [ha]; intro h; cases h
      · rw [dirAdd_append _ _ _ _ _ _ _ hroot hpage hroom]
        refine ⟨_, rfl, ?_⟩
        intro a ha id
        rw [List.mem_singleton.mp ha]
        simp only [SLE.setIFieldV256_mIndex, hni]
        intro h; cases h

/-- C1 (code at the failing input): 33 committed `dirAdd` calls on the empty ledger return
1 thirty-two times and then 2 and leave the root at `(1, 2)`, but the 33rd call stages its
new page under the index of page 1: after the commit page 1 holds the 33rd key alone and
there is no page 2. -/
theorem dirAdd_overflow_overwrites_full_page :
    (dirAddAll Ledger.empty ltRIPPLE_STATE sampleBase (sampleKeys 33)).2
      = List.replicate 32 1 ++ [2] ∧
    pageIndexes (dirAddAll Ledger.empty ltRIPPLE_STATE sampleBase (sampleKeys 32)).1
      ltRIPPLE_STATE sampleBase 1 = some (sampleKeys 32) ∧
    (dirAdd (dirAddAll Ledger.empty ltRIPPLE_STATE sampleBase (sampleKeys 32)).1 []
        ltRIPPLE_STATE sampleBase (uint256.value 32)).2.1.map stagedAt
      = [(taaMODIFY, Ledger.getDirIndex sampleBase ltRIPPLE_STATE),
         (taaCREATE, Ledger.getDirNodeIndex sampleBase ltRIPPLE_STATE 1)] ∧
    rootBounds (dirAddAll Ledger.empty ltRIPPLE_STATE sampleBase (sampleKeys 33)).1
      ltRIPPLE_STATE sampleBase = some (1, 2) ∧
    pageIndexes (dirAddAll Ledger.empty ltRIPPLE_STATE sampleBase (sampleKeys 33)).1
      ltRIPPLE_STATE sampleBase 1 = some [uint256.value 32] ∧
    pageIndexes (dirAddAll Ledger.empty ltRIPPLE_STATE sampleBase (sampleKeys 33)).1
      ltRIPPLE_STATE sampleBase 2 = none := by
  decide

/-- C2 (code at the failing input): on a directory whose page 1 is full, `dirAdd` returns
`terSUCCESS` with node number 2, but the page it stages is under the index of page 1: after
the commit there is no page 2, and the key is in page 1. -/
theorem dirAdd_returned_page_missing :
    (dirAdd ledgerFullPage [] ltRIPPLE_STATE sampleBase (uint256.value 32)).1 = terSUCCESS ∧
    (dirAdd ledgerFullPage [] ltRIPPLE_STATE sampleBase (uint256.value 32)).2.2 = 2 ∧
    (dirAdd ledgerFullPage [] ltRIPPLE_STATE sampleBase (uint256.value 32)).2.1.map stagedAt
      = [(taaMODIFY, Ledger.getDirIndex sampleBase ltRIPPLE_STATE),
         (taaCREATE, Ledger.getDirNodeIndex sampleBase ltRIPPLE_STATE 1)] ∧
    pageIndexes ledgerFullPageAdded ltRIPPLE_STATE sampleBase 2 = none ∧
    pageIndexes ledgerFullPageAdded ltRIPPLE_STATE sampleBase 1 = some [uint256.value 32] := by
  decide

/-- C3 (code at the failing input): on a directory whose page 1 is full, a committed `dirAdd`
returns node number 2; `dirDelete` of that node number and key returns
`terNODE_NOT_FOUND`, and the directory differs from its state before the
`dirAdd` in the root and in page 1. -/
theorem dirAdd_dirDelete_full_page_not_restored :
    rootBounds ledgerFullPage ltRIPPLE_STATE sampleBase = some (1, 1) ∧
    pageIndexes ledgerFullPage ltRIPPLE_STATE sampleBase 1 = some (sampleKeys 32) ∧
    (dirAdd ledgerFullPage [] ltRIPPLE_STATE sampleBase (uint256.value 32)).1 = terSUCCESS ∧
    (dirAdd ledgerFullPage [] ltRIPPLE_STATE sampleBase (uint256.value 32)).2.2 = 2 ∧
    resultOf (dirDelete ledgerFullPageAdded [] 2 ltRIPPLE_STATE sampleBase (uint256.value 32))
      = some terNODE_NOT_FOUND ∧
    rootBounds ledgerFullPageAdded ltRIPPLE_STATE sampleBase = some (1, 2) ∧
    pageIndexes ledgerFullPageAdded ltRIPPLE_STATE sampleBase 1 = some [uint256.value 32] := by
  decide

/-! ## The coalescing loop of `dirDelete` -/

theorem dirDeleteLoop_stop (mLedger : Ledger) (letKind : LedgerEntryType) (uBase : uint256)
    (fuel uFirstNode uLastNode uNodeCur : Nat) (sleNode : SLE) (svIndexes : List uint256)
    (accounts : List AffectedAccount)
    (h : ¬ (uFirstNode ≠ 0 ∧ svIndexes = [] ∧ (uFirstNode = uNodeCur ∨ uLastNode = uNodeCur))) :
    dirDeleteLoop mLedger letKind uBase fuel uFirstNode uLastNode uNodeCur sleNode svIndexes
      accounts = Except.ok (uFirstNode, uLastNode, accounts) := by
  unfold dirDeleteLoop
  rw [if_neg h]

theorem dirDeleteLoop_step (mLedger : Ledger) (letKind : LedgerEntryType) (uBase : uint256)
    (fuel uFirstNode uLastNode uNodeCur : Nat) (sleNode : SLE) (svIndexes : List uint256)
    (accounts : List AffectedAccount)
    (h : uFirstNode ≠ 0 ∧ svIndexes = [] ∧ (uFirstNode = uNodeCur ∨ uLastNode = uNodeCur)) :
    dirDeleteLoop mLedger letKind uBase (fuel + 1) uFirstNode uLastNode uNodeCur sleNode svIndexes
      accounts =
      if uFirstNode = uLastNode then
        dirDeleteLoop mLedger letKind uBase fuel 0 uLastNode uNodeCur sleNode svIndexes
          (accounts ++ [(taaDELETE, sleNode)])
      else
        match mLedger.getDirNode (Ledger.getDirNodeIndex uBase letKind
            (if uFirstNode = uNodeCur then (uNodeCur + 1) % UINT64_SIZE
              else (uNodeCur + (UINT64_SIZE - 1)) % UINT64_SIZE)) with
        | none => Except.error Fault.nullDeref
        | some sleNext =>
          dirDeleteLoop mLedger letKind uBase fuel
            (if uFirstNode = uNodeCur then (uFirstNode + 1) % UINT64_SIZE else uFirstNode)
            (if uFirstNode = uNodeCur then uLastNode
              else (uLastNode + (UINT64_SIZE - 1)) % UINT64_SIZE)
            (if uFirstNode = uNodeCur then (uNodeCur + 1) % UINT64_SIZE
              else (uNodeCur + (UINT64_SIZE - 1)) % UINT64_SIZE)
            sleNext (sleNext.getIFieldV256 sfIndexes) (accounts ++ [(taaDELETE, sleNode)]) := by
  rw [dirDeleteLoop]
  rw [if_pos h]

/-- With all pages of the range present and `uFirstNode ≤ uLastNode`, the coalescing loop
returns when it has one unit of fuel for every page of the range. -/
theorem dirDeleteLoop_returns (mLedger : Ledger) (letKind : LedgerEntryType) (uBase : uint256)
    (fuel : Nat) :
    ∀ (uFirstNode uLastNode uNodeCur : Nat) (sleNode : SLE) (svIndexes : List uint256)
      (accounts : List AffectedAccount),
      uFirstNode ≤ uLastNode → uLastNode < UINT64_SIZE →
      (∀ n, uFirstNode ≤ n → n ≤ uLastNode →
        (mLedger.getDirNode (Ledger.getDirNodeIndex uBase letKind n)).isSome) →
      uLastNode - uFirstNode < fuel →
      ∃ r, dirDeleteLoop mLedger letKind uBase fuel uFirstNode uLastNode uNodeCur sleNode
        svIndexes accounts = Except.ok r := by
  induction fuel with
  | zero => intro _ _ _ _ _ _ _ _ _ h; omega
  | succ fuel ih =>
    intro uFirstNode uLastNode uNodeCur sleNode svIndexes accounts hle hlt hpages hfuel
    by_cases h : uFirstNode ≠ 0 ∧ svIndexes = [] ∧ (uFirstNode = uNodeCur ∨ uLastNode = uNodeCur)
    · rw [dirDeleteLoop_step _ _ _ _ _ _ _ _ _ _ h]
      by_cases hfl : uFirstNode = uLastNode
      · rw [if_pos hfl]
        exact ⟨_, dirDeleteLoop_stop _ _ _ _ _ _ _ _ _ _ (by simp)⟩
      · rw [if_neg hfl]
        have hlt2 : uFirstNode < uLastNode := by omega
        rw [UINT64_SIZE_eq] at hlt ⊢
        by_cases hc : uFirstNode = uNodeCur
        · simp only [if_pos hc]
          have hn : (uNodeCur + 1) % 18446744073709551616 = uFirstNode + 1 := by omega
          have hf : (uFirstNode + 1) % 18446744073709551616 = uFirstNode + 1 := by omega
          rw [hn, hf]
          have hp := hpages (uFirstNode + 1) (by omega) (by omega)
          obtain ⟨p, hp⟩ := Option.isSome_iff_exists.mp hp
          rw [hp]
          exact ih _ _ _ _ _ _ (by omega) (by rw [UINT64_SIZE_eq]; omega)
            (fun n h1 h2 => hpages n (by omega) h2) (by omega)
        · simp only [if_neg hc]
          have hcl : uLastNode = uNodeCur := by
            rcases h.2.2 with h1 | h1
            · exact absurd h1 hc
            · exact h1
          have hn : (uNodeCur + (18446744073709551616 - 1)) % 18446744073709551616
              = uLastNode - 1 := by omega
          have hl : (uLastNode + (18446744073709551616 - 1)) % 18446744073709551616
              = uLastNode - 1 := by omega
          rw [hn, hl]
          have hp := hpages (uLastNode - 1) (by omega) (by omega)
          obtain ⟨p, hp⟩ := Option.isSome_iff_exists.mp hp
          rw [hp]
          exact ih _ _ _ _ _ _ (by omega) (by rw [UINT64_SIZE_eq]; omega)
            (fun n h1 h2 => hpages n h1 (by omega)) (by omega)
    · exact ⟨_, dirDeleteLoop_stop _ _ _ _ _ _ _ _ _ _ h⟩

theorem dirDeleteLoop_no_fault (mLedger : Ledger) (letKind : LedgerEntryType) (uBase : uint256)
    (fuel uFirstNode uLastNode uNodeCur : Nat) (sleNode : SLE) (svIndexes : List uint256)
    (accounts : List AffectedAccount)
    (hle : uFirstNode ≤ uLastNode) (hlt : uLastNode < UINT64_SIZE)
    (hpages : ∀ n, uFirstNode ≤ n → n ≤ uLastNode →
      (mLedger.getDirNode (Ledger.getDirNodeIndex uBase letKind n)).isSome)
    (hfuel : uLastNode - uFirstNode < fuel) (f : Fault) :
    dirDeleteLoop mLedger letKind uBase fuel uFirstNode uLastNode uNodeCur sleNode svIndexes
      accounts ≠ Except.error f := by
  intro h
  obtain ⟨r, hr⟩ := dirDeleteLoop_returns mLedger letKind uBase fuel uFirstNode uLastNode
    uNodeCur sleNode svIndexes accounts hle hlt hpages hfuel
  rw [hr] at h
  cases h

/-- The coalescing loop only appends `taaDELETE` pairs to the staged list. -/
theorem dirDeleteLoop_appends_deletes (mLedger : Ledger) (letKind : LedgerEntryType)
    (uBase : uint256) (fuel : Nat) :
    ∀ (uFirstNode uLastNode uNodeCur : Nat) (sleNode : SLE) (svIndexes : List uint256)
      (accounts : List AffectedAccount) (r : Nat × Nat × List AffectedAccount),
      dirDeleteLoop mLedger letKind uBase fuel uFirstNode uLastNode uNodeCur sleNode svIndexes
        accounts = Except.ok r →
      ∃ dels, r.2.2 = accounts ++ dels ∧ ∀ a ∈ dels, a.1 = taaDELETE := by
  induction fuel with
  | zero =>
    intro uFirstNode uLastNode uNodeCur sleNode svIndexes accounts r h
    by_cases hc : uFirstNode ≠ 0 ∧ svIndexes = [] ∧ (uFirstNode = uNodeCur ∨ uLastNode = uNodeCur)
    · unfold dirDeleteLoop at h
      rw [if_pos hc] at h
      cases h
    · rw [dirDeleteLoop_stop _ _ _ _ _ _ _ _ _ _ hc] at h
      cases h; exact ⟨[], by simp, by simp⟩
  | succ fuel ih =>
    intro uFirstNode uLastNode uNodeCur sleNode svIndexes accounts r h
    by_cases hc : uFirstNode ≠ 0 ∧ svIndexes = [] ∧ (uFirstNode = uNodeCur ∨ uLastNode = uNodeCur)
    · rw [dirDeleteLoop_step _ _ _ _ _ _ _ _ _ _ hc] at h
      have key : ∀ (f l c : Nat) (n : SLE) (sv : List uint256),
          dirDeleteLoop mLedger letKind uBase fuel f l c n sv
            (accounts ++ [(taaDELETE, sleNode)]) = Except.ok r →
          ∃ dels, r.2.2 = accounts ++ dels ∧ ∀ a ∈ dels, a.1 = taaDELETE := by
        intro f l c n sv h2
        obtain ⟨dels, hd1, hd2⟩ := ih f l c n sv _ r h2
        refine ⟨(taaDELETE, sleNode) :: dels, by rw [hd1]; simp, ?_⟩
        intro a ha
        rcases List.mem_cons.mp ha with h3 | h3
        · rw [h3]
        · exact hd2 a h3
      by_cases hfl : uFirstNode = uLastNode
      · rw [if_pos hfl] at h
        exact key _ _ _ _ _ h
      · rw [if_neg hfl] at h
        split at h
        · cases h
        · exact key _ _ _ _ _ h
    · rw [dirDeleteLoop_stop _ _ _ _ _ _ _ _ _ _ hc] at h
      cases h; exact ⟨[], by simp, by simp⟩

/-- The loop on the first page: it deletes the current page and the `k - 1` empty pages
that follow it, and stops at the first non-empty page, `k` pages further. -/
theorem dirDeleteLoop_advance (mLedger : Ledger) (letKind : LedgerEntryType) (uBase : uint256)
    (uLastNode : Nat) (hl : uLastNode < UINT64_SIZE) (k : Nat) :
    ∀ (fuel c : Nat) (sleNode : SLE) (svIndexes : List uint256)
      (accounts : List AffectedAccount),
      1 ≤ c → c + k ≤ uLastNode → k ≤ fuel →
      sleNode.mIndex = Ledger.getDirNodeIndex uBase letKind c →
      (k = 0 → svIndexes ≠ []) → (0 < k → svIndexes = []) →
      (∀ j, 1 ≤ j → j < k → pageIndexes mLedger letKind uBase (c + j) = some []) →
      (0 < k → ∃ ks, pageIndexes mLedger letKind uBase (c + k) = some ks ∧ ks ≠ []) →
      ∃ acc, dirDeleteLoop mLedger letKind uBase fuel c uLastNode c sleNode svIndexes accounts
          = Except.ok (c + k, uLastNode, acc) ∧
        acc.map stagedAt = accounts.map stagedAt ++
          (List.range' c k).map (fun n => (taaDELETE, Ledger.getDirNodeIndex uBase letKind n)) := by
  induction k with
  | zero =>
    intro fuel c sleNode svIndexes accounts _ _ _ _ hsv _ _ _
    refine ⟨accounts, ?_, by simp⟩
    exact dirDeleteLoop_stop _ _ _ _ _ _ _ _ _ _ (fun h => hsv rfl h.2.1)
  | succ k ih =>
    intro fuel c sleNode svIndexes accounts hc hck hfuel hidx _ hsv hempty hstop
    obtain ⟨fuel, rfl⟩ : ∃ m, fuel = m + 1 := ⟨fuel - 1, by omega⟩
    have hcond : c ≠ 0 ∧ svIndexes = [] ∧ (c = c ∨ uLastNode = c) :=
      ⟨by omega, hsv (by omega), Or.inl rfl⟩
    rw [dirDeleteLoop_step _ _ _ _ _ _ _ _ _ _ hcond]
    rw [if_neg (by omega : ¬ c = uLastNode)]
    simp only [if_true]
    have hmod : (c + 1) % UINT64_SIZE = c + 1 := Nat.mod_eq_of_lt (by omega)
    rw [hmod]
    have hnext : ∃ e, mLedger.getDirNode (Ledger.getDirNodeIndex uBase letKind (c + 1)) = some e ∧
        (k = 0 → e.getIFieldV256 sfIndexes ≠ []) ∧ (0 < k → e.getIFieldV256 sfIndexes = []) := by
      rcases Nat.eq_zero_or_pos k with hk | hk
      · subst hk
        obtain ⟨ks, h1, h2⟩ := hstop (by omega)
        obtain ⟨e, he1, he2⟩ := (pageIndexes_eq_some_getDirNode _ _ _ _ _).mp h1
        exact ⟨e, he1, fun _ => by rw [he2]; exact h2, fun h => absurd h (by omega)⟩
      · obtain ⟨e, he1, he2⟩ := (pageIndexes_eq_some_getDirNode _ _ _ _ _).mp
          (hempty 1 (le_refl _) (by omega))
        exact ⟨e, he1, fun h => absurd h (by omega), fun _ => he2⟩
    obtain ⟨e, he, hz, hp⟩ := hnext
    rw [he]
    simp only
    obtain ⟨acc, hacc1, hacc2⟩ := ih fuel (c + 1) e (e.getIFieldV256 sfIndexes)
      (accounts ++ [(taaDELETE, sleNode)]) (by omega) (by omega) (by omega)
      (Ledger.getDirNode_mIndex _ _ _ he) hz hp
      (fun j h1 h2 => by
        have := hempty (j + 1) (by omega) (by omega)
        rwa [show c + (j + 1) = c + 1 + j by omega] at this)
      (fun h => by
        have := hstop (by omega)
        rwa [show c + (k + 1) = c + 1 + k by omega] at this)
    refine ⟨acc, ?_, ?_⟩
    · rw [hacc1, show c + (k + 1) = c + 1 + k by omega]
    · rw [hacc2, List.range'_succ]
      simp [stagedAt, hidx]

/-- The loop on the last page: it deletes the current page and the `k - 1` empty pages
before it, and stops at the first non-empty page, `k` pages back. -/
theorem dirDeleteLoop_rewind (mLedger : Ledger) (letKind : LedgerEntryType) (uBase : uint256)
    (uFirstNode t : Nat) (hf : 1 ≤ uFirstNode) (hft : uFirstNode ≤ t) (k : Nat) :
    ∀ (fuel : Nat) (sleNode : SLE) (svIndexes : List uint256)
      (accounts : List AffectedAccount),
      t + k < UINT64_SIZE → k ≤ fuel →
      sleNode.mIndex = Ledger.getDirNodeIndex uBase letKind (t + k) →
      (k = 0 → svIndexes ≠ []) → (0 < k → svIndexes = []) →
      (∀ j, 1 ≤ j → j < k → pageIndexes mLedger letKind uBase (t + j) = some []) →
      (0 < k → ∃ ks, pageIndexes mLedger letKind uBase t = some ks ∧ ks ≠ []) →
      ∃ acc, dirDeleteLoop mLedger letKind uBase fuel uFirstNode (t + k) (t + k) sleNode
          svIndexes accounts = Except.ok (uFirstNode, t, acc) ∧
        acc.map stagedAt = accounts.map stagedAt ++
          (List.range' (t + 1) k).reverse.map
            (fun n => (taaDELETE, Ledger.getDirNodeIndex uBase letKind n)) := by
  induction k with
  | zero =>
    intro fuel sleNode svIndexes accounts _ _ _ hsv _ _ _
    refine ⟨accounts, ?_, by simp⟩
    exact dirDeleteLoop_stop _ _ _ _ _ _ _ _ _ _ (fun h => hsv rfl h.2.1)
  | succ k ih =>
    intro fuel sleNode svIndexes accounts hlt hfuel hidx _ hsv hempty hstop
    obtain ⟨fuel, rfl⟩ : ∃ m, fuel = m + 1 := ⟨fuel - 1, by omega⟩
    have hcond : uFirstNode ≠ 0 ∧ svIndexes = [] ∧
        (uFirstNode = t + (k + 1) ∨ t + (k + 1) = t + (k + 1)) :=
      ⟨by omega, hsv (by omega), Or.inr rfl⟩
    rw [dirDeleteLoop_step _ _ _ _ _ _ _ _ _ _ hcond]
    have hne : ¬ uFirstNode = t + (k + 1) := by omega
    simp only [if_neg hne]
    have hmod : (t + (k + 1) + (UINT64_SIZE - 1)) % UINT64_SIZE = t + k := by
      rw [UINT64_SIZE_eq] at hlt ⊢; omega
    rw [hmod]
    have hnext : ∃ e, mLedger.getDirNode (Ledger.getDirNodeIndex uBase letKind (t + k)) = some e ∧
        (k = 0 → e.getIFieldV256 sfIndexes ≠ []) ∧ (0 < k → e.getIFieldV256 sfIndexes = []) := by
      rcases Nat.eq_zero_or_pos k with hk | hk
      · subst hk
        obtain ⟨ks, h1, h2⟩ := hstop (by omega)
        obtain ⟨e, he1, he2⟩ := (pageIndexes_eq_some_getDirNode _ _ _ _ _).mp h1
        exact ⟨e, he1, fun _ => by rw [he2]; exact h2, fun h => absurd h (by omega)⟩
      · obtain ⟨e, he1, he2⟩ := (pageIndexes_eq_some_getDirNode _ _ _ _ _).mp
          (hempty k (by omega) (by omega))
        exact ⟨e, he1, fun h => absurd h (by omega), fun _ => he2⟩
    obtain ⟨e, he, hz, hp⟩ := hnext
    rw [he]
    simp only
    obtain ⟨acc, hacc1, hacc2⟩ := ih fuel e (e.getIFieldV256 sfIndexes)
      (accounts ++ [(taaDELETE, sleNode)]) (by omega) (by omega)
      (Ledger.getDirNode_mIndex _ _ _ he) hz hp
      (fun j h1 h2 => hempty j h1 (by omega))
      (fun _ => hstop (by omega))
    refine ⟨acc, hacc1, ?_⟩
    rw [hacc2, List.range'_1_concat]
    simp only [List.reverse_append, List.reverse_cons, List.reverse_nil, List.nil_append,
      List.singleton_append, List.map_append, List.map_cons, List.map_nil, stagedAt, hidx,
      List.append_assoc, List.cons_append]
    rw [show t + 1 + k = t + (k + 1) by omega]

theorem dirDeleteLoop_fuel_advance (mLedger : Ledger) (letKind : LedgerEntryType)
    (uBase : uint256) (fuel : Nat) :
    ∀ (uFirstNode uLastNode : Nat) (sleNode : SLE) (svIndexes : List uint256)
      (accounts : List AffectedAccount),
      uFirstNode < UINT64_SIZE → UINT64_SIZE - uFirstNode ≤ fuel →
      dirDeleteLoop mLedger letKind uBase fuel uFirstNode uLastNode uFirstNode sleNode
        svIndexes accounts ≠ Except.error Fault.outOfFuel := by
  induction fuel with
  | zero => intro f _ _ _ _ h1 h2; omega
  | succ fuel ih =>
    intro f l sleNode sv accounts h1 h2
    by_cases hc : f ≠ 0 ∧ sv = [] ∧ (f = f ∨ l = f)
    · rw [dirDeleteLoop_step _ _ _ _ _ _ _ _ _ _ hc]
      by_cases hfl : f = l
      · rw [if_pos hfl, dirDeleteLoop_stop _ _ _ _ _ _ _ _ _ _ (by simp)]
        intro h; cases h
      · rw [if_neg hfl]
        simp only [if_true]
        split
        · intro h; cases h
        · by_cases hw : (f + 1) % UINT64_SIZE = 0
          · rw [hw, dirDeleteLoop_stop _ _ _ _ _ _ _ _ _ _ (by simp)]
            intro h; cases h
          · have hlt : f + 1 < UINT64_SIZE := by
              rcases Nat.lt_or_ge (f + 1) UINT64_SIZE with h | h
              · exact h
              · exfalso
                have : f + 1 = UINT64_SIZE := by omega
                rw [this, Nat.mod_self] at hw
                exact hw rfl
            rw [Nat.mod_eq_of_lt hlt]
            exact ih _ _ _ _ _ hlt (by omega)
    · rw [dirDeleteLoop_stop _ _ _ _ _ _ _ _ _ _ hc]
      intro h; cases h

theorem dirDeleteLoop_fuel_rewind (mLedger : Ledger) (letKind : LedgerEntryType)
    (uBase : uint256) (fuel : Nat) :
    ∀ (uFirstNode uLastNode : Nat) (sleNode : SLE) (svIndexes : List uint256)
      (accounts : List AffectedAccount),
      uFirstNode < UINT64_SIZE → uLastNode < UINT64_SIZE →
      (uLastNode + UINT64_SIZE - uFirstNode) % UINT64_SIZE + 1 ≤ fuel →
      dirDeleteLoop mLedger letKind uBase fuel uFirstNode uLastNode uLastNode sleNode
        svIndexes accounts ≠ Except.error Fault.outOfFuel := by
  induction fuel with
  | zero => intro f l _ _ _ _ _ h; omega
  | succ fuel ih =>
    intro f l sleNode sv accounts h1 h2 h3
    by_cases hc : f ≠ 0 ∧ sv = [] ∧ (f = l ∨ l = l)
    · rw [dirDeleteLoop_step _ _ _ _ _ _ _ _ _ _ hc]
      by_cases hfl : f = l
      · rw [if_pos hfl, dirDeleteLoop_stop _ _ _ _ _ _ _ _ _ _ (by simp)]
        intro h; cases h
      · simp only [if_neg hfl]
        split
        · intro h; cases h
        · refine ih _ _ _ _ _ h1 (Nat.mod_lt _ (by rw [UINT64_SIZE_eq]; omega)) ?_
          rw [UINT64_SIZE_eq] at h1 h2 h3 ⊢
          omega
    · rw [dirDeleteLoop_stop _ _ _ _ _ _ _ _ _ _ hc]
      intro h; cases h

/-- The `2 ^ 64` iterations that `dirDelete` grants its loop are enough: the call never
stops for lack of fuel. -/
theorem dirDelete_fuel_suffices (mLedger : Ledger) (accounts : List AffectedAccount)
    (uNodeDir : Nat) (letKind : LedgerEntryType) (uBase uLedgerIndex : uint256)
    (hnode : uNodeDir < UINT64_SIZE) :
    faultOf (dirDelete mLedger accounts uNodeDir letKind uBase uLedgerIndex)
      ≠ some Fault.outOfFuel := by
  cases hpage : mLedger.getDirNode (Ledger.getDirNodeIndex uBase letKind uNodeDir) with
  | none => unfold dirDelete; simp [hpage, faultOf]
  | some sleNode =>
    by_cases hin : uLedgerIndex ∈ sleNode.getIFieldV256 sfIndexes
    · cases hroot : mLedger.getDirRoot (Ledger.getDirIndex uBase letKind) with
      | none => unfold dirDelete; simp [hpage, hroot, hin, faultOf]
      | some sleRoot =>
        unfold dirDelete
        simp only [hpage, hroot, hin, not_true_eq_false, if_false]
        split
        · rename_i f heq
          intro h
          simp only [faultOf, Option.some.injEq] at h
          subst h
          revert heq
          by_cases hc : sleRoot.getIFieldU64 sfFirstNode = uNodeDir
          · rw [hc]
            exact dirDeleteLoop_fuel_advance _ _ _ _ _ _ _ _ _ hnode
              (by rw [UINT64_SIZE_eq]; omega)
          · by_cases hc2 : sleRoot.getIFieldU64 sfLastNode = uNodeDir
            · rw [hc2]
              refine dirDeleteLoop_fuel_rewind _ _ _ _ _ _ _ _ _
                (SLE.getIFieldU64_lt _ _) hnode ?_
              have := Nat.mod_lt (uNodeDir + UINT64_SIZE - sleRoot.getIFieldU64 sfFirstNode)
                (show UINT64_SIZE > 0 by rw [UINT64_SIZE_eq]; omega)
              omega
            · rw [dirDeleteLoop_stop _ _ _ _ _ _ _ _ _ _ (by
                intro h
                rcases h.2.2 with h1 | h1
                · exact hc h1
                · exact hc2 h1)]
              intro h; cases h
        · split_ifs <;> simp [faultOf]
    · unfold dirDelete; simp [hpage, hin, faultOf]

/-! ## The failure classification of `dirDelete` (C4) -/

/-- C4 (amended): `dirDelete` returns `terNODE_NOT_FOUND` iff the page is missing; otherwise
`terNODE_NOT_MENTIONED` iff the key does not occur in the page; otherwise `terNODE_NO_ROOT`
iff the root is missing; in these three cases the staged list comes back unchanged.
Otherwise every result it returns is `terSUCCESS`, and it does return `terSUCCESS` when
`sfFirstNode ≤ sfLastNode` and every page of that range is in the ledger. -/
theorem dirDelete_failure_classification (mLedger : Ledger) (accounts : List AffectedAccount)
    (uNodeDir : Nat) (letKind : LedgerEntryType) (uBase uLedgerIndex : uint256) :
    (resultOf (dirDelete mLedger accounts uNodeDir letKind uBase uLedgerIndex)
        = some terNODE_NOT_FOUND ↔
      mLedger.getDirNode (Ledger.getDirNodeIndex uBase letKind uNodeDir) = none) ∧
    (∀ sleNode, mLedger.getDirNode (Ledger.getDirNodeIndex uBase letKind uNodeDir)
        = some sleNode →
      (resultOf (dirDelete mLedger accounts uNodeDir letKind uBase uLedgerIndex)
          = some terNODE_NOT_MENTIONED ↔ uLedgerIndex ∉ sleNode.getIFieldV256 sfIndexes) ∧
      (uLedgerIndex ∈ sleNode.getIFieldV256 sfIndexes →
        (resultOf (dirDelete mLedger accounts uNodeDir letKind uBase uLedgerIndex)
            = some terNODE_NO_ROOT ↔
          mLedger.getDirRoot (Ledger.getDirIndex uBase letKind) = none) ∧
        (∀ sleRoot, mLedger.getDirRoot (Ledger.getDirIndex uBase letKind) = some sleRoot →
          (∀ t, resultOf (dirDelete mLedger accounts uNodeDir letKind uBase uLedgerIndex)
            = some t → t = terSUCCESS) ∧
          (sleRoot.getIFieldU64 sfFirstNode ≤ sleRoot.getIFieldU64 sfLastNode →
            (∀ n, sleRoot.getIFieldU64 sfFirstNode ≤ n → n ≤ sleRoot.getIFieldU64 sfLastNode →
              (mLedger.getDirNode (Ledger.getDirNodeIndex uBase letKind n)).isSome) →
            resultOf (dirDelete mLedger accounts uNodeDir letKind uBase uLedgerIndex)
              = some terSUCCESS)))) ∧
    (∀ t, t = terNODE_NOT_FOUND ∨ t = terNODE_NOT_MENTIONED ∨ t = terNODE_NO_ROOT →
      resultOf (dirDelete mLedger accounts uNodeDir letKind uBase uLedgerIndex) = some t →
      dirDelete mLedger accounts uNodeDir letKind uBase uLedgerIndex
        = Except.ok (t, accounts)) := by
  cases hpage : mLedger.getDirNode (Ledger.getDirNodeIndex uBase letKind uNodeDir) with
  | none =>
    have hr : dirDelete mLedger accounts uNodeDir letKind uBase uLedgerIndex
        = Except.ok (terNODE_NOT_FOUND, accounts) := by
      unfold dirDelete; simp only [hpage]
    rw [hr]
    refine ⟨?_, ?_, ?_⟩
    · simp [resultOf]
    · intro s hs; cases hs
    · intro t _ ht
      simp only [resultOf, Option.some.injEq] at ht
      rw [ht]
  | some sleNode =>
    by_cases hin : uLedgerIndex ∈ sleNode.getIFieldV256 sfIndexes
    · cases hroot : mLedger.getDirRoot (Ledger.getDirIndex uBase letKind) with
      | none =>
        have hr : dirDelete mLedger accounts uNodeDir letKind uBase uLedgerIndex
            = Except.ok (terNODE_NO_ROOT, accounts) := by
          unfold dirDelete; simp only [hpage, hroot, hin, not_true_eq_false, if_false]
        rw [hr]
        refine ⟨?_, ?_, ?_⟩
        · simp [resultOf]
        · intro s hs
          cases hs
          refine ⟨?_, fun _ => ⟨?_, ?_⟩⟩
          · simp [resultOf, hin]
          · simp [resultOf]
          · intro r hr2; cases hr2
        · intro t _ ht
          simp only [resultOf, Option.some.injEq] at ht
          rw [ht]
      | some sleRoot =>
        have hr : ∀ t, resultOf (dirDelete mLedger accounts uNodeDir letKind uBase uLedgerIndex)
            = some t → t = terSUCCESS := by
          intro t
          unfold dirDelete
          simp only [hpage, hroot, hin, not_true_eq_false, if_false]
          split
          · simp [resultOf]
          · split_ifs <;> simp [resultOf] <;> exact fun h => h.symm
        refine ⟨?_, ?_, ?_⟩
        · constructor
          · intro h; have := hr _ h; cases this
          · intro h; cases h
        · intro s hs
          cases hs
          refine ⟨?_, fun _ => ⟨?_, ?_⟩⟩
          · constructor
            · intro h; have := hr _ h; cases this
            · intro h; exact absurd hin h
          · constructor
            · intro h; have := hr _ h; cases this
            · intro h; cases h
          · intro r hr2
            cases hr2
            refine ⟨hr, ?_⟩
            intro hle hpages
            have hlt := SLE.getIFieldU64_lt sleRoot sfLastNode
            unfold dirDelete
            simp only [hpage, hroot, hin, not_true_eq_false, if_false]
            split
            · rename_i f heq
              exact absurd heq (dirDeleteLoop_no_fault _ _ _ _ _ _ _ _ _ _ hle hlt hpages
                (by omega) f)
            · split_ifs <;> simp [resultOf]
        · intro t ht1 ht2
          have := hr _ ht2
          subst this
          rcases ht1 with h | h | h <;> cases h
    · have hr : dirDelete mLedger accounts uNodeDir letKind uBase uLedgerIndex
          = Except.ok (terNODE_NOT_MENTIONED, accounts) := by
        unfold dirDelete; simp only [hpage, hin, not_false_eq_true, if_true]
      rw [hr]
      refine ⟨?_, ?_, ?_⟩
      · simp [resultOf]
      · intro s hs
        cases hs
        refine ⟨?_, fun h => absurd h hin⟩
        simp [resultOf, hin]
      · intro t _ ht
        simp only [resultOf, Option.some.injEq] at ht
        rw [ht]

/-- C4 (counterexample): in `ledgerMissingPage` page 1 is present and mentions the key and the
root is present, yet `dirDelete` does not return `terSUCCESS`: page 1 becomes empty, the loop
advances to page 2, which is missing, and reads it through a null pointer. -/
theorem dirDelete_missing_page_not_success :
    pageIndexes ledgerMissingPage ltRIPPLE_STATE sampleBase 1 = some [uint256.value 5] ∧
    rootBounds ledgerMissingPage ltRIPPLE_STATE sampleBase = some (1, 3) ∧
    pageIndexes ledgerMissingPage ltRIPPLE_STATE sampleBase 2 = none ∧
    resultOf (dirDelete ledgerMissingPage [] 1 ltRIPPLE_STATE sampleBase (uint256.value 5))
      ≠ some terSUCCESS ∧
    faultOf (dirDelete ledgerMissingPage [] 1 ltRIPPLE_STATE sampleBase (uint256.value 5))
      = some Fault.nullDeref := by
  decide

/-! ## Coalescing (C5) -/

/-- The call `dirDelete` when the key is the only key of a boundary page: no `taaMODIFY` of
the page is staged and the loop starts on the emptied page. -/
theorem dirDelete_emptied_boundary (mLedger : Ledger) (accounts : List AffectedAccount)
    (uNodeDir : Nat) (letKind : LedgerEntryType) (uBase uLedgerIndex : uint256)
    (sleNode sleRoot : SLE)
    (hnode : mLedger.getDirNode (Ledger.getDirNodeIndex uBase letKind uNodeDir) = some sleNode)
    (hin : uLedgerIndex ∈ sleNode.getIFieldV256 sfIndexes)
    (hroot : mLedger.getDirRoot (Ledger.getDirIndex uBase letKind) = some sleRoot)
    (hempties : removeEntry (sleNode.getIFieldV256 sfIndexes) uLedgerIndex = [])
    (hcur : sleRoot.getIFieldU64 sfFirstNode = uNodeDir ∨
      sleRoot.getIFieldU64 sfLastNode = uNodeDir) :
    dirDelete mLedger accounts uNodeDir letKind uBase uLedgerIndex =
      match dirDeleteLoop mLedger letKind uBase UINT64_SIZE (sleRoot.getIFieldU64 sfFirstNode)
          (sleRoot.getIFieldU64 sfLastNode) uNodeDir (sleNode.setIFieldV256 sfIndexes []) []
          accounts with
      | Except.error f => Except.error f
      | Except.ok (uFirstNode, uLastNode, acc) =>
        if uFirstNode = sleRoot.getIFieldU64 sfFirstNode ∧
            uLastNode = sleRoot.getIFieldU64 sfLastNode then
          Except.ok (terSUCCESS, acc)
        else if uFirstNode ≠ 0 then
          Except.ok (terSUCCESS, acc ++ [(taaMODIFY,
            (sleRoot.setIFieldU64 sfFirstNode uFirstNode).setIFieldU64 sfLastNode uLastNode)])
        else Except.ok (terSUCCESS, acc ++ [(taaDELETE, sleRoot)]) := by
  have hno : ¬ (([] : List uint256) ≠ [] ∨ (sleRoot.getIFieldU64 sfFirstNode ≠ uNodeDir ∧
      sleRoot.getIFieldU64 sfLastNode ≠ uNodeDir)) := by
    intro h
    rcases h with h | ⟨h1, h2⟩
    · exact h rfl
    · rcases hcur with h3 | h3
      · exact h1 h3
      · exact h2 h3
  unfold dirDelete
  simp only [hnode, hroot, hin, not_true_eq_false, if_false, hempties, if_neg hno]

/-- The general part of C5, for a directory of one page. -/
theorem dirDelete_last_page (mLedger : Ledger) (accounts : List AffectedAccount)
    (letKind : LedgerEntryType) (uBase uLedgerIndex : uint256) (f : Nat)
    (sleNode sleRoot : SLE) (hf : 1 ≤ f)
    (hnode : mLedger.getDirNode (Ledger.getDirNodeIndex uBase letKind f) = some sleNode)
    (hin : uLedgerIndex ∈ sleNode.getIFieldV256 sfIndexes)
    (hroot : mLedger.getDirRoot (Ledger.getDirIndex uBase letKind) = some sleRoot)
    (hempties : removeEntry (sleNode.getIFieldV256 sfIndexes) uLedgerIndex = [])
    (hfirst : sleRoot.getIFieldU64 sfFirstNode = f)
    (hlast : sleRoot.getIFieldU64 sfLastNode = f) :
    dirDelete mLedger accounts f letKind uBase uLedgerIndex =
      Except.ok (terSUCCESS, accounts ++ [(taaDELETE, sleNode.setIFieldV256 sfIndexes []),
        (taaDELETE, sleRoot)]) := by
  rw [dirDelete_emptied_boundary _ _ _ _ _ _ _ _ hnode hin hroot hempties (Or.inl hfirst)]
  rw [hfirst, hlast]
  have hU : UINT64_SIZE = (UINT64_SIZE - 1) + 1 := by rw [UINT64_SIZE_eq]
  rw [hU, dirDeleteLoop_step _ _ _ _ _ _ _ _ _ _ ⟨by omega, rfl, Or.inl rfl⟩]
  rw [if_pos rfl, dirDeleteLoop_stop _ _ _ _ _ _ _ _ _ _ (by simp)]
  simp only
  rw [if_neg (by omega), if_neg (by simp)]
  simp

/-- The general part of C5 when the emptied page is the first of several pages. -/
theorem dirDelete_first_page (mLedger : Ledger) (accounts : List AffectedAccount)
    (letKind : LedgerEntryType) (uBase uLedgerIndex : uint256) (f l k : Nat)
    (sleNode sleRoot : SLE) (hf : 1 ≤ f) (hk1 : 1 ≤ k) (hk2 : f + k ≤ l)
    (hnode : mLedger.getDirNode (Ledger.getDirNodeIndex uBase letKind f) = some sleNode)
    (hin : uLedgerIndex ∈ sleNode.getIFieldV256 sfIndexes)
    (hroot : mLedger.getDirRoot (Ledger.getDirIndex uBase letKind) = some sleRoot)
    (hempties : removeEntry (sleNode.getIFieldV256 sfIndexes) uLedgerIndex = [])
    (hfirst : sleRoot.getIFieldU64 sfFirstNode = f)
    (hlast : sleRoot.getIFieldU64 sfLastNode = l)
    (hempty : ∀ j, 1 ≤ j → j < k → pageIndexes mLedger letKind uBase (f + j) = some [])
    (hstop : ∃ ks, pageIndexes mLedger letKind uBase (f + k) = some ks ∧ ks ≠ []) :
    ∃ dels, dirDelete mLedger accounts f letKind uBase uLedgerIndex =
        Except.ok (terSUCCESS, accounts ++ (dels ++ [(taaMODIFY,
          (sleRoot.setIFieldU64 sfFirstNode (f + k)).setIFieldU64 sfLastNode l)])) ∧
      dels.map stagedAt = (List.range' f k).map (deleteAt letKind uBase) := by
  have hl : l < UINT64_SIZE := by rw [← hlast]; exact SLE.getIFieldU64_lt _ _
  rw [dirDelete_emptied_boundary _ _ _ _ _ _ _ _ hnode hin hroot hempties (Or.inl hfirst)]
  rw [hfirst, hlast]
  obtain ⟨acc, hacc1, hacc2⟩ := dirDeleteLoop_advance mLedger letKind uBase l hl k UINT64_SIZE f
    (sleNode.setIFieldV256 sfIndexes []) [] accounts hf hk2 (by omega)
    (by rw [SLE.setIFieldV256_mIndex]; exact Ledger.getDirNode_mIndex _ _ _ hnode)
    (fun h => absurd h (by omega)) (fun _ => rfl) hempty (fun _ => hstop)
  obtain ⟨dels, hd1, _⟩ := dirDeleteLoop_appends_deletes _ _ _ _ _ _ _ _ _ _ _ hacc1
  simp only at hd1
  subst hd1
  rw [hacc1]
  simp only
  rw [if_neg (by omega), if_pos (by omega)]
  refine ⟨dels, by rw [List.append_assoc], ?_⟩
  exact map_stagedAt_cancel _ _ _ hacc2

/-- The general part of C5 when the emptied page is the last of several pages. -/
theorem dirDelete_final_page (mLedger : Ledger) (accounts : List AffectedAccount)
    (letKind : LedgerEntryType) (uBase uLedgerIndex : uint256) (f t k : Nat)
    (sleNode sleRoot : SLE) (hf : 1 ≤ f) (hk1 : 1 ≤ k) (hft : f ≤ t)
    (hnode : mLedger.getDirNode (Ledger.getDirNodeIndex uBase letKind (t + k)) = some sleNode)
    (hin : uLedgerIndex ∈ sleNode.getIFieldV256 sfIndexes)
    (hroot : mLedger.getDirRoot (Ledger.getDirIndex uBase letKind) = some sleRoot)
    (hempties : removeEntry (sleNode.getIFieldV256 sfIndexes) uLedgerIndex = [])
    (hfirst : sleRoot.getIFieldU64 sfFirstNode = f)
    (hlast : sleRoot.getIFieldU64 sfLastNode = t + k)
    (hempty : ∀ j, 1 ≤ j → j < k → pageIndexes mLedger letKind uBase (t + j) = some [])
    (hstop : ∃ ks, pageIndexes mLedger letKind uBase t = some ks ∧ ks ≠ []) :
    ∃ dels, dirDelete mLedger accounts (t + k) letKind uBase uLedgerIndex =
        Except.ok (terSUCCESS, accounts ++ (dels ++ [(taaMODIFY,
          (sleRoot.setIFieldU64 sfFirstNode f).setIFieldU64 sfLastNode t)])) ∧
      dels.map stagedAt = (List.range' (t + 1) k).reverse.map (deleteAt letKind uBase) := by
  have hl : t + k < UINT64_SIZE := by rw [← hlast]; exact SLE.getIFieldU64_lt _ _
  rw [dirDelete_emptied_boundary _ _ _ _ _ _ _ _ hnode hin hroot hempties (Or.inr hlast)]
  rw [hfirst, hlast]
  obtain ⟨acc, hacc1, hacc2⟩ := dirDeleteLoop_rewind mLedger letKind uBase f t hf hft k
    UINT64_SIZE (sleNode.setIFieldV256 sfIndexes []) [] accounts hl (by omega)
    (by rw [SLE.setIFieldV256_mIndex]; exact Ledger.getDirNode_mIndex _ _ _ hnode)
    (fun h => absurd h (by omega)) (fun _ => rfl) hempty (fun _ => hstop)
  obtain ⟨dels, hd1, _⟩ := dirDeleteLoop_appends_deletes _ _ _ _ _ _ _ _ _ _ _ hacc1
  simp only at hd1
  subst hd1
  rw [hacc1]
  simp only
  rw [if_neg (by omega), if_pos (by omega)]
  refine ⟨dels, by rw [List.append_assoc], ?_⟩
  exact map_stagedAt_cancel _ _ _ hacc2

/-- Walking up from page `f`, there is a first non-empty page, at or before page `l`. -/
theorem exists_first_nonempty_above (mLedger : Ledger) (letKind : LedgerEntryType)
    (uBase : uint256) (f l : Nat) (hfl : f < l)
    (hpages : ∀ n, f ≤ n → n ≤ l → (pageIndexes mLedger letKind uBase n).isSome)
    (hlast : pageIndexes mLedger letKind uBase l ≠ some []) :
    ∃ k, 1 ≤ k ∧ f + k ≤ l ∧
      (∀ j, 1 ≤ j → j < k → pageIndexes mLedger letKind uBase (f + j) = some []) ∧
      ∃ ks, pageIndexes mLedger letKind uBase (f + k) = some ks ∧ ks ≠ [] := by
  classical
  have hex : ∃ j, 1 ≤ j ∧ pageIndexes mLedger letKind uBase (f + j) ≠ some [] :=
    ⟨l - f, by omega, by rw [show f + (l - f) = l by omega]; exact hlast⟩
  have hk := Nat.find_spec hex
  have hle : Nat.find hex ≤ l - f :=
    Nat.find_min' hex ⟨by omega, by rw [show f + (l - f) = l by omega]; exact hlast⟩
  refine ⟨Nat.find hex, hk.1, by omega, ?_, ?_⟩
  · intro j hj1 hj2
    have hmin := Nat.find_min hex hj2
    exact pageIndexes_empty_of_not _ _ _ _ (fun h => hmin ⟨hj1, h⟩)
  · exact pageIndexes_nonempty_of_ne _ _ _ _ (hpages _ (by omega) (by omega)) hk.2

/-- Walking down from page `l`, there is a first non-empty page, at or after page `f`. -/
theorem exists_first_nonempty_below (mLedger : Ledger) (letKind : LedgerEntryType)
    (uBase : uint256) (f l : Nat) (hfl : f < l)
    (hpages : ∀ n, f ≤ n → n ≤ l → (pageIndexes mLedger letKind uBase n).isSome)
    (hfirst : pageIndexes mLedger letKind uBase f ≠ some []) :
    ∃ k t, 1 ≤ k ∧ t + k = l ∧ f ≤ t ∧
      (∀ j, 1 ≤ j → j < k → pageIndexes mLedger letKind uBase (t + j) = some []) ∧
      ∃ ks, pageIndexes mLedger letKind uBase t = some ks ∧ ks ≠ [] := by
  classical
  have hex : ∃ j, 1 ≤ j ∧ pageIndexes mLedger letKind uBase (l - j) ≠ some [] :=
    ⟨l - f, by omega, by rw [show l - (l - f) = f by omega]; exact hfirst⟩
  have hk := Nat.find_spec hex
  have hle : Nat.find hex ≤ l - f :=
    Nat.find_min' hex ⟨by omega, by rw [show l - (l - f) = f by omega]; exact hfirst⟩
  refine ⟨Nat.find hex, l - Nat.find hex, hk.1, by omega, by omega, ?_, ?_⟩
  · intro j hj1 hj2
    have hmin := Nat.find_min hex (show Nat.find hex - j < Nat.find hex by omega)
    have := pageIndexes_empty_of_not mLedger letKind uBase (l - (Nat.find hex - j))
      (fun h => hmin ⟨by omega, h⟩)
    rwa [show l - (Nat.find hex - j) = l - Nat.find hex + j by omega] at this
  · exact pageIndexes_nonempty_of_ne _ _ _ _ (hpages _ (by omega) (by omega)) hk.2

/-- The general part of C5. -/
theorem dirDelete_coalesces_general (mLedger : Ledger) (accounts : List AffectedAccount)
    (uNodeDir : Nat) (letKind : LedgerEntryType) (uBase uLedgerIndex : uint256) (f l : Nat)
    (xs : List uint256)
    (hroot : rootBounds mLedger letKind uBase = some (f, l)) (hf : 1 ≤ f) (hfl : f ≤ l)
    (hpages : ∀ n, f ≤ n → n ≤ l → (pageIndexes mLedger letKind uBase n).isSome)
    (hfirst : pageIndexes mLedger letKind uBase f ≠ some [])
    (hlast : pageIndexes mLedger letKind uBase l ≠ some [])
    (hcur : uNodeDir = f ∨ uNodeDir = l)
    (hpage : pageIndexes mLedger letKind uBase uNodeDir = some xs)
    (hin : uLedgerIndex ∈ xs) (hempties : removeEntry xs uLedgerIndex = []) :
    ∃ dels rootPair,
      dirDelete mLedger accounts uNodeDir letKind uBase uLedgerIndex
        = Except.ok (terSUCCESS, accounts ++ (dels ++ [rootPair])) ∧
      rootPair.2.mIndex = Ledger.getDirIndex uBase letKind ∧
      ((f = l ∧ dels.map stagedAt = [deleteAt letKind uBase f] ∧ rootPair.1 = taaDELETE) ∨
       (f < l ∧ rootPair.1 = taaMODIFY ∧ ∃ k, 1 ≤ k ∧ k ≤ l - f ∧
         ((uNodeDir = f ∧
             dels.map stagedAt = (List.range' f k).map (deleteAt letKind uBase) ∧
             rootPair.2.getIFieldU64 sfFirstNode = f + k ∧
             rootPair.2.getIFieldU64 sfLastNode = l ∧
             ∀ j, 1 ≤ j → j < k → pageIndexes mLedger letKind uBase (f + j) = some []) ∨
          (uNodeDir = l ∧
             dels.map stagedAt
               = (List.range' (l - k + 1) k).reverse.map (deleteAt letKind uBase) ∧
             rootPair.2.getIFieldU64 sfFirstNode = f ∧
             rootPair.2.getIFieldU64 sfLastNode = l - k ∧
             ∀ j, 1 ≤ j → j < k → pageIndexes mLedger letKind uBase (l - j) = some [])) ∧
         rootPair.2.getIFieldU64 sfFirstNode ≤ rootPair.2.getIFieldU64 sfLastNode ∧
         (∃ ks, pageIndexes mLedger letKind uBase (rootPair.2.getIFieldU64 sfFirstNode)
           = some ks ∧ ks ≠ []) ∧
         (∃ ks, pageIndexes mLedger letKind uBase (rootPair.2.getIFieldU64 sfLastNode)
           = some ks ∧ ks ≠ []))) := by
  obtain ⟨sleRoot, hr, hr1, hr2⟩ := (rootBounds_eq_some_getDirRoot _ _ _ _ _).mp hroot
  obtain ⟨sleNode, hn, hn1⟩ := (pageIndexes_eq_some_getDirNode _ _ _ _ _).mp hpage
  have hri := Ledger.getDirRoot_mIndex _ _ _ hr
  have hlU : l < UINT64_SIZE := by rw [← hr2]; exact SLE.getIFieldU64_lt _ _
  rw [← hn1] at hin hempties
  have hneF := pageIndexes_nonempty_of_ne _ _ _ _ (hpages f (le_refl _) hfl) hfirst
  have hneL := pageIndexes_nonempty_of_ne _ _ _ _ (hpages l hfl (le_refl _)) hlast
  rcases Nat.eq_or_lt_of_le hfl with hfl | hfl
  · -- one page
    subst hfl
    have hc : uNodeDir = f := by rcases hcur with h | h <;> exact h
    subst hc
    refine ⟨[(taaDELETE, sleNode.setIFieldV256 sfIndexes [])], (taaDELETE, sleRoot), ?_, hri, ?_⟩
    · rw [dirDelete_last_page _ _ _ _ _ _ _ _ hf hn hin hr hempties hr1 hr2]
      simp
    · left
      refine ⟨rfl, ?_, rfl⟩
      simp [stagedAt, deleteAt, Ledger.getDirNode_mIndex _ _ _ hn]
  · by_cases hc : uNodeDir = f
    · subst hc
      obtain ⟨k, hk1, hk2, hk3, hk4⟩ :=
        exists_first_nonempty_above mLedger letKind uBase uNodeDir l hfl hpages hlast
      obtain ⟨dels, hd1, hd2⟩ := dirDelete_first_page mLedger accounts letKind uBase
        uLedgerIndex uNodeDir l k sleNode sleRoot hf hk1 hk2 hn hin hr hempties hr1 hr2 hk3 hk4
      have hg1 : ((sleRoot.setIFieldU64 sfFirstNode (uNodeDir + k)).setIFieldU64 sfLastNode
          l).getIFieldU64 sfFirstNode = uNodeDir + k := by
        rw [SLE.getIFieldU64_setIFieldU64_ne _ _ _ _ (by decide),
          SLE.getIFieldU64_setIFieldU64]
        exact Nat.mod_eq_of_lt (by omega)
      have hg2 : ((sleRoot.setIFieldU64 sfFirstNode (uNodeDir + k)).setIFieldU64 sfLastNode
          l).getIFieldU64 sfLastNode = l := by
        rw [SLE.getIFieldU64_setIFieldU64]
        exact Nat.mod_eq_of_lt hlU
      refine ⟨dels, _, hd1, by simpa using hri, ?_⟩
      right
      refine ⟨hfl, rfl, k, hk1, by omega, Or.inl ⟨rfl, hd2, hg1, hg2, hk3⟩, ?_, ?_, ?_⟩
      · simp only [hg1, hg2]; exact hk2
      · simp only [hg1]; exact hk4
      · simp only [hg2]; exact hneL
    · have hc2 : uNodeDir = l := by
        rcases hcur with h | h
        · exact absurd h hc
        · exact h
      subst hc2
      obtain ⟨k, t, hk1, hk2, hk3, hk4, hk5⟩ :=
        exists_first_nonempty_below mLedger letKind uBase f uNodeDir hfl hpages hfirst
      subst hk2
      obtain ⟨dels, hd1, hd2⟩ := dirDelete_final_page mLedger accounts letKind uBase
        uLedgerIndex f t k sleNode sleRoot hf hk1 hk3 hn hin hr hempties hr1 hr2 hk4 hk5
      have hg1 : ((sleRoot.setIFieldU64 sfFirstNode f).setIFieldU64 sfLastNode
          t).getIFieldU64 sfFirstNode = f := by
        rw [SLE.getIFieldU64_setIFieldU64_ne _ _ _ _ (by decide),
          SLE.getIFieldU64_setIFieldU64]
        exact Nat.mod_eq_of_lt (by omega)
      have hg2 : ((sleRoot.setIFieldU64 sfFirstNode f).setIFieldU64 sfLastNode
          t).getIFieldU64 sfLastNode = t := by
        rw [SLE.getIFieldU64_setIFieldU64]
        exact Nat.mod_eq_of_lt (by omega)
      refine ⟨dels, _, hd1, by simpa using hri, ?_⟩
      right
      refine ⟨hfl, rfl, k, hk1, by omega, Or.inr ⟨rfl, ?_, hg1, ?_, ?_⟩, ?_, ?_, ?_⟩
      · rw [hd2, show t + k - k + 1 = t + 1 by omega]
      · rw [hg2]; omega
      · intro j hj1 hj2
        have := hk4 (k - j) (by omega) (by omega)
        rwa [show t + (k - j) = t + k - j by omega] at this
      · simp only [hg1, hg2]; exact hk3
      · simp only [hg1]; exact hneF
      · simp only [hg2]; exact hk5

/-- A deletion that leaves the page non-empty stages the page alone. -/
theorem dirDelete_keeps_page (mLedger : Ledger) (accounts : List AffectedAccount)
    (uNodeDir : Nat) (letKind : LedgerEntryType) (uBase uLedgerIndex : uint256)
    (sleNode sleRoot : SLE)
    (hnode : mLedger.getDirNode (Ledger.getDirNodeIndex uBase letKind uNodeDir) = some sleNode)
    (hin : uLedgerIndex ∈ sleNode.getIFieldV256 sfIndexes)
    (hroot : mLedger.getDirRoot (Ledger.getDirIndex uBase letKind) = some sleRoot)
    (hkeeps : removeEntry (sleNode.getIFieldV256 sfIndexes) uLedgerIndex ≠ []) :
    dirDelete mLedger accounts uNodeDir letKind uBase uLedgerIndex =
      Except.ok (terSUCCESS, accounts ++ [(taaMODIFY, sleNode.setIFieldV256 sfIndexes
        (removeEntry (sleNode.getIFieldV256 sfIndexes) uLedgerIndex))]) := by
  unfold dirDelete
  simp only [hnode, hroot, hin, not_true_eq_false, if_false]
  rw [if_pos (Or.inl hkeeps)]
  rw [dirDeleteLoop_stop _ _ _ _ _ _ _ _ _ _ (fun h => hkeeps h.2.1)]
  simp

/-- Deleting, one call after the other, all keys of the only page of a directory: every
call returns `terSUCCESS`, and in the end the page and the root are gone. -/
theorem dirDeleteAll_single_page (letKind : LedgerEntryType) (uBase : uint256) (c : Nat)
    (hc : 1 ≤ c) (ds : List uint256) :
    ∀ (l : Ledger) (xs : List uint256), ds ≠ [] → List.Perm ds xs →
      rootBounds l letKind uBase = some (c, c) →
      pageIndexes l letKind uBase c = some xs →
      ∃ l2, dirDeleteAll l c letKind uBase ds
          = Except.ok (l2, List.replicate ds.length terSUCCESS) ∧
        pageIndexes l2 letKind uBase c = none ∧ rootBounds l2 letKind uBase = none := by
  induction ds with
  | nil => intro l xs h; exact absurd rfl h
  | cons d rest ih =>
    intro l xs _ hperm hroot hpage
    obtain ⟨sleRoot, hr, hr1, hr2⟩ := (rootBounds_eq_some_getDirRoot _ _ _ _ _).mp hroot
    obtain ⟨sleNode, hn, hn1⟩ := (pageIndexes_eq_some_getDirNode _ _ _ _ _).mp hpage
    have hri := Ledger.getDirRoot_mIndex _ _ _ hr
    have hni := Ledger.getDirNode_mIndex _ _ _ hn
    have hd : d ∈ xs := hperm.subset (List.mem_cons_self _ _)
    have hrest : List.Perm rest (removeEntry xs d) :=
      List.Perm.cons_inv (hperm.trans (removeEntry_perm xs d hd))
    rw [← hn1] at hd hrest
    unfold dirDeleteAll
    rcases List.eq_nil_or_concat rest with hnil | ⟨r2, z, hcons⟩
    · subst hnil
      have hempties : removeEntry (sleNode.getIFieldV256 sfIndexes) d = [] :=
        List.Perm.eq_nil hrest.symm
      rw [dirDelete_last_page _ _ _ _ _ _ _ _ hc hn hd hr hempties hr1 hr2]
      simp only [List.nil_append, dirDeleteAll, List.length_singleton, List.replicate_one]
      refine ⟨_, rfl, ?_, ?_⟩
      · rw [commit_cons, commit_cons, commit_nil, pageIndexes_commitOne,
          pageIndexes_commitOne]
        simp [hri, hni, Ledger.getDirIndex, Ledger.getDirNodeIndex]
      · rw [commit_cons, commit_cons, commit_nil, rootBounds_commitOne]
        simp [hri]
    · have hne : rest ≠ [] := by rw [hcons]; simp
      have hkeeps : removeEntry (sleNode.getIFieldV256 sfIndexes) d ≠ [] := by
        intro h
        rw [h] at hrest
        exact hne (List.Perm.eq_nil hrest)
      rw [dirDelete_keeps_page _ _ _ _ _ _ _ _ hn hd hr hkeeps]
      simp only [List.nil_append]
      obtain ⟨l2, h1, h2, h3⟩ := ih (commit l [(taaMODIFY, sleNode.setIFieldV256 sfIndexes
          (removeEntry (sleNode.getIFieldV256 sfIndexes) d))])
        (removeEntry (sleNode.getIFieldV256 sfIndexes) d) hne hrest
        (by
          rw [commit_cons, commit_nil, rootBounds_commitOne]
          simp [hni, Ledger.getDirIndex, Ledger.getDirNodeIndex, hroot])
        (by
          rw [commit_cons, commit_nil, pageIndexes_commitOne]
          simp [hni, SLE.getIFieldV256_setIFieldV256])
      rw [h1]
      exact ⟨l2, by simp [List.replicate_succ], h2, h3⟩

theorem dirDelete_scenario_two_pages (mLedger : Ledger) (letKind : LedgerEntryType)
    (uBase : uint256) (ks : List uint256) (key : uint256) (hlen : ks.length = 32)
    (hroot : rootBounds mLedger letKind uBase = some (1, 2))
    (hp1 : pageIndexes mLedger letKind uBase 1 = some ks)
    (hp2 : pageIndexes mLedger letKind uBase 2 = some [key]) :
    ∃ staged l2,
      dirDelete mLedger [] 2 letKind uBase key = Except.ok (terSUCCESS, staged) ∧
      staged.map stagedAt
        = [deleteAt letKind uBase 2, (taaMODIFY, Ledger.getDirIndex uBase letKind)] ∧
      pageIndexes (commit mLedger staged) letKind uBase 2 = none ∧
      rootBounds (commit mLedger staged) letKind uBase = some (1, 1) ∧
      pageIndexes (commit mLedger staged) letKind uBase 1 = some ks ∧
      dirDeleteAll (commit mLedger staged) 1 letKind uBase ks
        = Except.ok (l2, List.replicate 32 terSUCCESS) ∧
      pageIndexes l2 letKind uBase 1 = none ∧ rootBounds l2 letKind uBase = none := by
  obtain ⟨sleRoot, hr, hr1, hr2⟩ := (rootBounds_eq_some_getDirRoot _ _ _ _ _).mp hroot
  obtain ⟨sleNode, hn, hn1⟩ := (pageIndexes_eq_some_getDirNode _ _ _ _ _).mp hp2
  have hri := Ledger.getDirRoot_mIndex _ _ _ hr
  have hks : ks ≠ [] := by intro h; rw [h] at hlen; simp at hlen
  obtain ⟨dels, hd1, hd2⟩ := dirDelete_final_page mLedger [] letKind uBase key 1 1 1
    sleNode sleRoot (le_refl _) (le_refl _) (le_refl _) hn (by rw [hn1]; simp) hr
    (by rw [hn1]; exact removeEntry_singleton key) hr1 hr2 (fun j h1 h2 => absurd h1 (by omega)) ⟨ks, hp1, hks⟩
  simp only [List.nil_append] at hd1
  have hd3 : ∃ d, dels = [d] ∧ d.1 = taaDELETE ∧
      d.2.mIndex = Ledger.getDirNodeIndex uBase letKind 2 := by
    rcases dels with _ | ⟨d, _ | ⟨d2, rest⟩⟩
    · simp at hd2
    · simp only [List.map_cons, List.map_nil, List.range'_one, List.reverse_cons,
        List.reverse_nil, List.nil_append, List.cons.injEq, and_true, stagedAt, deleteAt,
        Prod.mk.injEq] at hd2
      exact ⟨d, rfl, hd2.1, hd2.2⟩
    · simp at hd2
  obtain ⟨d, hd4, hd5, hd6⟩ := hd3
  subst hd4
  have hg1 : ((sleRoot.setIFieldU64 sfFirstNode 1).setIFieldU64 sfLastNode
      1).getIFieldU64 sfFirstNode = 1 := by
    rw [SLE.getIFieldU64_setIFieldU64_ne _ _ _ _ (by decide), SLE.getIFieldU64_setIFieldU64]
    rfl
  have hg2 : ((sleRoot.setIFieldU64 sfFirstNode 1).setIFieldU64 sfLastNode
      1).getIFieldU64 sfLastNode = 1 := by
    rw [SLE.getIFieldU64_setIFieldU64]; rfl
  have hc2 : pageIndexes (commit mLedger ([d] ++ [(taaMODIFY,
      (sleRoot.setIFieldU64 sfFirstNode 1).setIFieldU64 sfLastNode 1)])) letKind uBase 2
      = none := by
    simp only [List.singleton_append, commit_cons, commit_nil, pageIndexes_commitOne]
    simp [hd5, hd6, hri, Ledger.getDirIndex, Ledger.getDirNodeIndex]
  have hcr : rootBounds (commit mLedger ([d] ++ [(taaMODIFY,
      (sleRoot.setIFieldU64 sfFirstNode 1).setIFieldU64 sfLastNode 1)])) letKind uBase
      = some (1, 1) := by
    simp only [List.singleton_append, commit_cons, commit_nil, rootBounds_commitOne]
    simp [hri, hg1, hg2]
  have hc1 : pageIndexes (commit mLedger ([d] ++ [(taaMODIFY,
      (sleRoot.setIFieldU64 sfFirstNode 1).setIFieldU64 sfLastNode 1)])) letKind uBase 1
      = some ks := by
    simp only [List.singleton_append, commit_cons, commit_nil, pageIndexes_commitOne]
    simp [hd6, hri, hp1, Ledger.getDirIndex, Ledger.getDirNodeIndex]
  obtain ⟨l2, h1, h2, h3⟩ := dirDeleteAll_single_page letKind uBase 1 (le_refl _) ks _ ks hks
    (List.Perm.refl _) hcr hc1
  rw [hlen] at h1
  refine ⟨_, l2, hd1, ?_, hc2, hcr, hc1, h1, h2, h3⟩
  simp [stagedAt, deleteAt, hd5, hd6, hri]

theorem ledgerThreePages_pageIndexes (n : Nat) :
    pageIndexes ledgerThreePages ltRIPPLE_STATE sampleBase n =
      if n = 3 then some [uint256.value 3]
      else if n = 2 then some [uint256.value 2]
      else if n = 1 then some [uint256.value 1]
      else none := by
  simp only [pageIndexes, ledgerThreePages, Ledger.getDirNode, Ledger.getASNode,
    Ledger.writeBack, Ledger.empty, mkDirNode_mIndex, mkDirRoot_mIndex, Ledger.getDirNodeIndex,
    Ledger.getDirIndex, uint256.dirNodeIndex.injEq, true_and]
  split_ifs <;> simp_all [mkDirNode, Ledger.getDirNodeIndex, SLE.getIFieldV256,
    SLE.setIFieldV256, SLE.setField, SLE.setIndex]

theorem ledgerThreePages_sizes (n : Nat) (ks : List uint256)
    (h : pageIndexes ledgerThreePages ltRIPPLE_STATE sampleBase n = some ks) :
    1 ≤ ks.length ∧ ks.length ≤ DIR_NODE_MAX := by
  rw [ledgerThreePages_pageIndexes] at h
  split_ifs at h <;> cases h <;> decide

theorem ledgerThreePages_pages (n : Nat) (h1 : 1 ≤ n) (h2 : n ≤ 3) :
    (pageIndexes ledgerThreePages ltRIPPLE_STATE sampleBase n).isSome := by
  interval_cases n <;> decide

/-- C5 (amended): for a directory whose root satisfies `1 ≤ sfFirstNode ≤ sfLastNode`, whose
pages of that range all exist and whose two boundary pages are non-empty, a `dirDelete` that
empties a boundary page returns `terSUCCESS` and stages `taaDELETE` for that page and for
the empty pages next to it, one after the other; then either the range was one page and the
root is staged `taaDELETE`, or the root is staged `taaMODIFY` with boundaries
`first' ≤ last'` whose pages are both non-empty.  With page 1 of 32 keys and page 2 of one
key, deleting the key of page 2 deletes page 2 and leaves the root at `(1, 1)`, and
deleting the 32 keys of page 1 then deletes page 1 and the root. -/
theorem dirDelete_coalescing :
    (∀ (mLedger : Ledger) (accounts : List AffectedAccount) (uNodeDir : Nat)
      (letKind : LedgerEntryType) (uBase uLedgerIndex : uint256) (f l : Nat)
      (xs : List uint256),
      rootBounds mLedger letKind uBase = some (f, l) → 1 ≤ f → f ≤ l →
      (∀ n, f ≤ n → n ≤ l → (pageIndexes mLedger letKind uBase n).isSome) →
      pageIndexes mLedger letKind uBase f ≠ some [] →
      pageIndexes mLedger letKind uBase l ≠ some [] →
      (uNodeDir = f ∨ uNodeDir = l) →
      pageIndexes mLedger letKind uBase uNodeDir = some xs →
      uLedgerIndex ∈ xs → removeEntry xs uLedgerIndex = [] →
      ∃ dels rootPair,
        dirDelete mLedger accounts uNodeDir letKind uBase uLedgerIndex
          = Except.ok (terSUCCESS, accounts ++ (dels ++ [rootPair])) ∧
        rootPair.2.mIndex = Ledger.getDirIndex uBase letKind ∧
        ((f = l ∧ dels.map stagedAt = [deleteAt letKind uBase f] ∧ rootPair.1 = taaDELETE) ∨
         (f < l ∧ rootPair.1 = taaMODIFY ∧ ∃ k, 1 ≤ k ∧ k ≤ l - f ∧
           ((uNodeDir = f ∧
               dels.map stagedAt = (List.range' f k).map (deleteAt letKind uBase) ∧
               rootPair.2.getIFieldU64 sfFirstNode = f + k ∧
               rootPair.2.getIFieldU64 sfLastNode = l ∧
               ∀ j, 1 ≤ j → j < k → pageIndexes mLedger letKind uBase (f + j) = some []) ∨
            (uNodeDir = l ∧
               dels.map stagedAt
                 = (List.range' (l - k + 1) k).reverse.map (deleteAt letKind uBase) ∧
               rootPair.2.getIFieldU64 sfFirstNode = f ∧
               rootPair.2.getIFieldU64 sfLastNode = l - k ∧
               ∀ j, 1 ≤ j → j < k → pageIndexes mLedger letKind uBase (l - j) = some [])) ∧
           rootPair.2.getIFieldU64 sfFirstNode ≤ rootPair.2.getIFieldU64 sfLastNode ∧
           (∃ ks, pageIndexes mLedger letKind uBase (rootPair.2.getIFieldU64 sfFirstNode)
             = some ks ∧ ks ≠ []) ∧
           (∃ ks, pageIndexes mLedger letKind uBase (rootPair.2.getIFieldU64 sfLastNode)
             = some ks ∧ ks ≠ [])))) ∧
    (∀ (mLedger : Ledger) (letKind : LedgerEntryType) (uBase : uint256) (ks : List uint256)
      (key : uint256), ks.length = 32 →
      rootBounds mLedger letKind uBase = some (1, 2) →
      pageIndexes mLedger letKind uBase 1 = some ks →
      pageIndexes mLedger letKind uBase 2 = some [key] →
      ∃ staged l2,
        dirDelete mLedger [] 2 letKind uBase key = Except.ok (terSUCCESS, staged) ∧
        staged.map stagedAt
          = [deleteAt letKind uBase 2, (taaMODIFY, Ledger.getDirIndex uBase letKind)] ∧
        pageIndexes (commit mLedger staged) letKind uBase 2 = none ∧
        rootBounds (commit mLedger staged) letKind uBase = some (1, 1) ∧
        pageIndexes (commit mLedger staged) letKind uBase 1 = some ks ∧
        dirDeleteAll (commit mLedger staged) 1 letKind uBase ks
          = Except.ok (l2, List.replicate 32 terSUCCESS) ∧
        pageIndexes l2 letKind uBase 1 = none ∧ rootBounds l2 letKind uBase = none) :=
  ⟨dirDelete_coalesces_general, dirDelete_scenario_two_pages⟩

/-- C5 (witness): the general part at `ledgerThreePages` and the deletion of the only key of
page 1, the first page of the range 1 to 3. -/
theorem dirDelete_coalescing_witness :
    (rootBounds ledgerThreePages ltRIPPLE_STATE sampleBase = some (1, 3) ∧
      pageIndexes ledgerThreePages ltRIPPLE_STATE sampleBase 1 = some [uint256.value 1] ∧
      removeEntry [uint256.value 1] (uint256.value 1) = []) ∧
    ∃ dels rootPair,
      dirDelete ledgerThreePages [] 1 ltRIPPLE_STATE sampleBase (uint256.value 1)
        = Except.ok (terSUCCESS, [] ++ (dels ++ [rootPair])) ∧
      rootPair.2.mIndex = Ledger.getDirIndex sampleBase ltRIPPLE_STATE ∧
      ((1 = 3 ∧ dels.map stagedAt = [deleteAt ltRIPPLE_STATE sampleBase 1] ∧
          rootPair.1 = taaDELETE) ∨
       (1 < 3 ∧ rootPair.1 = taaMODIFY ∧ ∃ k, 1 ≤ k ∧ k ≤ 3 - 1 ∧
         ((1 = 1 ∧
             dels.map stagedAt = (List.range' 1 k).map (deleteAt ltRIPPLE_STATE sampleBase) ∧
             rootPair.2.getIFieldU64 sfFirstNode = 1 + k ∧
             rootPair.2.getIFieldU64 sfLastNode = 3 ∧
             ∀ j, 1 ≤ j → j < k →
               pageIndexes ledgerThreePages ltRIPPLE_STATE sampleBase (1 + j) = some []) ∨
          (1 = 3 ∧
             dels.map stagedAt
               = (List.range' (3 - k + 1) k).reverse.map (deleteAt ltRIPPLE_STATE sampleBase) ∧
             rootPair.2.getIFieldU64 sfFirstNode = 1 ∧
             rootPair.2.getIFieldU64 sfLastNode = 3 - k ∧
             ∀ j, 1 ≤ j → j < k →
               pageIndexes ledgerThreePages ltRIPPLE_STATE sampleBase (3 - j) = some [])) ∧
         rootPair.2.getIFieldU64 sfFirstNode ≤ rootPair.2.getIFieldU64 sfLastNode ∧
         (∃ ks, pageIndexes ledgerThreePages ltRIPPLE_STATE sampleBase
           (rootPair.2.getIFieldU64 sfFirstNode) = some ks ∧ ks ≠ []) ∧
         (∃ ks, pageIndexes ledgerThreePages ltRIPPLE_STATE sampleBase
           (rootPair.2.getIFieldU64 sfLastNode) = some ks ∧ ks ≠ []))) :=
  ⟨⟨by decide, by decide, by decide⟩,
    dirDelete_coalescing.1 ledgerThreePages [] 1 ltRIPPLE_STATE sampleBase (uint256.value 1)
      1 3 [uint256.value 1] (by decide) (by decide) (by decide) ledgerThreePages_pages
      (by decide) (by decide) (Or.inl rfl) (by decide) (by decide) (by decide)⟩

/-- C5 (counterexample): the root of `ledgerFirstNodeZero` satisfies
`sfFirstNode ≤ sfLastNode`, both pages of the range exist and are non-empty, and deleting
the only key of page 0 returns `terSUCCESS`, yet nothing is staged: neither a `taaDELETE`
of the page nor a change of the root. -/
theorem dirDelete_first_node_zero_stages_nothing :
    rootBounds ledgerFirstNodeZero ltRIPPLE_STATE sampleBase = some (0, 1) ∧
    pageIndexes ledgerFirstNodeZero ltRIPPLE_STATE sampleBase 0 = some [uint256.value 5] ∧
    pageIndexes ledgerFirstNodeZero ltRIPPLE_STATE sampleBase 1 = some [uint256.value 6] ∧
    removeEntry [uint256.value 5] (uint256.value 5) = [] ∧
    resultOf (dirDelete ledgerFirstNodeZero [] 0 ltRIPPLE_STATE sampleBase (uint256.value 5))
      = some terSUCCESS ∧
    (stagedOf (dirDelete ledgerFirstNodeZero [] 0 ltRIPPLE_STATE sampleBase
      (uint256.value 5))).map stagedAt = [] := by
  decide

/-! ## Page sizes (C6) -/

/-- The staged list of a successful `dirDelete`: the pairs staged before the call, then at
most one `taaMODIFY` of the page, which is kept when it is non-empty or not at a boundary,
then `taaDELETE` pairs and at most one pair for the root. -/
theorem dirDelete_staged_members (mLedger : Ledger) (accounts : List AffectedAccount)
    (uNodeDir : Nat) (letKind : LedgerEntryType) (uBase uLedgerIndex : uint256)
    (staged : List AffectedAccount)
    (h : dirDelete mLedger accounts uNodeDir letKind uBase uLedgerIndex
      = Except.ok (terSUCCESS, staged)) :
    ∃ sleNode sleRoot,
      mLedger.getDirNode (Ledger.getDirNodeIndex uBase letKind uNodeDir) = some sleNode ∧
      uLedgerIndex ∈ sleNode.getIFieldV256 sfIndexes ∧
      mLedger.getDirRoot (Ledger.getDirIndex uBase letKind) = some sleRoot ∧
      ∀ a ∈ staged, a ∈ accounts ∨ a.1 = taaDELETE ∨
        a.2.mIndex = Ledger.getDirIndex uBase letKind ∨
        (a = (taaMODIFY, sleNode.setIFieldV256 sfIndexes
            (removeEntry (sleNode.getIFieldV256 sfIndexes) uLedgerIndex)) ∧
          (removeEntry (sleNode.getIFieldV256 sfIndexes) uLedgerIndex ≠ [] ∨
            (sleRoot.getIFieldU64 sfFirstNode ≠ uNodeDir ∧
              sleRoot.getIFieldU64 sfLastNode ≠ uNodeDir))) := by
  cases hpage : mLedger.getDirNode (Ledger.getDirNodeIndex uBase letKind uNodeDir) with
  | none =>
    unfold dirDelete at h; simp only [hpage] at h; cases h
  | some sleNode =>
    by_cases hin : uLedgerIndex ∈ sleNode.getIFieldV256 sfIndexes
    · cases hroot : mLedger.getDirRoot (Ledger.getDirIndex uBase letKind) with
      | none =>
        unfold dirDelete at h
        simp only [hpage, hroot, hin, not_true_eq_false, if_false] at h
        cases h
      | some sleRoot =>
        refine ⟨sleNode, sleRoot, rfl, hin, rfl, ?_⟩
        have hri := Ledger.getDirRoot_mIndex _ _ _ hroot
        unfold dirDelete at h
        simp only [hpage, hroot, hin, not_true_eq_false, if_false] at h
        split at h
        · cases h
        · rename_i uFirstNode uLastNode acc heq
          obtain ⟨dels, hd1, hd2⟩ := dirDeleteLoop_appends_deletes _ _ _ _ _ _ _ _ _ _ _ heq
          simp only at hd1
          have hacc : ∀ a ∈ acc, a ∈ accounts ∨ a.1 = taaDELETE ∨
              a.2.mIndex = Ledger.getDirIndex uBase letKind ∨
              (a = (taaMODIFY, sleNode.setIFieldV256 sfIndexes
                  (removeEntry (sleNode.getIFieldV256 sfIndexes) uLedgerIndex)) ∧
                (removeEntry (sleNode.getIFieldV256 sfIndexes) uLedgerIndex ≠ [] ∨
                  (sleRoot.getIFieldU64 sfFirstNode ≠ uNodeDir ∧
                    sleRoot.getIFieldU64 sfLastNode ≠ uNodeDir))) := by
            intro a ha
            rw [hd1] at ha
            rcases List.mem_append.mp ha with ha | ha
            · split_ifs at ha with hk
              · rcases List.mem_append.mp ha with ha | ha
                · left; exact ha
                · right; right; right
                  exact ⟨List.mem_singleton.mp ha, hk⟩
              · left; exact ha
            · right; left; exact hd2 a ha
          split_ifs at h
          · cases h; exact hacc
          · cases h
            intro a ha
            rcases List.mem_append.mp ha with ha | ha
            · exact hacc a ha
            · right; right; left
              rw [List.mem_singleton.mp ha]
              simpa using hri
          · cases h
            intro a ha
            rcases List.mem_append.mp ha with ha | ha
            · exact hacc a ha
            · right; left
              rw [List.mem_singleton.mp ha]
    · unfold dirDelete at h
      simp only [hpage, hin, not_false_eq_true, if_true] at h
      cases h

/-- C6 (amended): if every page of a directory holds between 1 and 32 keys, then after the
commit of a successful `dirAdd` every page of the directory holds between 1 and 32 keys,
and after the commit of a successful `dirDelete` every page of the directory holds at most
32 keys and holds at least one key unless it is the page deleted from and that page is
neither `sfFirstNode` nor `sfLastNode` of the root. -/
theorem directory_page_sizes (mLedger : Ledger) (letKind : LedgerEntryType) (uBase : uint256)
    (hsize : ∀ n ks, pageIndexes mLedger letKind uBase n = some ks →
      1 ≤ ks.length ∧ ks.length ≤ DIR_NODE_MAX) :
    (∀ uLedgerIndex n ks,
      (dirAdd mLedger [] letKind uBase uLedgerIndex).1 = terSUCCESS →
      pageIndexes (commit mLedger (dirAdd mLedger [] letKind uBase uLedgerIndex).2.1)
        letKind uBase n = some ks →
      1 ≤ ks.length ∧ ks.length ≤ DIR_NODE_MAX) ∧
    (∀ uNodeDir uLedgerIndex staged n ks,
      dirDelete mLedger [] uNodeDir letKind uBase uLedgerIndex
        = Except.ok (terSUCCESS, staged) →
      pageIndexes (commit mLedger staged) letKind uBase n = some ks →
      ks.length ≤ DIR_NODE_MAX ∧
      (ks = [] → n = uNodeDir ∧ ∃ f l, rootBounds mLedger letKind uBase = some (f, l) ∧
        f ≠ uNodeDir ∧ l ≠ uNodeDir)) := by
  constructor
  · intro uLedgerIndex n ks hres hks
    refine commit_pageIndexes (fun ks => 1 ≤ ks.length ∧ ks.length ≤ DIR_NODE_MAX) mLedger _
      letKind uBase n (hsize n) ?_ ks hks
    intro a ha _ hi
    cases hroot : mLedger.getDirRoot (Ledger.getDirIndex uBase letKind) with
    | none =>
      rw [dirAdd_root_absent _ _ _ _ _ hroot] at ha
      simp only [List.nil_append, List.cons_append, List.mem_cons, List.mem_singleton,
        List.not_mem_nil, or_false] at ha
      rcases ha with ha | ha
      · rw [ha] at hi
        exact absurd hi (dirNodeIndex_ne_dirIndex _ _ _ _ _)
      · rw [ha]; simp [DIR_NODE_MAX]
    | some sleRoot =>
      cases hpage : mLedger.getDirNode
          (Ledger.getDirNodeIndex uBase letKind (sleRoot.getIFieldU64 sfLastNode)) with
      | none =>
        rw [dirAdd_page_absent _ _ _ _ _ _ hroot hpage] at ha
        simp only [List.nil_append, List.mem_singleton] at ha
        rw [ha]; simp [DIR_NODE_MAX]
      | some sleNode =>
        have hold := hsize _ _ (pageIndexes_of_getDirNode _ _ _ _ _ hpage)
        by_cases hroom : (sleNode.getIFieldV256 sfIndexes).length = DIR_NODE_MAX
        · have hlt := SLE.getIFieldU64_lt sleRoot sfLastNode
          by_cases hlast : sleRoot.getIFieldU64 sfLastNode + 1 = UINT64_SIZE
          · rw [dirAdd_dir_full _ _ _ _ _ _ _ hroot hpage hroom hlast] at hres
            cases hres
          · rw [dirAdd_full_page _ _ _ _ _ _ _ hroot hpage hroom (by omega)] at ha
            simp only [List.nil_append, List.cons_append, List.mem_cons, List.mem_singleton,
              List.not_mem_nil, or_false] at ha
            rcases ha with ha | ha
            · rw [ha] at hi
              have hri := Ledger.getDirRoot_mIndex _ _ _ hroot
              simp only [SLE.setIFieldU64_mIndex, hri] at hi
              exact absurd hi (dirNodeIndex_ne_dirIndex _ _ _ _ _)
            · rw [ha]; simp [DIR_NODE_MAX]
        · rw [dirAdd_append _ _ _ _ _ _ _ hroot hpage hroom] at ha
          simp only [List.nil_append, List.mem_singleton] at ha
          rw [ha]
          simp only [SLE.getIFieldV256_setIFieldV256, List.length_append, List.length_singleton]
          omega
  · intro uNodeDir uLedgerIndex staged n ks hres hks
    obtain ⟨sleNode, sleRoot, hpage, _, hroot, hmem⟩ :=
      dirDelete_staged_members _ _ _ _ _ _ _ hres
    refine commit_pageIndexes (fun ks => ks.length ≤ DIR_NODE_MAX ∧
      (ks = [] → n = uNodeDir ∧ ∃ f l, rootBounds mLedger letKind uBase = some (f, l) ∧
        f ≠ uNodeDir ∧ l ≠ uNodeDir)) mLedger _ letKind uBase n ?_ ?_ ks hks
    · intro ks0 h0
      have := hsize n ks0 h0
      refine ⟨this.2, ?_⟩
      intro he; rw [he] at this; simp at this
    · intro a ha hd hi
      rcases hmem a ha with h1 | h1 | h1 | ⟨h1, h2⟩
      · cases h1
      · exact absurd h1 hd
      · rw [h1] at hi
        exact absurd hi (dirNodeIndex_ne_dirIndex _ _ _ _ _)
      · rw [h1] at hi ⊢
        simp only [SLE.setIFieldV256_mIndex, Ledger.getDirNode_mIndex _ _ _ hpage] at hi
        have hn := dirNodeIndex_inj _ _ _ _ hi
        have hold := hsize _ _ (pageIndexes_of_getDirNode _ _ _ _ _ hpage)
        simp only [SLE.getIFieldV256_setIFieldV256]
        refine ⟨?_, ?_⟩
        · rw [removeEntry_length]; omega
        · intro he
          refine ⟨hn.symm, _, _, rootBounds_of_getDirRoot _ _ _ _ hroot, ?_⟩
          rcases h2 with h2 | h2
          · exact absurd he h2
          · exact h2

/-- C6 (witness): the amended statement at `ledgerThreePages` and the deletion of the key of
page 2: the page left empty is the page deleted from, and it is neither the first nor the
last page of the root. -/
theorem directory_page_sizes_witness :
    (∀ n ks, pageIndexes ledgerThreePages ltRIPPLE_STATE sampleBase n = some ks →
      1 ≤ ks.length ∧ ks.length ≤ DIR_NODE_MAX) ∧
    (([] : List uint256).length ≤ DIR_NODE_MAX ∧
      (([] : List uint256) = [] → 2 = 2 ∧
        ∃ f l, rootBounds ledgerThreePages ltRIPPLE_STATE sampleBase = some (f, l) ∧
          f ≠ 2 ∧ l ≠ 2)) :=
  ⟨ledgerThreePages_sizes,
    (directory_page_sizes ledgerThreePages ltRIPPLE_STATE sampleBase
      ledgerThreePages_sizes).2 2 (uint256.value 2)
      (stagedOf (dirDelete ledgerThreePages [] 2 ltRIPPLE_STATE sampleBase (uint256.value 2)))
      2 [] (eq_ok_of_resultOf _ _ (by decide)) (by decide)⟩

/-- C6 (counterexample): every page of `ledgerThreePages` holds one key; deleting the key of
page 2 returns `terSUCCESS`, and after the commit page 2 is still in the ledger and holds
no key. -/
theorem dirDelete_interior_page_left_empty :
    (∀ n ks, pageIndexes ledgerThreePages ltRIPPLE_STATE sampleBase n = some ks →
      1 ≤ ks.length ∧ ks.length ≤ DIR_NODE_MAX) ∧
    resultOf (dirDelete ledgerThreePages [] 2 ltRIPPLE_STATE sampleBase (uint256.value 2))
      = some terSUCCESS ∧
    pageIndexes (commit ledgerThreePages (stagedOf (dirDelete ledgerThreePages [] 2
      ltRIPPLE_STATE sampleBase (uint256.value 2)))) ltRIPPLE_STATE sampleBase 2 = some [] :=
  ⟨ledgerThreePages_sizes, by decide, by decide⟩

/-! ## Results of the handlers and of the tests of `applyTransaction` -/

/-- The handlers return neither `tenINSUF_FEE_P` nor `terALREADY`. -/
theorem dispatch_result (env : Externals) (mLedger : Ledger) (txn : SerializedTransaction)
    (accounts : List AffectedAccount) (srcAccountID : Nat) :
    (dispatch env mLedger txn accounts srcAccountID).1 ≠ tenINSUF_FEE_P ∧
    (dispatch env mLedger txn accounts srcAccountID).1 ≠ terALREADY := by
  unfold dispatch
  split
  · unfold doClaim
    dsimp only
    repeat' split
    all_goals simp
  · unfold doCreditSet
    dsimp only
    repeat' split
    all_goals first
      | (constructor <;> intro h <;> cases h)
      | (rcases dirAdd_result mLedger _ ltRIPPLE_STATE _ _ with h | h <;> rw [h] <;> simp)
  · simp
  · simp [doInvoice]
  · simp [doOffer]
  · unfold doPayment
    dsimp only
    repeat' split
    all_goals simp
  · simp [doTransitSet]
  · simp

theorem checkFee_eq_some_iff (env : Externals) (params : Nat) (saCost saPaid : STAmount)
    (t : TransactionEngineResult) :
    checkFee env params saCost saPaid = some t ↔
      t = tenINSUF_FEE_P ∧ (params &&& env.tepNO_CHECK_FEE) ≠ tepNONE ∧
        ((saCost.value ≠ 0 ∧ saPaid.value < saCost.value) ∨
          (saCost.value = 0 ∧ saPaid.value ≠ 0)) := by
  unfold checkFee STAmount.isZero STAmount.lt
  by_cases hp : (params &&& env.tepNO_CHECK_FEE) ≠ tepNONE
  · by_cases hc : saCost.value = 0
    · by_cases hz : saPaid.value = 0 <;> simp [hp, hc, hz, eq_comm]
    · by_cases hl : saPaid.value < saCost.value <;> simp [hp, hc, hl, eq_comm]
  · simp [hp]

theorem deductFee_error (saCost saPaid : STAmount) (sleSrc : SLE)
    (t : TransactionEngineResult) (h : deductFee saCost saPaid sleSrc = Except.error t) :
    t = terINSUF_FEE_B := by
  unfold deductFee at h
  dsimp only at h
  split_ifs at h
  cases h
  rfl

theorem deductFee_ok (saCost saPaid : STAmount) (sleSrc e : SLE)
    (h : deductFee saCost saPaid sleSrc = Except.ok e) :
    e.mIndex = sleSrc.mIndex ∧ e.getIFieldU32 sfSequence = sleSrc.getIFieldU32 sfSequence := by
  unfold deductFee at h
  dsimp only at h
  split_ifs at h
  · cases h
    exact ⟨rfl, SLE.getIFieldU32_setIFieldAmount _ _ _ _ (by decide)⟩
  · cases h; exact ⟨rfl, rfl⟩

theorem validateSequence_error (mLedger : Ledger) (txn : SerializedTransaction)
    (txID : uint256) (saCost : STAmount) (sleSrc : SLE) (t : TransactionEngineResult)
    (h : validateSequence mLedger txn txID saCost sleSrc = Except.error t) :
    t = terPRE_SEQ ∨ t = terPAST_SEQ ∨
      (t = terALREADY ∧ saCost.isZero = false ∧ txn.sequence ≠ sleSrc.getIFieldU32 sfSequence) := by
  unfold validateSequence at h
  dsimp only at h
  split_ifs at h with h1 h2 h3 h4 <;> cases h
  · left; rfl
  · right; right
    exact ⟨rfl, by simpa using h1, h2⟩
  · right; left; rfl
  · right; left; rfl

theorem validateSequence_ok (mLedger : Ledger) (txn : SerializedTransaction) (txID : uint256)
    (saCost : STAmount) (sleSrc e : SLE) (hcost : saCost.isZero = false)
    (h : validateSequence mLedger txn txID saCost sleSrc = Except.ok e) :
    e.mIndex = sleSrc.mIndex ∧ txn.sequence = sleSrc.getIFieldU32 sfSequence ∧
      e.getIFieldU32 sfSequence = sleSrc.getIFieldU32 sfSequence := by
  unfold validateSequence at h
  simp only [hcost, Bool.not_false, if_true] at h
  split_ifs at h with h1
  cases h
  have h2 : txn.sequence = sleSrc.getIFieldU32 sfSequence := not_not.mp h1
  refine ⟨rfl, h2, ?_⟩
  rw [SLE.getIFieldU32_setIFieldU32, h2]
  exact Nat.mod_eq_of_lt (SLE.getIFieldU32_lt _ _)

theorem transactionCost_claim (env : Externals) (txn : SerializedTransaction)
    (h : txn.txnType = ttCLAIM) : (transactionCost env txn).1.isZero = true := by
  unfold transactionCost; rw [h]; rfl

/-! ## The fee test (C7) -/

/-- What the code does about the fee: for a transaction that passes the identity test, the
signature test and the type gate, `applyTransaction` returns `tenINSUF_FEE_P` exactly when
`params` holds `tepNO_CHECK_FEE` and the fee is below a non-zero cost or is non-zero at
cost zero. -/
theorem applyTransaction_insuf_fee_iff (env : Externals) (mLedger : Ledger)
    (txn : SerializedTransaction) (params : Nat)
    (hid : txn.transactionID.isZero = false)
    (hsig : env.checkSign txn txn.signingPubKey = true)
    (htype : (transactionCost env txn).2 = terSUCCESS) :
    (applyTransaction env mLedger txn params).1 = tenINSUF_FEE_P ↔
      (params &&& env.tepNO_CHECK_FEE) ≠ tepNONE ∧
        (((transactionCost env txn).1.value ≠ 0 ∧
            txn.transactionFee.value < (transactionCost env txn).1.value) ∨
          ((transactionCost env txn).1.value = 0 ∧ txn.transactionFee.value ≠ 0)) := by
  unfold applyTransaction
  simp only [hid, hsig, htype, Bool.false_eq_true, if_false, Bool.not_true, ne_eq,
    not_true_eq_false]
  cases hfee : checkFee env params (transactionCost env txn).1 txn.transactionFee with
  | some t =>
    have := (checkFee_eq_some_iff _ _ _ _ _).mp hfee
    simp only [this.1, true_iff]
    exact this.2
  | none =>
    have hno : ¬ ((params &&& env.tepNO_CHECK_FEE) ≠ tepNONE ∧
        (((transactionCost env txn).1.value ≠ 0 ∧
            txn.transactionFee.value < (transactionCost env txn).1.value) ∨
          ((transactionCost env txn).1.value = 0 ∧ txn.transactionFee.value ≠ 0))) := by
      intro h
      have := (checkFee_eq_some_iff env params (transactionCost env txn).1
        txn.transactionFee tenINSUF_FEE_P).mpr ⟨rfl, h⟩
      rw [hfee] at this; cases this
    simp only [ne_eq] at hno
    simp only [hno, iff_false]
    split_ifs
    · simp
    · split
      · simp
      · split
        · rename_i t h
          rw [deductFee_error _ _ _ _ h]; simp
        · split
          · rename_i t h
            rcases validateSequence_error _ _ _ _ _ _ h with h | h | h
            · rw [h]; simp
            · rw [h]; simp
            · rw [h.1]; simp
          · split_ifs with h
            · rw [h]; simp
            · exact (dispatch_result _ _ _ _ _).1

/-- C7 (code at the failing input): a payment whose fee 0 is below the required cost 10 is
accepted when `params` is empty, and a payment is turned down with `tenINSUF_FEE_P` when
`params` holds `tepNO_CHECK_FEE`; with that flag a sufficient fee passes. -/
theorem applyTransaction_fee_test_inverted :
    (transactionCost sampleExternals (paymentPlain 0)).1 = STAmount.native 10 ∧
    (applyTransaction sampleExternals ledgerTwoAccounts (paymentPlain 0) tepNONE).1
      = terSUCCESS ∧
    (applyTransaction sampleExternals ledgerTwoAccounts (paymentPlain 0)
      sampleExternals.tepNO_CHECK_FEE).1 = tenINSUF_FEE_P ∧
    (applyTransaction sampleExternals ledgerTwoAccounts (paymentPlain 10)
      sampleExternals.tepNO_CHECK_FEE).1 = terSUCCESS := by
  decide

/-! ## The sequence number (C8) -/

theorem doPayment_success_shape (env : Externals) (mLedger : Ledger)
    (txn : SerializedTransaction) (sleSrc : SLE) (srcAccountID : Nat)
    (hsrc : sleSrc.mIndex = Ledger.getAccountRootIndex srcAccountID)
    (r : TransactionEngineResult × List AffectedAccount)
    (hr : doPayment env mLedger txn [(taaMODIFY, sleSrc)] srcAccountID = r)
    (hok : r.1 = terSUCCESS) :
    ∃ e rest, r.2 = (taaMODIFY, e) :: rest ∧
      e.mIndex = Ledger.getAccountRootIndex srcAccountID ∧
      e.getIFieldU32 sfSequence = sleSrc.getIFieldU32 sfSequence ∧
      ∀ b ∈ rest, b.2.mIndex ≠ Ledger.getAccountRootIndex srcAccountID := by
  unfold doPayment at hr
  dsimp only at hr
  by_cases h1 : txn.sfDestination = 0
  · rw [if_pos h1] at hr; subst hr; cases hok
  rw [if_neg h1] at hr
  by_cases h2 : srcAccountID = txn.sfDestination
  · rw [if_pos h2] at hr; subst hr; cases hok
  rw [if_neg h2] at hr
  by_cases h3 : txn.sfCurrency = some 0
  · rw [if_pos h3] at hr; subst hr; cases hok
  rw [if_neg h3] at hr
  have hne : Ledger.getAccountRootIndex txn.sfDestination
      ≠ Ledger.getAccountRootIndex srcAccountID := by
    intro h; cases h; exact h2 rfl
  split at hr
  · split_ifs at hr <;> subst hr <;> cases hok
    refine ⟨_, _, rfl, ?_, ?_, ?_⟩
    · simpa using hsrc
    · exact SLE.getIFieldU32_setIFieldAmount _ _ _ _ (by decide)
    · intro b hb
      have hb2 : b = (taaCREATE, ((((SLE.make ltACCOUNT_ROOT).setIndex
          (Ledger.getAccountRootIndex txn.sfDestination)).setIFieldAccount sfAccount
          txn.sfDestination).setIFieldU32 sfSequence 1).setIFieldAmount sfBalance
          ((((((SLE.make ltACCOUNT_ROOT).setIndex
          (Ledger.getAccountRootIndex txn.sfDestination)).setIFieldAccount sfAccount
          txn.sfDestination).setIFieldU32 sfSequence 1).getIValueFieldAmount sfBalance).add
          txn.sfAmount)) := by
        simpa [pokeEntry] using hb
      rw [hb2]
      exact hne
  · rename_i sleDst hdst
    have hdi := Ledger.getASNode_mIndex _ _ _ hdst
    split_ifs at hr <;> subst hr <;> cases hok
    refine ⟨_, _, rfl, ?_, ?_, ?_⟩
    · simpa using hsrc
    · exact SLE.getIFieldU32_setIFieldAmount _ _ _ _ (by decide)
    · intro b hb
      have hb2 : b = (taaMODIFY, sleDst.setIFieldAmount sfBalance
          ((sleDst.getIValueFieldAmount sfBalance).add txn.sfAmount)) := by
        simpa [pokeEntry] using hb
      rw [hb2]
      simpa [hdi] using hne

theorem doCreditSet_success_shape (env : Externals) (mLedger : Ledger)
    (txn : SerializedTransaction) (sleSrc : SLE) (srcAccountID : Nat)
    (r : TransactionEngineResult × List AffectedAccount)
    (hr : doCreditSet env mLedger txn [(taaMODIFY, sleSrc)] srcAccountID = r) :
    ∃ rest, r.2 = (taaMODIFY, sleSrc) :: rest ∧
      ∀ b ∈ rest, b.2.mIndex ≠ Ledger.getAccountRootIndex srcAccountID := by
  have hadd : ∀ (e : SLE) (act : TransactionAccountAction) (key : uint256),
      e.mIndex ≠ Ledger.getAccountRootIndex srcAccountID →
      ∃ rest, (dirAdd mLedger ([(taaMODIFY, sleSrc)] ++ [(act, e)]) ltRIPPLE_STATE
          (env.uint160extend256 srcAccountID 0) key).2.1 = (taaMODIFY, sleSrc) :: rest ∧
        ∀ b ∈ rest, b.2.mIndex ≠ Ledger.getAccountRootIndex srcAccountID := by
    intro e act key he
    obtain ⟨extra, h1, h2⟩ := dirAdd_staged_shape mLedger ([(taaMODIFY, sleSrc)] ++ [(act, e)])
      ltRIPPLE_STATE (env.uint160extend256 srcAccountID 0) key
    refine ⟨(act, e) :: extra, by rw [h1]; rfl, ?_⟩
    intro b hb
    rcases List.mem_cons.mp hb with hb | hb
    · rw [hb]; exact he
    · exact h2 b hb _
  have hleaf : ∀ (e : SLE) (act : TransactionAccountAction),
      e.mIndex ≠ Ledger.getAccountRootIndex srcAccountID →
      ∃ rest, ([(taaMODIFY, sleSrc)] ++ [(act, e)] : List AffectedAccount)
          = (taaMODIFY, sleSrc) :: rest ∧
        ∀ b ∈ rest, b.2.mIndex ≠ Ledger.getAccountRootIndex srcAccountID := by
    intro e act he
    refine ⟨[(act, e)], rfl, ?_⟩
    intro b hb
    rw [List.mem_singleton.mp hb]; exact he
  unfold doCreditSet at hr
  dsimp only at hr
  split_ifs at hr
  all_goals try split at hr
  all_goals try split at hr
  all_goals try split_ifs at hr
  all_goals subst hr
  all_goals first
    | exact ⟨[], rfl, by simp⟩
    | exact hadd _ _ _ (by
        simp only [SLE.setFlag_mIndex, SLE.setIFieldAmount_mIndex,
          SLE.setIFieldAccount_mIndex, SLE.setIndex_mIndex]
        exact getRippleStateIndex_ne_account _ _ _ _)
    | exact hadd _ _ _ (by
        simp only [SLE.setFlag_mIndex, SLE.setIFieldAmount_mIndex]
        rw [Ledger.getRippleState_mIndex _ _ _ _ _ (by assumption)]
        exact getRippleStateIndex_ne_account _ _ _ _)
    | exact hleaf _ _ (by
        simp only [SLE.setFlag_mIndex, SLE.setIFieldAmount_mIndex]
        rw [Ledger.getRippleState_mIndex _ _ _ _ _ (by assumption)]
        exact getRippleStateIndex_ne_account _ _ _ _)

/-- The staged list of a successful handler other than `doClaim`: the source entry comes
first, with its index and sequence number as staged by the dispatcher, and no other pair
is for the source's account root. -/
theorem dispatch_success_shape (env : Externals) (mLedger : Ledger)
    (txn : SerializedTransaction) (sleSrc : SLE) (srcAccountID : Nat)
    (hsrc : sleSrc.mIndex = Ledger.getAccountRootIndex srcAccountID)
    (htype : txn.txnType ≠ ttCLAIM)
    (hok : (dispatch env mLedger txn [(taaMODIFY, sleSrc)] srcAccountID).1 = terSUCCESS) :
    ∃ e rest, (dispatch env mLedger txn [(taaMODIFY, sleSrc)] srcAccountID).2
        = (taaMODIFY, e) :: rest ∧
      e.mIndex = Ledger.getAccountRootIndex srcAccountID ∧
      e.getIFieldU32 sfSequence = sleSrc.getIFieldU32 sfSequence ∧
      ∀ b ∈ rest, b.2.mIndex ≠ Ledger.getAccountRootIndex srcAccountID := by
  unfold dispatch at hok ⊢
  split at hok
  · rename_i h; exact absurd h htype
  · obtain ⟨rest, h1, h2⟩ := doCreditSet_success_shape env mLedger txn sleSrc srcAccountID _ rfl
    exact ⟨sleSrc, rest, h1, hsrc, rfl, h2⟩
  · cases hok
  · simp [doInvoice] at hok
  · simp [doOffer] at hok
  · exact doPayment_success_shape env mLedger txn sleSrc srcAccountID hsrc _ rfl hok
  · simp [doTransitSet] at hok
  · cases hok

/-- What the code does about the sequence number: after every fee-bearing transaction that
returns `terSUCCESS`, the sequence number of the source account is the one it had before
the call, which is the transaction's. -/
theorem applyTransaction_sequence_unchanged (env : Externals) (mLedger : Ledger)
    (txn : SerializedTransaction) (params : Nat)
    (hcost : (transactionCost env txn).1.isZero = false)
    (hok : (applyTransaction env mLedger txn params).1 = terSUCCESS) :
    (mLedger.getAccountRoot txn.sourceAccount).map (fun e => e.getIFieldU32 sfSequence)
      = some txn.sequence ∧
    ((applyTransaction env mLedger txn params).2.getAccountRoot txn.sourceAccount).map
      (fun e => e.getIFieldU32 sfSequence) = some txn.sequence := by
  have key : ∀ r, applyTransaction env mLedger txn params = r → r.1 = terSUCCESS →
      (mLedger.getAccountRoot txn.sourceAccount).map (fun e => e.getIFieldU32 sfSequence)
        = some txn.sequence ∧
      (r.2.getAccountRoot txn.sourceAccount).map (fun e => e.getIFieldU32 sfSequence)
        = some txn.sequence := by
    intro r hr hok
    unfold applyTransaction at hr
    dsimp only at hr
    by_cases h1 : txn.transactionID.isZero = true
    · rw [if_pos h1] at hr; subst hr; cases hok
    rw [if_neg h1] at hr
    by_cases h2 : (!env.checkSign txn txn.signingPubKey) = true
    · rw [if_pos h2] at hr; subst hr; cases hok
    rw [if_neg h2] at hr
    by_cases h3 : terSUCCESS ≠ (transactionCost env txn).2
    · rw [if_pos h3] at hr; subst hr; exact absurd hok.symm h3
    rw [if_neg h3] at hr
    split at hr
    · subst hr
      rename_i early hfee
      rw [((checkFee_eq_some_iff _ _ _ _ _).mp hfee).1] at hok
      cases hok
    by_cases h4 : txn.sourceAccount = 0
    · rw [if_pos h4] at hr; subst hr; cases hok
    rw [if_neg h4] at hr
    split at hr
    · subst hr; cases hok
    rename_i sleSrc hsrc
    split at hr
    · subst hr
      rename_i early hd
      rw [deductFee_error _ _ _ _ hd] at hok
      cases hok
    rename_i sleSrc1 hd
    split at hr
    · subst hr
      rename_i early hv
      rcases validateSequence_error _ _ _ _ _ _ hv with h | h | h
      · rw [h] at hok; cases hok
      · rw [h] at hok; cases hok
      · rw [h.1] at hok; cases hok
    rename_i sleSrc2 hv
    by_cases h5 : (dispatch env mLedger txn [(taaMODIFY, sleSrc2)] txn.sourceAccount).1
        = terSUCCESS
    · rw [if_pos h5] at hr
      subst hr
      have hsi := Ledger.getASNode_mIndex _ _ _ hsrc
      have hd2 := deductFee_ok _ _ _ _ hd
      have hv2 := validateSequence_ok _ _ _ _ _ _ hcost hv
      have htype : txn.txnType ≠ ttCLAIM := by
        intro h
        rw [transactionCost_claim env txn h] at hcost
        cases hcost
      obtain ⟨e, rest, hs1, hs2, hs3, hs4⟩ := dispatch_success_shape env mLedger txn
        sleSrc2 txn.sourceAccount (by rw [hv2.1, hd2.1]; exact hsi) htype h5
      have hseq : txn.sequence = sleSrc.getIFieldU32 sfSequence := by
        rw [hv2.2.1, hd2.2]
      refine ⟨?_, ?_⟩
      · rw [hsrc]; simp [hseq]
      · simp only [Ledger.getAccountRoot, Ledger.getASNode, Ledger.addTransaction]
        rw [hs1, commit_cons, commit_map_of_not_staged rest _ _
          (fun b hb => hs4 b hb), commitOne_map, if_pos hs2.symm]
        simp only [reduceCtorEq, if_false, Option.map_some',
          SLE.getIFieldU32_setIndex, hs3, hv2.2.2, hd2.2, hseq]
    · rw [if_neg h5] at hr
      subst hr; exact absurd hok h5
  exact key _ rfl hok

/-- C8 (code at the failing input): scenario 2 returns `terSUCCESS` and commits balance 9400
for account 1, but its sequence is 5 after the call, as before. -/
theorem applyTransaction_sequence_not_advanced :
    accountState ledgerScenario2 1 = some (10000, 5) ∧
    (applyTransaction sampleExternals ledgerScenario2 paymentScenario2 tepNONE).1
      = terSUCCESS ∧
    accountState (applyTransaction sampleExternals ledgerScenario2 paymentScenario2 tepNONE).2 1
      = some (9400, 5) ∧
    accountState (applyTransaction sampleExternals ledgerScenario2 paymentScenario2 tepNONE).2 2
      = some (500, 1) := by
  decide

/-! ## Resubmission (C9) -/

/-- The result `terALREADY` comes from the sequence test alone, on a source account whose
sequence number differs from the transaction's. -/
theorem applyTransaction_already (env : Externals) (mLedger : Ledger)
    (txn : SerializedTransaction) (params : Nat)
    (h : (applyTransaction env mLedger txn params).1 = terALREADY) :
    ∃ sleSrc, mLedger.getAccountRoot txn.sourceAccount = some sleSrc ∧
      txn.sequence ≠ sleSrc.getIFieldU32 sfSequence := by
  have key : ∀ r, applyTransaction env mLedger txn params = r → r.1 = terALREADY →
      ∃ sleSrc, mLedger.getAccountRoot txn.sourceAccount = some sleSrc ∧
        txn.sequence ≠ sleSrc.getIFieldU32 sfSequence := by
    intro r hr hok
    unfold applyTransaction at hr
    dsimp only at hr
    by_cases h1 : txn.transactionID.isZero = true
    · rw [if_pos h1] at hr; subst hr; cases hok
    rw [if_neg h1] at hr
    by_cases h2 : (!env.checkSign txn txn.signingPubKey) = true
    · rw [if_pos h2] at hr; subst hr; cases hok
    rw [if_neg h2] at hr
    by_cases h3 : terSUCCESS ≠ (transactionCost env txn).2
    · rw [if_pos h3] at hr; subst hr
      exfalso
      simp only at hok
      unfold transactionCost at hok
      split at hok <;> try split_ifs at hok
      all_goals cases hok
    rw [if_neg h3] at hr
    split at hr
    · subst hr
      rename_i early hfee
      rw [((checkFee_eq_some_iff _ _ _ _ _).mp hfee).1] at hok
      cases hok
    by_cases h4 : txn.sourceAccount = 0
    · rw [if_pos h4] at hr; subst hr; cases hok
    rw [if_neg h4] at hr
    split at hr
    · subst hr; cases hok
    rename_i sleSrc hsrc
    split at hr
    · subst hr
      rename_i early hd
      rw [deductFee_error _ _ _ _ hd] at hok
      cases hok
    rename_i sleSrc1 hd
    split at hr
    · subst hr
      rename_i early hv
      rcases validateSequence_error _ _ _ _ _ _ hv with h | h | h
      · rw [h] at hok; cases hok
      · rw [h] at hok; cases hok
      · refine ⟨sleSrc, hsrc, ?_⟩
        rw [← (deductFee_ok _ _ _ _ hd).2]
        exact h.2.2
    rename_i sleSrc2 hv
    split_ifs at hr with h5
    · subst hr; rw [h5] at hok; cases hok
    · subst hr; exact absurd hok (dispatch_result _ _ _ _ _).2
  exact key _ rfl h

/-- What the code does on a resubmission: after a fee-bearing transaction that returned
`terSUCCESS`, applying the same transaction to the resulting ledger never returns
`terALREADY`, whatever the parameters. -/
theorem applyTransaction_resubmitted_not_already (env : Externals) (mLedger : Ledger)
    (txn : SerializedTransaction) (params params2 : Nat)
    (hcost : (transactionCost env txn).1.isZero = false)
    (hok : (applyTransaction env mLedger txn params).1 = terSUCCESS) :
    (applyTransaction env (applyTransaction env mLedger txn params).2 txn params2).1
      ≠ terALREADY := by
  intro h
  obtain ⟨sleSrc, h1, h2⟩ := applyTransaction_already _ _ _ _ h
  have h3 := (applyTransaction_sequence_unchanged env mLedger txn params hcost hok).2
  rw [h1] at h3
  simp only [Option.map_some', Option.some.injEq] at h3
  exact h2 h3.symm

/-- C9 (code at the failing input): resubmitting the payment of scenario 2 returns
`terCREATED`, not `terALREADY`; resubmitting a successful payment without `CreateAccount`
returns `terSUCCESS` again and debits the source a second time. -/
theorem applyTransaction_replay_not_detected :
    (applyTransaction sampleExternals ledgerScenario2 paymentScenario2 tepNONE).1
      = terSUCCESS ∧
    (applyTransaction sampleExternals
      (applyTransaction sampleExternals ledgerScenario2 paymentScenario2 tepNONE).2
      paymentScenario2 tepNONE).1 = terCREATED ∧
    (applyTransaction sampleExternals ledgerTwoAccounts (paymentPlain 10) tepNONE).1
      = terSUCCESS ∧
    accountState (applyTransaction sampleExternals ledgerTwoAccounts (paymentPlain 10)
      tepNONE).2 1 = some (9490, 5) ∧
    (applyTransaction sampleExternals
      (applyTransaction sampleExternals ledgerTwoAccounts (paymentPlain 10) tepNONE).2
      (paymentPlain 10) tepNONE).1 = terSUCCESS ∧
    accountState (applyTransaction sampleExternals
      (applyTransaction sampleExternals ledgerTwoAccounts (paymentPlain 10) tepNONE).2
      (paymentPlain 10) tepNONE).2 1 = some (8980, 5) := by
  decide

/-! ## Atomicity (C10) -/

theorem applyTransaction_success_or_same (env : Externals) (mLedger : Ledger)
    (txn : SerializedTransaction) (params : Nat) :
    (applyTransaction env mLedger txn params).1 = terSUCCESS ∨
    (applyTransaction env mLedger txn params).2 = mLedger := by
  unfold applyTransaction
  dsimp only
  repeat' split
  all_goals first
    | (right; rfl)
    | (left; assumption)

/-- C10: whenever `applyTransaction` returns a result other than `terSUCCESS`, the ledger
after the call (every entry of the store and the transaction log) is the ledger before the
call; write-backs, deletions and `addTransaction` happen on `terSUCCESS` only. -/
theorem applyTransaction_atomic (env : Externals) (mLedger : Ledger)
    (txn : SerializedTransaction) (params : Nat)
    (h : (applyTransaction env mLedger txn params).1 ≠ terSUCCESS) :
    (applyTransaction env mLedger txn params).2 = mLedger := by
  rcases applyTransaction_success_or_same env mLedger txn params with h1 | h1
  · exact absurd h1 h
  · exact h1

/-- C10 (witness): the payment of scenario 2 with sequence 6 is ahead of the account's
sequence 5; the call returns `terPRE_SEQ` and the ledger is unchanged. -/
theorem applyTransaction_atomic_witness :
    (applyTransaction sampleExternals ledgerScenario2
      { paymentScenario2 with sequence := 6 } tepNONE).1 = terPRE_SEQ ∧
    (applyTransaction sampleExternals ledgerScenario2
      { paymentScenario2 with sequence := 6 } tepNONE).2 = ledgerScenario2 :=
  ⟨by decide, applyTransaction_atomic sampleExternals ledgerScenario2
    { paymentScenario2 with sequence := 6 } tepNONE (by decide)⟩

/-! ## The full-directory and the append branch of `dirAdd` (C18, C19) -/

/-- C18: `dirAdd` returns `terDIR_FULL` exactly when the root exists, its last page exists
and holds exactly 32 keys, and `sfLastNode` is `2 ^ 64 - 1`; the staged list then comes
back unchanged; in every other case `dirAdd` returns `terSUCCESS`. -/
theorem dirAdd_dir_full_iff (mLedger : Ledger) (accounts : List AffectedAccount)
    (letKind : LedgerEntryType) (uBase uLedgerIndex : uint256) :
    ((dirAdd mLedger accounts letKind uBase uLedgerIndex).1 = terDIR_FULL ↔
      ∃ f ks, rootBounds mLedger letKind uBase = some (f, UINT64_SIZE - 1) ∧
        pageIndexes mLedger letKind uBase (UINT64_SIZE - 1) = some ks ∧
        ks.length = DIR_NODE_MAX) ∧
    ((dirAdd mLedger accounts letKind uBase uLedgerIndex).1 = terDIR_FULL →
      (dirAdd mLedger accounts letKind uBase uLedgerIndex).2.1 = accounts) ∧
    ((dirAdd mLedger accounts letKind uBase uLedgerIndex).1 ≠ terDIR_FULL →
      (dirAdd mLedger accounts letKind uBase uLedgerIndex).1 = terSUCCESS) := by
  cases hroot : mLedger.getDirRoot (Ledger.getDirIndex uBase letKind) with
  | none =>
    rw [dirAdd_root_absent _ _ _ _ _ hroot]
    refine ⟨⟨fun h => (by cases h), ?_⟩, fun h => (by cases h), fun _ => rfl⟩
    rintro ⟨f, ks, h1, _⟩
    simp [rootBounds, hroot] at h1
  | some sleRoot =>
    have hb := rootBounds_of_getDirRoot _ _ _ _ hroot
    have hlt := SLE.getIFieldU64_lt sleRoot sfLastNode
    cases hpage : mLedger.getDirNode
        (Ledger.getDirNodeIndex uBase letKind (sleRoot.getIFieldU64 sfLastNode)) with
    | none =>
      rw [dirAdd_page_absent _ _ _ _ _ _ hroot hpage]
      refine ⟨⟨fun h => (by cases h), ?_⟩, fun h => (by cases h), fun _ => rfl⟩
      rintro ⟨f, ks, h1, h2, _⟩
      rw [hb] at h1
      simp only [Option.some.injEq, Prod.mk.injEq] at h1
      rw [← h1.2] at h2
      simp [pageIndexes, hpage] at h2
    | some sleNode =>
      have hp := pageIndexes_of_getDirNode _ _ _ _ _ hpage
      by_cases hroom : (sleNode.getIFieldV256 sfIndexes).length = DIR_NODE_MAX
      · by_cases hlast : sleRoot.getIFieldU64 sfLastNode + 1 = UINT64_SIZE
        · rw [dirAdd_dir_full _ _ _ _ _ _ _ hroot hpage hroom hlast]
          refine ⟨⟨fun _ => ?_, fun _ => rfl⟩, fun _ => rfl, fun h => absurd rfl h⟩
          have hl : sleRoot.getIFieldU64 sfLastNode = UINT64_SIZE - 1 := by omega
          rw [hl] at hb hp
          exact ⟨_, _, hb, hp, hroom⟩
        · rw [dirAdd_full_page _ _ _ _ _ _ _ hroot hpage hroom (by omega)]
          refine ⟨⟨fun h => (by cases h), ?_⟩, fun h => (by cases h), fun _ => rfl⟩
          rintro ⟨f, ks, h1, _⟩
          rw [hb] at h1
          simp only [Option.some.injEq, Prod.mk.injEq] at h1
          omega
      · rw [dirAdd_append _ _ _ _ _ _ _ hroot hpage hroom]
        refine ⟨⟨fun h => (by cases h), ?_⟩, fun h => (by cases h), fun _ => rfl⟩
        rintro ⟨f, ks, h1, h2, h3⟩
        rw [hb] at h1
        simp only [Option.some.injEq, Prod.mk.injEq] at h1
        rw [← h1.2, hp] at h2
        simp only [Option.some.injEq] at h2
        rw [← h2] at h3
        exact absurd h3 hroom

/-- C19: when the root exists and its last page exists with fewer than 32 keys, `dirAdd`
returns `terSUCCESS` with `uNodeDir = sfLastNode` and stages exactly one pair, a `taaMODIFY`
of that page whose index list is the previous list with the key appended at the end; the
root is not staged, and after the commit its boundaries are what they were. -/
theorem dirAdd_append_branch (mLedger : Ledger) (accounts : List AffectedAccount)
    (letKind : LedgerEntryType) (uBase uLedgerIndex : uint256) (f l : Nat)
    (xs : List uint256)
    (hroot : rootBounds mLedger letKind uBase = some (f, l))
    (hpage : pageIndexes mLedger letKind uBase l = some xs)
    (hroom : xs.length < DIR_NODE_MAX) :
    ∃ sleNode,
      dirAdd mLedger accounts letKind uBase uLedgerIndex
        = (terSUCCESS, accounts ++ [(taaMODIFY, sleNode)], l) ∧
      sleNode.mIndex = Ledger.getDirNodeIndex uBase letKind l ∧
      sleNode.getIFieldV256 sfIndexes = xs ++ [uLedgerIndex] ∧
      rootBounds (commit mLedger [(taaMODIFY, sleNode)]) letKind uBase = some (f, l) ∧
      pageIndexes (commit mLedger [(taaMODIFY, sleNode)]) letKind uBase l
        = some (xs ++ [uLedgerIndex]) := by
  obtain ⟨sleRoot, hr, hr1, hr2⟩ := (rootBounds_eq_some_getDirRoot _ _ _ _ _).mp hroot
  subst hr2
  obtain ⟨sleNode, hn, hn1⟩ := (pageIndexes_eq_some_getDirNode _ _ _ _ _).mp hpage
  have hni := Ledger.getDirNode_mIndex _ _ _ hn
  refine ⟨sleNode.setIFieldV256 sfIndexes (sleNode.getIFieldV256 sfIndexes ++ [uLedgerIndex]),
    ?_, ?_, ?_, ?_, ?_⟩
  · exact dirAdd_append _ _ _ _ _ _ _ hr hn (by rw [hn1]; omega)
  · simpa using hni
  · rw [SLE.getIFieldV256_setIFieldV256, hn1]
  · rw [commit_cons, commit_nil, rootBounds_commitOne]
    simp [hni, Ledger.getDirIndex, Ledger.getDirNodeIndex, hroot]
  · rw [commit_cons, commit_nil, pageIndexes_commitOne]
    simp [hni, SLE.getIFieldV256_setIFieldV256, hn1]

/-- C19 (witness): appending the key `value 9` to page 3 of `ledgerThreePages`. -/
theorem dirAdd_append_branch_witness :
    (rootBounds ledgerThreePages ltRIPPLE_STATE sampleBase = some (1, 3) ∧
      pageIndexes ledgerThreePages ltRIPPLE_STATE sampleBase 3 = some [uint256.value 3]) ∧
    ∃ sleNode,
      dirAdd ledgerThreePages [] ltRIPPLE_STATE sampleBase (uint256.value 9)
        = (terSUCCESS, [] ++ [(taaMODIFY, sleNode)], 3) ∧
      sleNode.mIndex = Ledger.getDirNodeIndex sampleBase ltRIPPLE_STATE 3 ∧
      sleNode.getIFieldV256 sfIndexes = [uint256.value 3] ++ [uint256.value 9] ∧
      rootBounds (commit ledgerThreePages [(taaMODIFY, sleNode)]) ltRIPPLE_STATE sampleBase
        = some (1, 3) ∧
      pageIndexes (commit ledgerThreePages [(taaMODIFY, sleNode)]) ltRIPPLE_STATE sampleBase 3
        = some ([uint256.value 3] ++ [uint256.value 9]) :=
  ⟨⟨by decide, by decide⟩,
    dirAdd_append_branch ledgerThreePages [] ltRIPPLE_STATE sampleBase (uint256.value 9) 1 3
      [uint256.value 3] (by decide) (by decide) (by decide)⟩

/-! ## Swap-with-last removal (C20) -/

theorem commit_append (l : Ledger) (a b : List AffectedAccount) :
    commit l (a ++ b) = commit (commit l a) b := by
  unfold commit; rw [List.foldl_append]

/-- The position `std::find` returns: the first position that holds the key. -/
theorem indexOf_eq_of_first (xs : List uint256) (k : uint256) (i : Nat)
    (hi : xs[i]? = some k) (hfirst : ∀ j, j < i → xs[j]? ≠ some k) :
    xs.indexOf k = i := by
  induction xs generalizing i with
  | nil => simp at hi
  | cons a t ih =>
    cases i with
    | zero =>
      simp only [List.getElem?_cons_zero, Option.some.injEq] at hi
      subst hi
      exact List.indexOf_cons_self _ _
    | succ i =>
      have ha : a ≠ k := by
        intro h
        exact hfirst 0 (Nat.succ_pos i) (by simp [h])
      rw [List.indexOf_cons_ne _ ha]
      congr 1
      apply ih
      · simpa using hi
      · intro j hj
        have := hfirst (j + 1) (by omega)
        simpa using this

/-- The removal step overwrites the position of the key with the last element and drops the
last position. -/
theorem removeEntry_eq_set (xs : List uint256) (k z : uint256) (i : Nat)
    (hi : xs[i]? = some k) (hfirst : ∀ j, j < i → xs[j]? ≠ some k)
    (hz : xs.getLast? = some z) :
    removeEntry xs k = (xs.set i z).dropLast := by
  unfold removeEntry
  rw [indexOf_eq_of_first xs k i hi hfirst]
  have hl : xs.getLastD k = z := by simp [List.getLastD_eq_getLast?, hz]
  simp only [hl]
  by_cases hlen : xs.length > 1
  · rw [if_pos hlen]
  · rw [if_neg hlen]
    rcases xs with _ | ⟨a, _ | ⟨b, t⟩⟩
    · simp at hi
    · simp only [List.getLast?_singleton, Option.some.injEq] at hz
      subst hz
      cases i with
      | zero => simp
      | succ i => simp
    · simp at hlen

/-- The removal step as a multiset: one occurrence of the key is taken out. -/
theorem removeEntry_multiset (xs : List uint256) (k : uint256) (hk : k ∈ xs) :
    (↑(removeEntry xs k) : Multiset uint256) = (↑xs : Multiset uint256).erase k := by
  have hp := removeEntry_perm xs k hk
  rw [Multiset.coe_eq_coe.mpr hp, ← Multiset.cons_coe, Multiset.erase_cons_head]

/-- A deletion stages the shortened page, and nothing else, when the page stays non-empty or
is neither the first nor the last page. -/
theorem dirDelete_stages_page (mLedger : Ledger) (accounts : List AffectedAccount)
    (uNodeDir : Nat) (letKind : LedgerEntryType) (uBase uLedgerIndex : uint256)
    (sleNode sleRoot : SLE)
    (hnode : mLedger.getDirNode (Ledger.getDirNodeIndex uBase letKind uNodeDir) = some sleNode)
    (hin : uLedgerIndex ∈ sleNode.getIFieldV256 sfIndexes)
    (hroot : mLedger.getDirRoot (Ledger.getDirIndex uBase letKind) = some sleRoot)
    (hkeeps : removeEntry (sleNode.getIFieldV256 sfIndexes) uLedgerIndex ≠ [] ∨
      (sleRoot.getIFieldU64 sfFirstNode ≠ uNodeDir ∧
        sleRoot.getIFieldU64 sfLastNode ≠ uNodeDir)) :
    dirDelete mLedger accounts uNodeDir letKind uBase uLedgerIndex =
      Except.ok (terSUCCESS, accounts ++ [(taaMODIFY, sleNode.setIFieldV256 sfIndexes
        (removeEntry (sleNode.getIFieldV256 sfIndexes) uLedgerIndex))]) := by
  unfold dirDelete
  simp only [hnode, hroot, hin, not_true_eq_false, if_false]
  rw [if_pos hkeeps]
  rw [dirDeleteLoop_stop]
  · simp
  · rintro ⟨_, h2, h3⟩
    rcases hkeeps with h | ⟨h4, h5⟩
    · exact h h2
    · rcases h3 with h3 | h3
      · exact h4 h3
      · exact h5 h3

/-- An index that holds no entry holds none after a commit of pairs each of which is a
`taaDELETE` or is for another index. -/
theorem commit_none_of_deletes (staged : List AffectedAccount) (i : uint256) :
    ∀ l : Ledger, l.mAccountStateMap i = none →
      (∀ a ∈ staged, a.1 = taaDELETE ∨ a.2.mIndex ≠ i) →
      (commit l staged).mAccountStateMap i = none := by
  induction staged with
  | nil => intro l h _; exact h
  | cons a rest ih =>
    intro l h hall
    rw [commit_cons]
    apply ih
    · rw [commitOne_map]
      by_cases hi : i = a.2.mIndex
      · rw [if_pos hi]
        rcases hall a (List.mem_cons_self _ _) with hd | hd
        · rw [if_pos hd]
        · exact absurd hi.symm hd
      · rw [if_neg hi]; exact h
    · exact fun b hb => hall b (List.mem_cons_of_mem _ hb)

/-- A run of the coalescing loop that starts on an empty first or last page of a directory
with `uFirstNode ≠ 0` stages the `taaDELETE` of that page first, and `taaDELETE` pairs
only. -/
theorem dirDeleteLoop_first_delete (mLedger : Ledger) (letKind : LedgerEntryType)
    (uBase : uint256) (fuel uFirstNode uLastNode uNodeCur : Nat) (sleNode : SLE)
    (accounts : List AffectedAccount) (r : Nat × Nat × List AffectedAccount)
    (h0 : uFirstNode ≠ 0) (hcur : uFirstNode = uNodeCur ∨ uLastNode = uNodeCur)
    (h : dirDeleteLoop mLedger letKind uBase fuel uFirstNode uLastNode uNodeCur sleNode []
      accounts = Except.ok r) :
    ∃ dels, r.2.2 = accounts ++ (taaDELETE, sleNode) :: dels ∧ ∀ a ∈ dels, a.1 = taaDELETE := by
  cases fuel with
  | zero =>
    unfold dirDeleteLoop at h
    rw [if_pos ⟨h0, rfl, hcur⟩] at h
    cases h
  | succ fuel =>
    rw [dirDeleteLoop_step _ _ _ _ _ _ _ _ _ _ ⟨h0, rfl, hcur⟩] at h
    have hrest : ∀ (f l c : Nat) (s : SLE) (sv : List uint256),
        dirDeleteLoop mLedger letKind uBase fuel f l c s sv (accounts ++ [(taaDELETE, sleNode)])
          = Except.ok r →
        ∃ dels, r.2.2 = accounts ++ (taaDELETE, sleNode) :: dels ∧
          ∀ a ∈ dels, a.1 = taaDELETE := by
      intro f l c s sv hr
      obtain ⟨dels, h1, h2⟩ := dirDeleteLoop_appends_deletes _ _ _ _ _ _ _ _ _ _ _ hr
      exact ⟨dels, by rw [h1, List.append_assoc]; rfl, h2⟩
    split at h
    · exact hrest _ _ _ _ _ h
    · split at h
      · cases h
      · exact hrest _ _ _ _ _ h

/-- C20 (counterexample): page 0 of `ledgerFirstNodeZero` holds the list `[value 5]`, with
the key `value 5` at first position 0.  The call `dirDelete` for that key returns
`terSUCCESS` and stages nothing: after the commit the page still holds `[value 5]`, a list
of length 1 and not of length `1 - 1`. -/
theorem dirDelete_sentinel_page_keeps_key :
    rootBounds ledgerFirstNodeZero ltRIPPLE_STATE sampleBase = some (0, 1) ∧
    pageIndexes ledgerFirstNodeZero ltRIPPLE_STATE sampleBase 0 = some [uint256.value 5] ∧
    [uint256.value 5][0]? = some (uint256.value 5) ∧
    resultOf (dirDelete ledgerFirstNodeZero [] 0 ltRIPPLE_STATE sampleBase (uint256.value 5))
      = some terSUCCESS ∧
    pageIndexes (commit ledgerFirstNodeZero
      (stagedOf (dirDelete ledgerFirstNodeZero [] 0 ltRIPPLE_STATE sampleBase
        (uint256.value 5)))) ltRIPPLE_STATE sampleBase 0 = some [uint256.value 5] ∧
    (pageIndexes (commit ledgerFirstNodeZero
      (stagedOf (dirDelete ledgerFirstNodeZero [] 0 ltRIPPLE_STATE sampleBase
        (uint256.value 5)))) ltRIPPLE_STATE sampleBase 0).map List.length
      ≠ some ([uint256.value 5].length - 1) := by
  refine ⟨?_, ?_, ?_, ?_, ?_, ?_⟩ <;> decide

/-- C20 (amended): for a successful `dirDelete` on a page with index list `xs` that holds
the key at first position `i`, in a directory whose root spans `f` to `l`.  When `xs` has
more than one key, or the page is neither page `f` nor page `l`, the call stages the page
alone and the committed page holds a list of length `|xs| - 1` that is `xs` with position
`i` overwritten by the former last element and the last position dropped, and that is, as a
multiset, `xs` minus one occurrence of the key.  When the key is the only key of page `f`
or page `l`: with `f ≠ 0` the committed ledger has no such page, and with `f = 0` the call
stages nothing. -/
theorem dirDelete_swap_with_last (mLedger : Ledger) (accounts : List AffectedAccount)
    (uNodeDir : Nat) (letKind : LedgerEntryType) (uBase uLedgerIndex : uint256)
    (staged : List AffectedAccount) (xs : List uint256) (i f l : Nat)
    (h : dirDelete mLedger accounts uNodeDir letKind uBase uLedgerIndex
      = Except.ok (terSUCCESS, staged))
    (hxs : pageIndexes mLedger letKind uBase uNodeDir = some xs)
    (hi : xs[i]? = some uLedgerIndex)
    (hfirst : ∀ j, j < i → xs[j]? ≠ some uLedgerIndex)
    (hroot : rootBounds mLedger letKind uBase = some (f, l)) :
    (2 ≤ xs.length ∨ (f ≠ uNodeDir ∧ l ≠ uNodeDir) →
      ∃ ys z e, pageIndexes (commit mLedger staged) letKind uBase uNodeDir = some ys ∧
        xs.getLast? = some z ∧ ys = (xs.set i z).dropLast ∧
        ys.length = xs.length - 1 ∧
        (↑ys : Multiset uint256) = (↑xs : Multiset uint256).erase uLedgerIndex ∧
        staged = accounts ++ [(taaMODIFY, e)] ∧
        e.mIndex = Ledger.getDirNodeIndex uBase letKind uNodeDir ∧
        e.getIFieldV256 sfIndexes = ys) ∧
    (xs.length = 1 → f = uNodeDir ∨ l = uNodeDir → f ≠ 0 →
      pageIndexes (commit mLedger staged) letKind uBase uNodeDir = none) ∧
    (xs.length = 1 → f = uNodeDir ∨ l = uNodeDir → f = 0 → staged = accounts) := by
  have hmem : uLedgerIndex ∈ xs := by
    rw [List.mem_iff_getElem?]; exact ⟨i, hi⟩
  have hne : xs ≠ [] := List.ne_nil_of_mem hmem
  obtain ⟨sleNode, sleRoot, hnode, hin, hroot2, _⟩ := dirDelete_staged_members _ _ _ _ _ _ _ h
  have hx : sleNode.getIFieldV256 sfIndexes = xs := by
    have := pageIndexes_of_getDirNode _ _ _ _ _ hnode
    rw [hxs] at this
    exact (Option.some.inj this).symm
  have hb : sleRoot.getIFieldU64 sfFirstNode = f ∧ sleRoot.getIFieldU64 sfLastNode = l := by
    have := rootBounds_of_getDirRoot _ _ _ _ hroot2
    rw [hroot] at this
    simp only [Option.some.injEq, Prod.mk.injEq] at this
    exact ⟨this.1.symm, this.2.symm⟩
  have hidx := Ledger.getDirNode_mIndex _ _ _ hnode
  have hsingle : xs.length = 1 → f = uNodeDir ∨ l = uNodeDir →
      (match dirDeleteLoop mLedger letKind uBase UINT64_SIZE f l uNodeDir
          (sleNode.setIFieldV256 sfIndexes []) [] accounts with
        | Except.error e => Except.error e
        | Except.ok (uFirstNode, uLastNode, acc) =>
          if uFirstNode = f ∧ uLastNode = l then Except.ok (terSUCCESS, acc)
          else if uFirstNode ≠ 0 then
            Except.ok (terSUCCESS, acc ++ [(taaMODIFY,
              (sleRoot.setIFieldU64 sfFirstNode uFirstNode).setIFieldU64 sfLastNode
                uLastNode)])
          else Except.ok (terSUCCESS, acc ++ [(taaDELETE, sleRoot)]))
        = (Except.ok (terSUCCESS, staged) :
            Except Fault (TransactionEngineResult × List AffectedAccount)) := by
    intro hlen hcur
    have hxs1 : xs = [uLedgerIndex] := by
      rcases xs with _ | ⟨a, _ | ⟨b, t⟩⟩
      · simp at hlen
      · simp only [List.mem_singleton] at hmem
        rw [hmem]
      · simp at hlen
    have hemp : removeEntry (sleNode.getIFieldV256 sfIndexes) uLedgerIndex = [] := by
      rw [hx, hxs1]; exact removeEntry_singleton _
    have hd := dirDelete_emptied_boundary mLedger accounts uNodeDir letKind uBase uLedgerIndex
      sleNode sleRoot hnode hin hroot2 hemp (by rw [hb.1, hb.2]; exact hcur)
    rw [h, hb.1, hb.2] at hd
    exact hd.symm
  refine ⟨?_, ?_, ?_⟩
  · intro hk
    have hk2 : removeEntry (sleNode.getIFieldV256 sfIndexes) uLedgerIndex ≠ [] ∨
        (sleRoot.getIFieldU64 sfFirstNode ≠ uNodeDir ∧
          sleRoot.getIFieldU64 sfLastNode ≠ uNodeDir) := by
      rcases hk with hk | hk
      · left
        rw [hx]
        intro h0
        have := removeEntry_length xs uLedgerIndex
        rw [h0] at this
        simp only [List.length_nil] at this
        omega
      · right; rw [hb.1, hb.2]; exact hk
    have hs := dirDelete_stages_page _ accounts _ _ _ _ _ _ hnode hin hroot2 hk2
    rw [h, hx] at hs
    simp only [Except.ok.injEq, Prod.mk.injEq, true_and] at hs
    refine ⟨removeEntry xs uLedgerIndex, xs.getLast hne,
      sleNode.setIFieldV256 sfIndexes (removeEntry xs uLedgerIndex), ?_,
      List.getLast?_eq_getLast _ hne,
      removeEntry_eq_set xs uLedgerIndex _ i hi hfirst (List.getLast?_eq_getLast _ hne),
      removeEntry_length xs uLedgerIndex, removeEntry_multiset xs uLedgerIndex hmem, hs,
      by simpa using hidx, SLE.getIFieldV256_setIFieldV256 _ _ _⟩
    rw [hs, commit_append, commit_cons, commit_nil, pageIndexes_commitOne]
    simp [hidx, SLE.getIFieldV256_setIFieldV256]
  · intro hlen hcur h0
    have hd := (hsingle hlen hcur).symm
    have hpage : ∀ rest : List AffectedAccount,
        (∀ a ∈ rest, a.1 = taaDELETE ∨
          a.2.mIndex ≠ Ledger.getDirNodeIndex uBase letKind uNodeDir) →
        pageIndexes (commit mLedger (accounts ++
          (taaDELETE, sleNode.setIFieldV256 sfIndexes []) :: rest)) letKind uBase uNodeDir
          = none := by
      intro rest hrest
      have hmap : (commit mLedger (accounts ++
          (taaDELETE, sleNode.setIFieldV256 sfIndexes []) :: rest)).mAccountStateMap
          (Ledger.getDirNodeIndex uBase letKind uNodeDir) = none := by
        rw [commit_append, commit_cons]
        apply commit_none_of_deletes _ _ _ _ hrest
        rw [commitOne_map, if_pos (by simpa using hidx.symm), if_pos rfl]
      unfold pageIndexes Ledger.getDirNode Ledger.getASNode
      rw [hmap]; rfl
    cases hloop : dirDeleteLoop mLedger letKind uBase UINT64_SIZE f l uNodeDir
        (sleNode.setIFieldV256 sfIndexes []) [] accounts with
    | error e => rw [hloop] at hd; cases hd
    | ok r =>
      obtain ⟨dels, hr, hdels⟩ := dirDeleteLoop_first_delete _ _ _ _ _ _ _ _ _ r h0 hcur hloop
      obtain ⟨f2, l2, acc⟩ := r
      simp only at hr
      subst hr
      rw [hloop] at hd
      dsimp only at hd
      split_ifs at hd
      · simp only [Except.ok.injEq, Prod.mk.injEq, true_and] at hd
        rw [hd]
        exact hpage dels (fun a ha => Or.inl (hdels a ha))
      · simp only [Except.ok.injEq, Prod.mk.injEq, true_and] at hd
        rw [hd, List.append_assoc, List.cons_append]
        apply hpage
        intro a ha
        rcases List.mem_append.mp ha with ha | ha
        · exact Or.inl (hdels a ha)
        · right
          rw [List.mem_singleton.mp ha]
          simp only [SLE.setIFieldU64_mIndex]
          rw [Ledger.getDirRoot_mIndex _ _ _ hroot2]
          exact dirNodeIndex_ne_dirIndex _ _ _ _ _
      · simp only [Except.ok.injEq, Prod.mk.injEq, true_and] at hd
        rw [hd, List.append_assoc, List.cons_append]
        apply hpage
        intro a ha
        rcases List.mem_append.mp ha with ha | ha
        · exact Or.inl (hdels a ha)
        · left
          rw [List.mem_singleton.mp ha]
  · intro hlen hcur h0
    have hd := hsingle hlen hcur
    rw [dirDeleteLoop_stop _ _ _ _ _ _ _ _ _ _ (fun hc => hc.1 h0)] at hd
    simp only [and_self, if_true, Except.ok.injEq, Prod.mk.injEq, true_and] at hd
    exact hd.symm

/-- C20 (witness): deleting the key `value 1` from the page `[value 0, …, value 3]` of
`ledgerFourKeys` leaves `[value 0, value 3, value 2]` in the committed page.  For the
second part: deleting the only key of page 3, the last page of `ledgerThreePages`, leaves
no page 3. -/
theorem dirDelete_swap_with_last_witness :
    (resultOf (dirDelete ledgerThreePages [] 3 ltRIPPLE_STATE sampleBase (uint256.value 3))
        = some terSUCCESS ∧
      rootBounds ledgerThreePages ltRIPPLE_STATE sampleBase = some (1, 3) ∧
      pageIndexes ledgerThreePages ltRIPPLE_STATE sampleBase 3 = some [uint256.value 3] ∧
      pageIndexes (commit ledgerThreePages
        (stagedOf (dirDelete ledgerThreePages [] 3 ltRIPPLE_STATE sampleBase (uint256.value 3))))
        ltRIPPLE_STATE sampleBase 3 = none ∧
      resultOf (dirDelete ledgerFourKeys [] 1 ltRIPPLE_STATE sampleBase (uint256.value 1))
        = some terSUCCESS ∧
      pageIndexes ledgerFourKeys ltRIPPLE_STATE sampleBase 1 = some (sampleKeys 4) ∧
      (sampleKeys 4)[1]? = some (uint256.value 1) ∧
      rootBounds ledgerFourKeys ltRIPPLE_STATE sampleBase = some (1, 1) ∧
      pageIndexes (commit ledgerFourKeys
        (stagedOf (dirDelete ledgerFourKeys [] 1 ltRIPPLE_STATE sampleBase (uint256.value 1))))
        ltRIPPLE_STATE sampleBase 1
        = some [uint256.value 0, uint256.value 3, uint256.value 2]) ∧
    ((2 ≤ (sampleKeys 4).length ∨ (1 ≠ 1 ∧ 1 ≠ 1) →
      ∃ ys z e, pageIndexes (commit ledgerFourKeys
          (stagedOf (dirDelete ledgerFourKeys [] 1 ltRIPPLE_STATE sampleBase
            (uint256.value 1)))) ltRIPPLE_STATE sampleBase 1 = some ys ∧
        (sampleKeys 4).getLast? = some z ∧ ys = ((sampleKeys 4).set 1 z).dropLast ∧
        ys.length = (sampleKeys 4).length - 1 ∧
        (↑ys : Multiset uint256) = (↑(sampleKeys 4) : Multiset uint256).erase (uint256.value 1) ∧
        stagedOf (dirDelete ledgerFourKeys [] 1 ltRIPPLE_STATE sampleBase (uint256.value 1))
          = [] ++ [(taaMODIFY, e)] ∧
        e.mIndex = Ledger.getDirNodeIndex sampleBase ltRIPPLE_STATE 1 ∧
        e.getIFieldV256 sfIndexes = ys) ∧
    ((sampleKeys 4).length = 1 → 1 = 1 ∨ 1 = 1 → 1 ≠ 0 →
      pageIndexes (commit ledgerFourKeys
        (stagedOf (dirDelete ledgerFourKeys [] 1 ltRIPPLE_STATE sampleBase (uint256.value 1))))
        ltRIPPLE_STATE sampleBase 1 = none) ∧
    ((sampleKeys 4).length = 1 → 1 = 1 ∨ 1 = 1 → 1 = 0 →
      stagedOf (dirDelete ledgerFourKeys [] 1 ltRIPPLE_STATE sampleBase (uint256.value 1))
        = [])) :=
  ⟨⟨by decide, by decide, by decide, by decide, by decide, by decide, by decide, by decide,
      by decide⟩,
    dirDelete_swap_with_last ledgerFourKeys [] 1 ltRIPPLE_STATE sampleBase (uint256.value 1)
      (stagedOf (dirDelete ledgerFourKeys [] 1 ltRIPPLE_STATE sampleBase (uint256.value 1)))
      (sampleKeys 4) 1 1 1
      (eq_ok_of_resultOf _ _ (by decide)) (by decide) (by decide) (by decide) (by decide)⟩

/-! ## The failure classification of `doCreditSet` (C17) -/

/-- The result and the staged list of `doCreditSet`, branch by branch: the four early
returns leave the staged list as it was, and past them the result is that of `dirAdd` or
`terSUCCESS`. -/
theorem doCreditSet_cases (env : Externals) (mLedger : Ledger) (txn : SerializedTransaction)
    (accounts : List AffectedAccount) (uSrcAccountID : Nat) :
    (txn.sfDestination = 0 →
      doCreditSet env mLedger txn accounts uSrcAccountID = (tenDST_NEEDED, accounts)) ∧
    (txn.sfDestination ≠ 0 → uSrcAccountID = txn.sfDestination →
      doCreditSet env mLedger txn accounts uSrcAccountID = (tenDST_IS_SRC, accounts)) ∧
    (txn.sfDestination ≠ 0 → uSrcAccountID ≠ txn.sfDestination →
      mLedger.getAccountRoot txn.sfDestination = none →
      doCreditSet env mLedger txn accounts uSrcAccountID = (terNO_DST, accounts)) ∧
    (txn.sfDestination ≠ 0 → uSrcAccountID ≠ txn.sfDestination →
      mLedger.getAccountRoot txn.sfDestination ≠ none →
      mLedger.getRippleState uSrcAccountID txn.sfDestination txn.sfLimitAmount.currency = none →
      txn.sfLimitAmount.isZero = true →
      doCreditSet env mLedger txn accounts uSrcAccountID = (terNO_LINE_NO_ZERO, accounts)) ∧
    (txn.sfDestination ≠ 0 → uSrcAccountID ≠ txn.sfDestination →
      mLedger.getAccountRoot txn.sfDestination ≠ none →
      ¬ (mLedger.getRippleState uSrcAccountID txn.sfDestination txn.sfLimitAmount.currency = none
        ∧ txn.sfLimitAmount.isZero = true) →
      (doCreditSet env mLedger txn accounts uSrcAccountID).1 = terSUCCESS ∨
      (doCreditSet env mLedger txn accounts uSrcAccountID).1 = terDIR_FULL) := by
  refine ⟨?_, ?_, ?_, ?_, ?_⟩
  · intro h
    unfold doCreditSet
    simp only [h, if_true]
  · intro h1 h2
    unfold doCreditSet
    simp only [h1, h2, if_false, if_true]
  · intro h1 h2 h3
    unfold doCreditSet
    simp only [h1, h2, h3, if_false]
  · intro h1 h2 h3 h4 h5
    obtain ⟨d, hd⟩ := Option.ne_none_iff_exists'.mp h3
    unfold doCreditSet
    simp only [h1, h2, hd, h4, h5, if_false, if_true]
  · intro h1 h2 h3 h4
    obtain ⟨d, hd⟩ := Option.ne_none_iff_exists'.mp h3
    unfold doCreditSet
    simp only [h1, h2, hd, if_false]
    cases hl : mLedger.getRippleState uSrcAccountID txn.sfDestination
        txn.sfLimitAmount.currency with
    | none =>
      have hz : txn.sfLimitAmount.isZero = false := by
        cases hz : txn.sfLimitAmount.isZero
        · rfl
        · exact absurd ⟨hl, hz⟩ h4
      simp only [hz]
      exact dirAdd_result _ _ _ _ _
    | some line =>
      dsimp only
      repeat' split
      all_goals first
        | exact dirAdd_result _ _ _ _ _
        | (left; rfl)

/-- C17: `doCreditSet` returns `tenDST_NEEDED` iff the destination is zero (absent);
otherwise `tenDST_IS_SRC` iff the destination is the source; otherwise `terNO_DST` iff the
destination has no account root; otherwise `terNO_LINE_NO_ZERO` iff there is no line for
(source, destination, currency) and the limit is zero; with each of these four codes the
staged list comes back unchanged, and `applyTransaction` returning one of them leaves the
ledger as it was. -/
theorem doCreditSet_failure_classification (env : Externals) (mLedger : Ledger)
    (txn : SerializedTransaction) (accounts : List AffectedAccount) (uSrcAccountID : Nat) :
    ((doCreditSet env mLedger txn accounts uSrcAccountID).1 = tenDST_NEEDED ↔
      txn.sfDestination = 0) ∧
    (txn.sfDestination ≠ 0 →
      ((doCreditSet env mLedger txn accounts uSrcAccountID).1 = tenDST_IS_SRC ↔
        uSrcAccountID = txn.sfDestination) ∧
      (uSrcAccountID ≠ txn.sfDestination →
        ((doCreditSet env mLedger txn accounts uSrcAccountID).1 = terNO_DST ↔
          mLedger.getAccountRoot txn.sfDestination = none) ∧
        (mLedger.getAccountRoot txn.sfDestination ≠ none →
          ((doCreditSet env mLedger txn accounts uSrcAccountID).1 = terNO_LINE_NO_ZERO ↔
            mLedger.getRippleState uSrcAccountID txn.sfDestination
              txn.sfLimitAmount.currency = none ∧ txn.sfLimitAmount.isZero = true)))) ∧
    (∀ t, t = tenDST_NEEDED ∨ t = tenDST_IS_SRC ∨ t = terNO_DST ∨ t = terNO_LINE_NO_ZERO →
      (doCreditSet env mLedger txn accounts uSrcAccountID).1 = t →
      (doCreditSet env mLedger txn accounts uSrcAccountID).2 = accounts) ∧
    (∀ t params,
      t = tenDST_NEEDED ∨ t = tenDST_IS_SRC ∨ t = terNO_DST ∨ t = terNO_LINE_NO_ZERO →
      (applyTransaction env mLedger txn params).1 = t →
      (applyTransaction env mLedger txn params).2 = mLedger) := by
  obtain ⟨c1, c2, c3, c4, c5⟩ := doCreditSet_cases env mLedger txn accounts uSrcAccountID
  have key : ∀ t, t = tenDST_NEEDED ∨ t = tenDST_IS_SRC ∨ t = terNO_DST ∨
      t = terNO_LINE_NO_ZERO →
      (doCreditSet env mLedger txn accounts uSrcAccountID).1 = t →
      (t = tenDST_NEEDED ∧ txn.sfDestination = 0 ∨
        t = tenDST_IS_SRC ∧ txn.sfDestination ≠ 0 ∧ uSrcAccountID = txn.sfDestination ∨
        t = terNO_DST ∧ txn.sfDestination ≠ 0 ∧ uSrcAccountID ≠ txn.sfDestination ∧
          mLedger.getAccountRoot txn.sfDestination = none ∨
        t = terNO_LINE_NO_ZERO ∧ txn.sfDestination ≠ 0 ∧ uSrcAccountID ≠ txn.sfDestination ∧
          mLedger.getAccountRoot txn.sfDestination ≠ none ∧
          mLedger.getRippleState uSrcAccountID txn.sfDestination
            txn.sfLimitAmount.currency = none ∧ txn.sfLimitAmount.isZero = true) ∧
      (doCreditSet env mLedger txn accounts uSrcAccountID).2 = accounts := by
    intro t ht hr
    by_cases h1 : txn.sfDestination = 0
    · rw [c1 h1] at hr ⊢
      exact ⟨Or.inl ⟨hr.symm, h1⟩, rfl⟩
    · by_cases h2 : uSrcAccountID = txn.sfDestination
      · rw [c2 h1 h2] at hr ⊢
        exact ⟨Or.inr (Or.inl ⟨hr.symm, h1, h2⟩), rfl⟩
      · by_cases h3 : mLedger.getAccountRoot txn.sfDestination = none
        · rw [c3 h1 h2 h3] at hr ⊢
          exact ⟨Or.inr (Or.inr (Or.inl ⟨hr.symm, h1, h2, h3⟩)), rfl⟩
        · by_cases h4 : mLedger.getRippleState uSrcAccountID txn.sfDestination
              txn.sfLimitAmount.currency = none ∧ txn.sfLimitAmount.isZero = true
          · rw [c4 h1 h2 h3 h4.1 h4.2] at hr ⊢
            exact ⟨Or.inr (Or.inr (Or.inr ⟨hr.symm, h1, h2, h3, h4⟩)), rfl⟩
          · exfalso
            rcases c5 h1 h2 h3 h4 with h | h <;> rw [h] at hr <;> subst hr <;>
              simp at ht
  refine ⟨⟨fun h => ?_, fun h => ?_⟩, fun h1 => ⟨⟨fun h => ?_, fun h => ?_⟩, fun h2 =>
    ⟨⟨fun h => ?_, fun h => ?_⟩, fun h3 => ⟨fun h => ?_, fun h => ?_⟩⟩⟩, fun t ht hr =>
      (key t ht hr).2, fun t params ht hr => ?_⟩
  · rcases (key _ (Or.inl rfl) h).1 with ⟨_, h⟩ | ⟨h, _⟩ | ⟨h, _⟩ | ⟨h, _⟩
    · exact h
    all_goals cases h
  · rw [c1 h]
  · rcases (key _ (Or.inr (Or.inl rfl)) h).1 with ⟨h, _⟩ | ⟨_, _, h⟩ | ⟨h, _⟩ | ⟨h, _⟩
    · cases h
    · exact h
    all_goals cases h
  · rw [c2 h1 h]
  · rcases (key _ (Or.inr (Or.inr (Or.inl rfl))) h).1 with
      ⟨h, _⟩ | ⟨h, _⟩ | ⟨_, _, _, h⟩ | ⟨h, _⟩
    · cases h
    · cases h
    · exact h
    · cases h
  · rw [c3 h1 h2 h]
  · rcases (key _ (Or.inr (Or.inr (Or.inr rfl))) h).1 with
      ⟨h, _⟩ | ⟨h, _⟩ | ⟨h, _⟩ | ⟨_, _, _, _, h⟩
    · cases h
    · cases h
    · cases h
    · exact h
  · rw [c4 h1 h2 h3 h.1 h.2]
  · rcases applyTransaction_success_or_same env mLedger txn params with h | h
    · rw [h] at hr
      subst hr
      simp at ht
    · exact h

/-! ## The destination of a payment (C14) -/

/-- The transfer step returns `terUNFUNDED`, `terSUCCESS` or `tenUNKNOWN`. -/
theorem paymentTransfer_result (txn : SerializedTransaction) (accounts : List AffectedAccount) :
    (paymentTransfer txn accounts).1 = terUNFUNDED ∨
    (paymentTransfer txn accounts).1 = terSUCCESS ∨
    (paymentTransfer txn accounts).1 = tenUNKNOWN := by
  unfold paymentTransfer
  dsimp only
  repeat' split
  all_goals simp

/-- The handler `doPayment` past its tests of the destination field and of the currency
field, branch by branch. -/
theorem doPayment_cases (env : Externals) (mLedger : Ledger) (txn : SerializedTransaction)
    (accounts : List AffectedAccount) (srcAccountID : Nat)
    (hdst : txn.sfDestination ≠ 0) (hne : srcAccountID ≠ txn.sfDestination)
    (hcur : txn.sfCurrency ≠ some 0) :
    (mLedger.getAccountRoot txn.sfDestination = none →
      txn.flags &&& env.tfCreateAccount ≠ 0 → txn.sfCurrency.getD 0 ≠ 0 →
      doPayment env mLedger txn accounts srcAccountID = (tenCREATEXNC, accounts)) ∧
    (mLedger.getAccountRoot txn.sfDestination = none →
      txn.flags &&& env.tfCreateAccount = 0 →
      doPayment env mLedger txn accounts srcAccountID = (terNO_DST, accounts)) ∧
    (mLedger.getAccountRoot txn.sfDestination = none →
      txn.flags &&& env.tfCreateAccount ≠ 0 → txn.sfCurrency.getD 0 = 0 →
      doPayment env mLedger txn accounts srcAccountID
        = paymentTransfer txn (accounts ++ [(taaCREATE, newAccountRoot txn.sfDestination)])) ∧
    (∀ sleDst, mLedger.getAccountRoot txn.sfDestination = some sleDst →
      txn.flags &&& env.tfCreateAccount ≠ 0 →
      doPayment env mLedger txn accounts srcAccountID = (terCREATED, accounts)) ∧
    (∀ sleDst, mLedger.getAccountRoot txn.sfDestination = some sleDst →
      txn.flags &&& env.tfCreateAccount = 0 →
      doPayment env mLedger txn accounts srcAccountID
        = paymentTransfer txn (accounts ++ [(taaMODIFY, sleDst)])) := by
  refine ⟨?_, ?_, ?_, ?_, ?_⟩
  · intro h1 h2 h3
    unfold doPayment
    simp [hdst, hne, hcur, h1, h2, h3]
  · intro h1 h2
    unfold doPayment
    simp [hdst, hne, hcur, h1, h2]
  · intro h1 h2 h3
    unfold doPayment paymentTransfer newAccountRoot
    simp [hdst, hne, hcur, h1, h2, h3]
  · intro sleDst h1 h2
    unfold doPayment
    simp [hdst, hne, hcur, h1, h2]
  · intro sleDst h1 h2
    unfold doPayment paymentTransfer
    simp [hdst, hne, hcur, h1, h2]

/-- C14: for a payment with a non-zero destination distinct from the source and without an
explicit zero currency, `doPayment` returns `tenCREATEXNC` iff the destination is missing,
`tfCreateAccount` is set and the currency is not native; `terNO_DST` iff the destination is
missing and `tfCreateAccount` is not set; `terCREATED` iff the destination exists and
`tfCreateAccount` is set; in every other case the call is the transfer step on the staged
list extended by the destination, as `taaCREATE` of a new account root (missing, create,
native) or as `taaMODIFY` of the existing one (present, no create). -/
theorem doPayment_destination_resolution (env : Externals) (mLedger : Ledger)
    (txn : SerializedTransaction) (accounts : List AffectedAccount) (srcAccountID : Nat)
    (hdst : txn.sfDestination ≠ 0) (hne : srcAccountID ≠ txn.sfDestination)
    (hcur : txn.sfCurrency ≠ some 0) :
    ((doPayment env mLedger txn accounts srcAccountID).1 = tenCREATEXNC ↔
      mLedger.getAccountRoot txn.sfDestination = none ∧
        txn.flags &&& env.tfCreateAccount ≠ 0 ∧ txn.sfCurrency.getD 0 ≠ 0) ∧
    ((doPayment env mLedger txn accounts srcAccountID).1 = terNO_DST ↔
      mLedger.getAccountRoot txn.sfDestination = none ∧
        txn.flags &&& env.tfCreateAccount = 0) ∧
    ((doPayment env mLedger txn accounts srcAccountID).1 = terCREATED ↔
      (∃ sleDst, mLedger.getAccountRoot txn.sfDestination = some sleDst) ∧
        txn.flags &&& env.tfCreateAccount ≠ 0) ∧
    (mLedger.getAccountRoot txn.sfDestination = none →
      txn.flags &&& env.tfCreateAccount ≠ 0 → txn.sfCurrency.getD 0 = 0 →
      doPayment env mLedger txn accounts srcAccountID
        = paymentTransfer txn (accounts ++ [(taaCREATE, newAccountRoot txn.sfDestination)])) ∧
    (∀ sleDst, mLedger.getAccountRoot txn.sfDestination = some sleDst →
      txn.flags &&& env.tfCreateAccount = 0 →
      doPayment env mLedger txn accounts srcAccountID
        = paymentTransfer txn (accounts ++ [(taaMODIFY, sleDst)])) := by
  obtain ⟨c1, c2, c3, c4, c5⟩ := doPayment_cases env mLedger txn accounts srcAccountID hdst hne hcur
  have key : ∀ t, t = tenCREATEXNC ∨ t = terNO_DST ∨ t = terCREATED →
      (doPayment env mLedger txn accounts srcAccountID).1 = t →
      (t = tenCREATEXNC ∧ mLedger.getAccountRoot txn.sfDestination = none ∧
          txn.flags &&& env.tfCreateAccount ≠ 0 ∧ txn.sfCurrency.getD 0 ≠ 0) ∨
      (t = terNO_DST ∧ mLedger.getAccountRoot txn.sfDestination = none ∧
          txn.flags &&& env.tfCreateAccount = 0) ∨
      (t = terCREATED ∧ (∃ sleDst, mLedger.getAccountRoot txn.sfDestination = some sleDst) ∧
          txn.flags &&& env.tfCreateAccount ≠ 0) := by
    intro t ht hr
    by_cases hf : txn.flags &&& env.tfCreateAccount = 0
    · cases hd : mLedger.getAccountRoot txn.sfDestination with
      | none =>
        rw [c2 hd hf] at hr
        exact Or.inr (Or.inl ⟨hr.symm, rfl, hf⟩)
      | some sleDst =>
        exfalso
        rw [c5 sleDst hd hf] at hr
        rcases paymentTransfer_result txn (accounts ++ [(taaMODIFY, sleDst)]) with h | h | h <;>
          rw [h] at hr <;> subst hr <;> simp at ht
    · cases hd : mLedger.getAccountRoot txn.sfDestination with
      | none =>
        by_cases hc : txn.sfCurrency.getD 0 = 0
        · exfalso
          rw [c3 hd hf hc] at hr
          rcases paymentTransfer_result txn
            (accounts ++ [(taaCREATE, newAccountRoot txn.sfDestination)]) with h | h | h <;>
            rw [h] at hr <;> subst hr <;> simp at ht
        · rw [c1 hd hf hc] at hr
          exact Or.inl ⟨hr.symm, rfl, hf, hc⟩
      | some sleDst =>
        rw [c4 sleDst hd hf] at hr
        exact Or.inr (Or.inr ⟨hr.symm, ⟨sleDst, rfl⟩, hf⟩)
  have hxnc := key tenCREATEXNC (Or.inl rfl)
  have hnodst := key terNO_DST (Or.inr (Or.inl rfl))
  have hcreated := key terCREATED (Or.inr (Or.inr rfl))
  refine ⟨Iff.intro ?_ ?_, Iff.intro ?_ ?_, Iff.intro ?_ ?_, c3, c5⟩
  · intro h
    rcases hxnc h with ⟨_, h⟩ | ⟨h, _⟩ | ⟨h, _⟩
    · exact h
    · cases h
    · cases h
  · intro h
    rw [c1 h.1 h.2.1 h.2.2]
  · intro h
    rcases hnodst h with ⟨h, _⟩ | ⟨_, h⟩ | ⟨h, _⟩
    · cases h
    · exact h
    · cases h
  · intro h
    rw [c2 h.1 h.2]
  · intro h
    rcases hcreated h with ⟨h, _⟩ | ⟨h, _⟩ | ⟨_, h⟩
    · cases h
    · cases h
    · exact h
  · intro h
    obtain ⟨⟨sleDst, hd⟩, hf⟩ := h
    rw [c4 sleDst hd hf]

/-- C14 (witness): the payment of scenario 2, from account 1 to the absent account 2 with
`tfCreateAccount` in the native currency, goes to the transfer step with the destination
staged as `taaCREATE` after the source. -/
theorem doPayment_destination_resolution_witness :
    (paymentScenario2.sfDestination ≠ 0 ∧ 1 ≠ paymentScenario2.sfDestination ∧
      paymentScenario2.sfCurrency ≠ some 0) ∧
    ((doPayment sampleExternals ledgerScenario2 paymentScenario2
        [(taaMODIFY, mkAccountRoot 1 10000 5)] 1).1 = tenCREATEXNC ↔
      ledgerScenario2.getAccountRoot paymentScenario2.sfDestination = none ∧
        paymentScenario2.flags &&& sampleExternals.tfCreateAccount ≠ 0 ∧
        paymentScenario2.sfCurrency.getD 0 ≠ 0) ∧
    ((doPayment sampleExternals ledgerScenario2 paymentScenario2
        [(taaMODIFY, mkAccountRoot 1 10000 5)] 1).1 = terNO_DST ↔
      ledgerScenario2.getAccountRoot paymentScenario2.sfDestination = none ∧
        paymentScenario2.flags &&& sampleExternals.tfCreateAccount = 0) ∧
    ((doPayment sampleExternals ledgerScenario2 paymentScenario2
        [(taaMODIFY, mkAccountRoot 1 10000 5)] 1).1 = terCREATED ↔
      (∃ sleDst, ledgerScenario2.getAccountRoot paymentScenario2.sfDestination = some sleDst) ∧
        paymentScenario2.flags &&& sampleExternals.tfCreateAccount ≠ 0) ∧
    (ledgerScenario2.getAccountRoot paymentScenario2.sfDestination = none →
      paymentScenario2.flags &&& sampleExternals.tfCreateAccount ≠ 0 →
      paymentScenario2.sfCurrency.getD 0 = 0 →
      doPayment sampleExternals ledgerScenario2 paymentScenario2
        [(taaMODIFY, mkAccountRoot 1 10000 5)] 1
        = paymentTransfer paymentScenario2
          ([(taaMODIFY, mkAccountRoot 1 10000 5)] ++
            [(taaCREATE, newAccountRoot paymentScenario2.sfDestination)])) ∧
    (∀ sleDst, ledgerScenario2.getAccountRoot paymentScenario2.sfDestination = some sleDst →
      paymentScenario2.flags &&& sampleExternals.tfCreateAccount = 0 →
      doPayment sampleExternals ledgerScenario2 paymentScenario2
        [(taaMODIFY, mkAccountRoot 1 10000 5)] 1
        = paymentTransfer paymentScenario2
          ([(taaMODIFY, mkAccountRoot 1 10000 5)] ++ [(taaMODIFY, sleDst)])) :=
  ⟨⟨by decide, by decide, by decide⟩,
    doPayment_destination_resolution sampleExternals ledgerScenario2 paymentScenario2
        [(taaMODIFY, mkAccountRoot 1 10000 5)] 1
      (by decide) (by decide) (by decide)⟩

/-! ## The validator of `applyTransaction` and the handler call -/

/-- A transaction that passes every test of the validator reaches the handler with the
source staged first, and the call commits exactly when the handler returns `terSUCCESS`. -/
theorem applyTransaction_handled (env : Externals) (mLedger : Ledger)
    (txn : SerializedTransaction) (params : Nat) (sleSrc s1 s2 : SLE)
    (hid : txn.transactionID.isZero = false)
    (hsign : env.checkSign txn txn.signingPubKey = true)
    (hgate : (transactionCost env txn).2 = terSUCCESS)
    (hfee : checkFee env params (transactionCost env txn).1 txn.transactionFee = none)
    (hsrc : txn.sourceAccount ≠ 0)
    (hroot : mLedger.getAccountRoot txn.sourceAccount = some sleSrc)
    (hded : deductFee (transactionCost env txn).1 txn.transactionFee sleSrc = Except.ok s1)
    (hseq : validateSequence mLedger txn txn.transactionID (transactionCost env txn).1 s1
      = Except.ok s2) :
    applyTransaction env mLedger txn params =
      if (dispatch env mLedger txn [(taaMODIFY, s2)] txn.sourceAccount).1 = terSUCCESS then
        (terSUCCESS,
          (commit mLedger (dispatch env mLedger txn [(taaMODIFY, s2)] txn.sourceAccount).2
            ).addTransaction txn.transactionID txn txn.transactionFee)
      else ((dispatch env mLedger txn [(taaMODIFY, s2)] txn.sourceAccount).1, mLedger) := by
  unfold applyTransaction
  simp only [hid, hsign, hgate, hfee, hsrc, hroot, hded, hseq, Bool.not_true, if_false,
    ne_eq, not_true_eq_false, Bool.false_eq_true]
  split
  · rename_i h; rw [h]
  · rfl

/-- A call of `applyTransaction` that returns `terSUCCESS` has passed every test of the
validator, its handler has returned `terSUCCESS`, and the ledger after the call is the
commit of the handler's staged list followed by `addTransaction`. -/
theorem applyTransaction_success_inv (env : Externals) (mLedger : Ledger)
    (txn : SerializedTransaction) (params : Nat)
    (hok : (applyTransaction env mLedger txn params).1 = terSUCCESS) :
    ∃ sleSrc s1 s2,
      txn.transactionID.isZero = false ∧
      env.checkSign txn txn.signingPubKey = true ∧
      (transactionCost env txn).2 = terSUCCESS ∧
      checkFee env params (transactionCost env txn).1 txn.transactionFee = none ∧
      txn.sourceAccount ≠ 0 ∧
      mLedger.getAccountRoot txn.sourceAccount = some sleSrc ∧
      deductFee (transactionCost env txn).1 txn.transactionFee sleSrc = Except.ok s1 ∧
      validateSequence mLedger txn txn.transactionID (transactionCost env txn).1 s1
        = Except.ok s2 ∧
      (dispatch env mLedger txn [(taaMODIFY, s2)] txn.sourceAccount).1 = terSUCCESS ∧
      (applyTransaction env mLedger txn params).2 =
        (commit mLedger (dispatch env mLedger txn [(taaMODIFY, s2)] txn.sourceAccount).2
          ).addTransaction txn.transactionID txn txn.transactionFee := by
  have key : ∀ r, applyTransaction env mLedger txn params = r → r.1 = terSUCCESS →
      ∃ sleSrc s1 s2,
        txn.transactionID.isZero = false ∧
        env.checkSign txn txn.signingPubKey = true ∧
        (transactionCost env txn).2 = terSUCCESS ∧
        checkFee env params (transactionCost env txn).1 txn.transactionFee = none ∧
        txn.sourceAccount ≠ 0 ∧
        mLedger.getAccountRoot txn.sourceAccount = some sleSrc ∧
        deductFee (transactionCost env txn).1 txn.transactionFee sleSrc = Except.ok s1 ∧
        validateSequence mLedger txn txn.transactionID (transactionCost env txn).1 s1
          = Except.ok s2 ∧
        (dispatch env mLedger txn [(taaMODIFY, s2)] txn.sourceAccount).1 = terSUCCESS ∧
        r.2 =
          (commit mLedger (dispatch env mLedger txn [(taaMODIFY, s2)] txn.sourceAccount).2
            ).addTransaction txn.transactionID txn txn.transactionFee := by
    intro r hr hok
    unfold applyTransaction at hr
    dsimp only at hr
    by_cases h1 : txn.transactionID.isZero = true
    · rw [if_pos h1] at hr; subst hr; cases hok
    rw [if_neg h1] at hr
    by_cases h2 : (!env.checkSign txn txn.signingPubKey) = true
    · rw [if_pos h2] at hr; subst hr; cases hok
    rw [if_neg h2] at hr
    by_cases h3 : terSUCCESS ≠ (transactionCost env txn).2
    · rw [if_pos h3] at hr; subst hr; exact absurd hok.symm h3
    rw [if_neg h3] at hr
    split at hr
    · subst hr
      rename_i early hfee
      rw [((checkFee_eq_some_iff _ _ _ _ _).mp hfee).1] at hok
      cases hok
    rename_i hfee
    by_cases h4 : txn.sourceAccount = 0
    · rw [if_pos h4] at hr; subst hr; cases hok
    rw [if_neg h4] at hr
    split at hr
    · subst hr; cases hok
    rename_i sleSrc hsrc
    split at hr
    · subst hr
      rename_i early hd
      rw [deductFee_error _ _ _ _ hd] at hok
      cases hok
    rename_i sleSrc1 hd
    split at hr
    · subst hr
      rename_i early hv
      rcases validateSequence_error _ _ _ _ _ _ hv with h | h | h
      · rw [h] at hok; cases hok
      · rw [h] at hok; cases hok
      · rw [h.1] at hok; cases hok
    rename_i sleSrc2 hv
    by_cases h5 : (dispatch env mLedger txn [(taaMODIFY, sleSrc2)] txn.sourceAccount).1
        = terSUCCESS
    · rw [if_pos h5] at hr
      subst hr
      refine ⟨sleSrc, sleSrc1, sleSrc2, by simpa using h1, by simpa using h2,
        (not_not.mp h3).symm, hfee, h4, hsrc, hd, hv, h5, rfl⟩
    · rw [if_neg h5] at hr
      subst hr; exact absurd hok h5
  exact key _ rfl hok

theorem deductFee_zero_cost (saCost saPaid : STAmount) (sleSrc : SLE)
    (h : saCost.isZero = true) : deductFee saCost saPaid sleSrc = Except.ok sleSrc := by
  unfold deductFee
  simp [h]

theorem validateSequence_zero_cost (mLedger : Ledger) (txn : SerializedTransaction)
    (txID : uint256) (saCost : STAmount) (sleSrc : SLE) (h : saCost.isZero = true) :
    validateSequence mLedger txn txID saCost sleSrc =
      if txn.sequence ≠ 0 then Except.error terPAST_SEQ else Except.ok sleSrc := by
  unfold validateSequence
  simp [h]

theorem transactionCost_claim_eq (env : Externals) (txn : SerializedTransaction)
    (h : txn.txnType = ttCLAIM) : transactionCost env txn = (STAmount.native 0, terSUCCESS) := by
  unfold transactionCost; rw [h]

/-! ## Claims (C11, C12) -/

/-- The handler `doClaim` on the staged source: it returns `terSUCCESS` exactly when the
signing key is the source's, the source carries no authorized key, the signature field
verifies and the generator is not in use; it then stages the source with its authorized
key and the new generator map entry. -/
theorem doClaim_success_iff (env : Externals) (mLedger : Ledger) (txn : SerializedTransaction)
    (sleSrc : SLE) :
    ((doClaim env mLedger txn [(taaMODIFY, sleSrc)]).1 = terSUCCESS ↔
      env.getAccountID txn.signingPubKey = txn.sourceAccount ∧
      sleSrc.getIFieldPresent sfAuthorizedKey = false ∧
      env.accountPublicVerify txn.sfPubKey (env.getSHA512Half txn.sfGenerator) txn.sfSignature
        = true ∧
      mLedger.getGenerator (env.getAccountID txn.sfPubKey) = none) ∧
    ((doClaim env mLedger txn [(taaMODIFY, sleSrc)]).1 = terSUCCESS →
      (doClaim env mLedger txn [(taaMODIFY, sleSrc)]).2 =
        [(taaMODIFY, sleSrc.setIFieldH160 sfAuthorizedKey (env.getAccountID txn.sfPubKey)),
          (taaCREATE, newGeneratorMap (env.getAccountID txn.sfPubKey) txn.sfGenerator)]) := by
  unfold doClaim newGeneratorMap
  by_cases h1 : env.getAccountID txn.signingPubKey = txn.sourceAccount
  · cases h2 : sleSrc.getIFieldPresent sfAuthorizedKey
    · cases h3 : env.accountPublicVerify txn.sfPubKey (env.getSHA512Half txn.sfGenerator)
          txn.sfSignature
      · simp [h1, h2, h3]
      · cases h4 : mLedger.getGenerator (env.getAccountID txn.sfPubKey)
        · simp [h1, h2, h3, h4, pokeEntry]
        · simp [h1, h2, h3, h4]
    · simp [h1, h2]
  · simp [h1]

/-- The handler `doClaim` on a staged source that carries an authorized key returns
`terCLAIMED` when the signing key is the source's, and `tenINVALID` when it is not. -/
theorem doClaim_claimed (env : Externals) (mLedger : Ledger) (txn : SerializedTransaction)
    (sleSrc : SLE) (h : sleSrc.getIFieldPresent sfAuthorizedKey = true) :
    (doClaim env mLedger txn [(taaMODIFY, sleSrc)]).1 =
      if env.getAccountID txn.signingPubKey = txn.sourceAccount then terCLAIMED
      else tenINVALID := by
  unfold doClaim
  by_cases h1 : env.getAccountID txn.signingPubKey = txn.sourceAccount
  · simp [h1, h]
  · simp [h1]

theorem dispatch_claim (env : Externals) (mLedger : Ledger) (txn : SerializedTransaction)
    (accounts : List AffectedAccount) (srcAccountID : Nat) (h : txn.txnType = ttCLAIM) :
    dispatch env mLedger txn accounts srcAccountID = doClaim env mLedger txn accounts := by
  unfold dispatch; rw [h]

theorem SLE.setIndex_self (e : SLE) (i : uint256) (h : e.mIndex = i) : e.setIndex i = e := by
  subst h; rfl

/-- The store after the commit of the two pairs a successful `doClaim` stages. -/
theorem commit_claim_map (mLedger : Ledger) (a g : SLE) (i : uint256) :
    (commit mLedger [(taaMODIFY, a), (taaCREATE, g)]).mAccountStateMap i =
      if i = g.mIndex then some g else if i = a.mIndex then some a
      else mLedger.mAccountStateMap i := by
  simp only [commit, List.foldl, commitOne, Ledger.writeBack]

/-- A claim that passes the validator and the tests of `doClaim`: the result, and the
ledger after the call. -/
theorem applyTransaction_claim_eq (env : Externals) (mLedger : Ledger)
    (txn : SerializedTransaction) (params : Nat) (sleA : SLE)
    (htype : txn.txnType = ttCLAIM)
    (hid : txn.transactionID.isZero = false)
    (hsign : env.checkSign txn txn.signingPubKey = true)
    (hsrc : txn.sourceAccount ≠ 0)
    (hroot : mLedger.getAccountRoot txn.sourceAccount = some sleA)
    (hunclaimed : sleA.getIFieldPresent sfAuthorizedKey = false)
    (hfee : txn.transactionFee.isZero = true)
    (hseq : txn.sequence = 0)
    (hkey : env.getAccountID txn.signingPubKey = txn.sourceAccount)
    (hver : env.accountPublicVerify txn.sfPubKey (env.getSHA512Half txn.sfGenerator)
      txn.sfSignature = true)
    (hgen : mLedger.getGenerator (env.getAccountID txn.sfPubKey) = none) :
    applyTransaction env mLedger txn params =
      (terSUCCESS, (commit mLedger
        [(taaMODIFY, sleA.setIFieldH160 sfAuthorizedKey (env.getAccountID txn.sfPubKey)),
          (taaCREATE, newGeneratorMap (env.getAccountID txn.sfPubKey) txn.sfGenerator)]
        ).addTransaction txn.transactionID txn txn.transactionFee) := by
  have hcost := transactionCost_claim_eq env txn htype
  have hcheck : checkFee env params (transactionCost env txn).1 txn.transactionFee = none := by
    cases h : checkFee env params (transactionCost env txn).1 txn.transactionFee with
    | none => rfl
    | some t =>
      exfalso
      obtain ⟨_, _, h3⟩ := (checkFee_eq_some_iff _ _ _ _ _).mp h
      rw [hcost] at h3
      have hz : txn.transactionFee.value = 0 := by simpa [STAmount.isZero] using hfee
      rcases h3 with ⟨h3, _⟩ | ⟨_, h3⟩
      · exact h3 rfl
      · exact h3 hz
  have hz : (transactionCost env txn).1.isZero = true := by rw [hcost]; rfl
  have hd := deductFee_zero_cost (transactionCost env txn).1 txn.transactionFee sleA hz
  have hv : validateSequence mLedger txn txn.transactionID (transactionCost env txn).1 sleA
      = Except.ok sleA := by
    rw [validateSequence_zero_cost _ _ _ _ _ hz]
    simp [hseq]
  have hs := doClaim_success_iff env mLedger txn sleA
  have hok := hs.1.mpr ⟨hkey, hunclaimed, hver, hgen⟩
  rw [applyTransaction_handled env mLedger txn params sleA sleA sleA hid hsign
    (by rw [hcost]) hcheck hsrc hroot hd hv, dispatch_claim _ _ _ _ _ htype, if_pos hok,
    hs.2 hok]

/-- C11 (counterexample): the claim of scenario 1 meets every condition the claim lists
(account 1 unclaimed, fee 0, sequence 0, signing key of account 1, signature field that
verifies, generator not in use) and returns `terSUCCESS`; the same transaction with a zero
transaction id, or with a transaction signature that does not verify, meets them too
and returns `tenINVALID`, with the ledger unchanged. -/
theorem applyTransaction_claim_invalid_signature :
    (claimState ledgerScenario1 1 = some (false, 0, 1000, 0) ∧
      generatorState ledgerScenario1 (sampleExternals.getAccountID claimScenario1.sfPubKey)
        = none ∧
      claimScenario1.transactionFee = STAmount.native 0 ∧ claimScenario1.sequence = 0 ∧
      sampleExternals.getAccountID claimScenario1.signingPubKey = 1 ∧
      sampleExternals.accountPublicVerify claimScenario1.sfPubKey
        (sampleExternals.getSHA512Half claimScenario1.sfGenerator) claimScenario1.sfSignature
        = true) ∧
    (applyTransaction sampleExternals ledgerScenario1 claimScenario1 tepNONE).1 = terSUCCESS ∧
    (applyTransaction sampleExternals ledgerScenario1
      { claimScenario1 with transactionID := uint256.value 0 } tepNONE).1 = tenINVALID ∧
    (applyTransaction { sampleExternals with checkSign := fun _ _ => false } ledgerScenario1
      claimScenario1 tepNONE).1 = tenINVALID ∧
    claimState (applyTransaction { sampleExternals with checkSign := fun _ _ => false }
      ledgerScenario1 claimScenario1 tepNONE).2 1 = some (false, 0, 1000, 0) := by
  refine ⟨⟨?_, ?_, ?_, ?_, ?_, ?_⟩, ?_, ?_, ?_, ?_⟩ <;> decide

/-- C11 (amended): for every ledger with an unclaimed account root of `A ≠ 0` and every
claim from `A` with a non-zero transaction id, a transaction signature that verifies, fee
0, sequence 0, a signing key whose account id is `A`, a signature field that verifies
against the hash of the generator cipher under the public key, and no generator map entry
for the account id of the public key, `applyTransaction` returns `terSUCCESS`; the
committed root of `A` is the former root with the authorized key set to that account id,
with balance and sequence as before; the generator map entry of that id, absent before,
holds the id and the cipher; every other entry is as before; and the transaction is
logged. -/
theorem applyTransaction_claim_success (env : Externals) (mLedger : Ledger)
    (txn : SerializedTransaction) (params : Nat) (sleA : SLE)
    (htype : txn.txnType = ttCLAIM)
    (hid : txn.transactionID.isZero = false)
    (hsign : env.checkSign txn txn.signingPubKey = true)
    (hsrc : txn.sourceAccount ≠ 0)
    (hroot : mLedger.getAccountRoot txn.sourceAccount = some sleA)
    (hunclaimed : sleA.getIFieldPresent sfAuthorizedKey = false)
    (hfee : txn.transactionFee.isZero = true)
    (hseq : txn.sequence = 0)
    (hkey : env.getAccountID txn.signingPubKey = txn.sourceAccount)
    (hver : env.accountPublicVerify txn.sfPubKey (env.getSHA512Half txn.sfGenerator)
      txn.sfSignature = true)
    (hgen : mLedger.getGenerator (env.getAccountID txn.sfPubKey) = none) :
    (applyTransaction env mLedger txn params).1 = terSUCCESS ∧
    (applyTransaction env mLedger txn params).2.getAccountRoot txn.sourceAccount
      = some (sleA.setIFieldH160 sfAuthorizedKey (env.getAccountID txn.sfPubKey)) ∧
    claimState (applyTransaction env mLedger txn params).2 txn.sourceAccount
      = some (true, env.getAccountID txn.sfPubKey, (sleA.getIValueFieldAmount sfBalance).value,
        sleA.getIFieldU32 sfSequence) ∧
    (applyTransaction env mLedger txn params).2.getGenerator (env.getAccountID txn.sfPubKey)
      = some (newGeneratorMap (env.getAccountID txn.sfPubKey) txn.sfGenerator) ∧
    generatorState (applyTransaction env mLedger txn params).2 (env.getAccountID txn.sfPubKey)
      = some (env.getAccountID txn.sfPubKey, txn.sfGenerator) ∧
    (∀ i, i ≠ Ledger.getAccountRootIndex txn.sourceAccount →
      i ≠ Ledger.getGeneratorIndex (env.getAccountID txn.sfPubKey) →
      (applyTransaction env mLedger txn params).2.mAccountStateMap i
        = mLedger.mAccountStateMap i) ∧
    (applyTransaction env mLedger txn params).2.mTransactions
      = mLedger.mTransactions ++ [(txn.transactionID, txn, txn.transactionFee)] := by
  have heq := applyTransaction_claim_eq env mLedger txn params sleA htype hid hsign hsrc hroot
    hunclaimed hfee hseq hkey hver hgen
  have hidx : sleA.mIndex = Ledger.getAccountRootIndex txn.sourceAccount :=
    Ledger.getASNode_mIndex _ _ _ hroot
  have hroot2 : (applyTransaction env mLedger txn params).2.getAccountRoot txn.sourceAccount
      = some (sleA.setIFieldH160 sfAuthorizedKey (env.getAccountID txn.sfPubKey)) := by
    rw [heq]
    simp only [Ledger.getAccountRoot, Ledger.getASNode, Ledger.addTransaction,
      commit_claim_map]
    rw [if_neg (by simp [newGeneratorMap, Ledger.getGeneratorIndex, Ledger.getAccountRootIndex,
      SLE.setIFieldH160, SLE.setIFieldVL])]
    rw [if_pos (by simp [SLE.setIFieldH160, hidx])]
    simp only [Option.map_some']
    rw [SLE.setIndex_self _ _ (by simp [SLE.setIFieldH160, hidx])]
  have hgen2 : (applyTransaction env mLedger txn params).2.getGenerator
      (env.getAccountID txn.sfPubKey)
      = some (newGeneratorMap (env.getAccountID txn.sfPubKey) txn.sfGenerator) := by
    rw [heq]
    simp only [Ledger.getGenerator, Ledger.getASNode, Ledger.addTransaction,
      commit_claim_map]
    rw [if_pos (by simp [newGeneratorMap, SLE.setIFieldH160, SLE.setIFieldVL])]
    simp only [Option.map_some']
    rw [SLE.setIndex_self _ _ (by simp [newGeneratorMap, SLE.setIFieldH160, SLE.setIFieldVL])]
  refine ⟨by rw [heq], hroot2, ?_, hgen2, ?_, ?_, by rw [heq]; rfl⟩
  · unfold claimState
    rw [hroot2]
    simp [SLE.getIFieldPresent, SLE.getIFieldH160, SLE.setIFieldH160, SLE.setField,
      SLE.getIValueFieldAmount, SLE.getIFieldU32]
  · unfold generatorState
    rw [hgen2]
    simp [newGeneratorMap, SLE.getIFieldH160, SLE.setIFieldH160, SLE.setField,
      SLE.getIFieldVL, SLE.setIFieldVL]
  · intro i h1 h2
    rw [heq]
    simp only [Ledger.addTransaction, commit_claim_map]
    rw [if_neg (by simpa [newGeneratorMap, SLE.setIFieldH160, SLE.setIFieldVL] using h2),
      if_neg (by simpa [SLE.setIFieldH160, hidx] using h1)]

/-- C11 (witness): scenario 1 of the spec.  Account 1 holds balance 1000 at sequence 0 and
is unclaimed; the claim returns `terSUCCESS`, account 1 then carries the authorized key 1
with balance 1000 and sequence 0, and the generator map entry of id 1 holds the cipher. -/
theorem applyTransaction_claim_success_witness :
    (claimScenario1.txnType = ttCLAIM ∧ claimScenario1.transactionID.isZero = false ∧
      claimScenario1.sourceAccount ≠ 0 ∧
      claimState ledgerScenario1 1 = some (false, 0, 1000, 0) ∧
      generatorState ledgerScenario1 1 = none) ∧
    ((applyTransaction sampleExternals ledgerScenario1 claimScenario1 tepNONE).1 = terSUCCESS ∧
    (applyTransaction sampleExternals ledgerScenario1 claimScenario1 tepNONE).2.getAccountRoot
        claimScenario1.sourceAccount
      = some ((((mkAccountRoot 1 1000 0).setIndex (Ledger.getAccountRootIndex 1)).setIFieldH160
        sfAuthorizedKey (sampleExternals.getAccountID claimScenario1.sfPubKey))) ∧
    claimState (applyTransaction sampleExternals ledgerScenario1 claimScenario1 tepNONE).2
        claimScenario1.sourceAccount
      = some (true, sampleExternals.getAccountID claimScenario1.sfPubKey,
        ((((mkAccountRoot 1 1000 0).setIndex (Ledger.getAccountRootIndex 1))
          ).getIValueFieldAmount sfBalance).value,
        (((mkAccountRoot 1 1000 0).setIndex (Ledger.getAccountRootIndex 1))
          ).getIFieldU32 sfSequence) ∧
    (applyTransaction sampleExternals ledgerScenario1 claimScenario1 tepNONE).2.getGenerator
        (sampleExternals.getAccountID claimScenario1.sfPubKey)
      = some (newGeneratorMap (sampleExternals.getAccountID claimScenario1.sfPubKey)
        claimScenario1.sfGenerator) ∧
    generatorState (applyTransaction sampleExternals ledgerScenario1 claimScenario1 tepNONE).2
        (sampleExternals.getAccountID claimScenario1.sfPubKey)
      = some (sampleExternals.getAccountID claimScenario1.sfPubKey,
        claimScenario1.sfGenerator) ∧
    (∀ i, i ≠ Ledger.getAccountRootIndex claimScenario1.sourceAccount →
      i ≠ Ledger.getGeneratorIndex (sampleExternals.getAccountID claimScenario1.sfPubKey) →
      (applyTransaction sampleExternals ledgerScenario1 claimScenario1
        tepNONE).2.mAccountStateMap i = ledgerScenario1.mAccountStateMap i) ∧
    (applyTransaction sampleExternals ledgerScenario1 claimScenario1 tepNONE).2.mTransactions
      = ledgerScenario1.mTransactions ++
        [(claimScenario1.transactionID, claimScenario1, claimScenario1.transactionFee)]) :=
  ⟨⟨by decide, by decide, by decide, by decide, by decide⟩,
    applyTransaction_claim_success sampleExternals ledgerScenario1 claimScenario1 tepNONE
      ((mkAccountRoot 1 1000 0).setIndex (Ledger.getAccountRootIndex 1))
      (by decide) (by decide) (by decide) (by decide) rfl (by decide) (by decide) (by decide)
      (by decide) (by decide) rfl⟩

/-- A claim that returns `terSUCCESS` was handled by `doClaim` on the source entry as read
from the ledger: with cost zero the validator leaves the entry as it is. -/
theorem applyTransaction_claim_inv (env : Externals) (mLedger : Ledger)
    (txn : SerializedTransaction) (params : Nat) (htype : txn.txnType = ttCLAIM)
    (hok : (applyTransaction env mLedger txn params).1 = terSUCCESS) :
    ∃ sleSrc, mLedger.getAccountRoot txn.sourceAccount = some sleSrc ∧
      (doClaim env mLedger txn [(taaMODIFY, sleSrc)]).1 = terSUCCESS ∧
      (applyTransaction env mLedger txn params).2 =
        (commit mLedger (doClaim env mLedger txn [(taaMODIFY, sleSrc)]).2).addTransaction
          txn.transactionID txn txn.transactionFee := by
  obtain ⟨sleSrc, s1, s2, _, _, _, _, _, hroot, hd, hv, hdis, heq⟩ :=
    applyTransaction_success_inv env mLedger txn params hok
  have hz : (transactionCost env txn).1.isZero = true := transactionCost_claim env txn htype
  rw [deductFee_zero_cost _ _ _ hz] at hd
  cases hd
  rw [validateSequence_zero_cost _ _ _ _ _ hz] at hv
  split at hv
  · cases hv
  · cases hv
    rw [dispatch_claim _ _ _ _ _ htype] at hdis heq
    exact ⟨sleSrc, hroot, hdis, heq⟩

/-- C12: if a claim from account `A` returns `terSUCCESS`, the root of `A` in the ledger after
the call carries an authorized key; and on every ledger in which the root of `A` carries an
authorized key, no claim from `A` returns `terSUCCESS`, and a claim from `A` that passes the
validator (non-zero id, valid transaction signature, fee test, sequence 0) and whose
signing key is the key of `A` returns `terCLAIMED`. -/
theorem applyTransaction_claimed_at_most_once (env : Externals) (mLedger : Ledger)
    (txn : SerializedTransaction) (params : Nat) (htype : txn.txnType = ttCLAIM)
    (hok : (applyTransaction env mLedger txn params).1 = terSUCCESS) :
    (∃ a, (applyTransaction env mLedger txn params).2.getAccountRoot txn.sourceAccount = some a ∧
      a.getIFieldPresent sfAuthorizedKey = true) ∧
    (∀ (later : Ledger) (txn2 : SerializedTransaction) (params2 : Nat) (a : SLE),
      txn2.txnType = ttCLAIM → txn2.sourceAccount = txn.sourceAccount →
      later.getAccountRoot txn.sourceAccount = some a →
      a.getIFieldPresent sfAuthorizedKey = true →
      (applyTransaction env later txn2 params2).1 ≠ terSUCCESS ∧
      (txn2.transactionID.isZero = false → env.checkSign txn2 txn2.signingPubKey = true →
        checkFee env params2 (STAmount.native 0) txn2.transactionFee = none →
        txn2.sequence = 0 → env.getAccountID txn2.signingPubKey = txn2.sourceAccount →
        (applyTransaction env later txn2 params2).1 = terCLAIMED)) := by
  obtain ⟨sleSrc, hroot, hdis, heq⟩ := applyTransaction_claim_inv env mLedger txn params htype hok
  have hsrc : txn.sourceAccount ≠ 0 := by
    obtain ⟨_, _, _, _, _, _, _, h, _⟩ := applyTransaction_success_inv env mLedger txn params hok
    exact h
  refine ⟨?_, ?_⟩
  · have hidx : sleSrc.mIndex = Ledger.getAccountRootIndex txn.sourceAccount :=
      Ledger.getASNode_mIndex _ _ _ hroot
    refine ⟨sleSrc.setIFieldH160 sfAuthorizedKey (env.getAccountID txn.sfPubKey), ?_, ?_⟩
    · rw [heq, (doClaim_success_iff env mLedger txn sleSrc).2 hdis]
      simp only [Ledger.getAccountRoot, Ledger.getASNode, Ledger.addTransaction,
        commit_claim_map]
      rw [if_neg (by simp [newGeneratorMap, Ledger.getGeneratorIndex,
        Ledger.getAccountRootIndex, SLE.setIFieldH160, SLE.setIFieldVL])]
      rw [if_pos (by simp [SLE.setIFieldH160, hidx])]
      simp only [Option.map_some']
      rw [SLE.setIndex_self _ _ (by simp [SLE.setIFieldH160, hidx])]
    · simp [SLE.getIFieldPresent, SLE.setIFieldH160, SLE.setField]
  · intro later txn2 params2 a htype2 hsame hroot2 hclaimed
    rw [← hsame] at hroot2
    refine ⟨?_, ?_⟩
    · intro hok2
      obtain ⟨sleSrc2, hr, hd, _⟩ := applyTransaction_claim_inv env later txn2 params2 htype2 hok2
      rw [hroot2] at hr
      cases hr
      have := ((doClaim_success_iff env later txn2 a).1.mp hd).2.1
      rw [hclaimed] at this
      cases this
    · intro hid hsign hfee hseq hkey
      have hcost := transactionCost_claim_eq env txn2 htype2
      have hz : (transactionCost env txn2).1.isZero = true := by rw [hcost]; rfl
      have hd := deductFee_zero_cost (transactionCost env txn2).1 txn2.transactionFee a hz
      have hv : validateSequence later txn2 txn2.transactionID (transactionCost env txn2).1 a
          = Except.ok a := by
        rw [validateSequence_zero_cost _ _ _ _ _ hz]
        simp [hseq]
      have hres := doClaim_claimed env later txn2 a hclaimed
      rw [if_pos hkey] at hres
      rw [applyTransaction_handled env later txn2 params2 a a a hid hsign
        (by rw [hcost]) (by rw [hcost]; exact hfee) (by rw [hsame]; exact hsrc) hroot2 hd hv,
        dispatch_claim _ _ _ _ _ htype2, hres]
      rfl

/-- C12 (witness): the claim of scenario 1 returns `terSUCCESS`; submitted again to the
ledger it yields, it returns `terCLAIMED`. -/
theorem applyTransaction_claimed_at_most_once_witness :
    (claimScenario1.txnType = ttCLAIM ∧
      (applyTransaction sampleExternals ledgerScenario1 claimScenario1 tepNONE).1
        = terSUCCESS ∧
      (applyTransaction sampleExternals
        (applyTransaction sampleExternals ledgerScenario1 claimScenario1 tepNONE).2
        claimScenario1 tepNONE).1 = terCLAIMED) ∧
    ((∃ a, (applyTransaction sampleExternals ledgerScenario1 claimScenario1
        tepNONE).2.getAccountRoot claimScenario1.sourceAccount = some a ∧
      a.getIFieldPresent sfAuthorizedKey = true) ∧
    (∀ (later : Ledger) (txn2 : SerializedTransaction) (params2 : Nat) (a : SLE),
      txn2.txnType = ttCLAIM → txn2.sourceAccount = claimScenario1.sourceAccount →
      later.getAccountRoot claimScenario1.sourceAccount = some a →
      a.getIFieldPresent sfAuthorizedKey = true →
      (applyTransaction sampleExternals later txn2 params2).1 ≠ terSUCCESS ∧
      (txn2.transactionID.isZero = false →
        sampleExternals.checkSign txn2 txn2.signingPubKey = true →
        checkFee sampleExternals params2 (STAmount.native 0) txn2.transactionFee = none →
        txn2.sequence = 0 →
        sampleExternals.getAccountID txn2.signingPubKey = txn2.sourceAccount →
        (applyTransaction sampleExternals later txn2 params2).1 = terCLAIMED))) :=
  ⟨⟨by decide, by decide, by decide⟩,
    applyTransaction_claimed_at_most_once sampleExternals ledgerScenario1 claimScenario1
      tepNONE (by decide) (by decide)⟩

/-! ## Native payments (C13) -/

theorem deductFee_ok_eq (saCost saPaid : STAmount) (sleSrc e : SLE)
    (hcost : saCost.isZero = false) (h : deductFee saCost saPaid sleSrc = Except.ok e) :
    e = sleSrc.setIFieldAmount sfBalance ((sleSrc.getIValueFieldAmount sfBalance).sub saPaid) := by
  unfold deductFee at h
  simp only [hcost, Bool.not_false, if_true] at h
  split_ifs at h
  cases h
  rfl

theorem validateSequence_ok_eq (mLedger : Ledger) (txn : SerializedTransaction) (txID : uint256)
    (saCost : STAmount) (sleSrc e : SLE) (hcost : saCost.isZero = false)
    (h : validateSequence mLedger txn txID saCost sleSrc = Except.ok e) :
    e = sleSrc.setIFieldU32 sfSequence txn.sequence := by
  unfold validateSequence at h
  simp only [hcost, Bool.not_false, if_true] at h
  split_ifs at h
  cases h
  rfl

/-- The store after the commit of two staged pairs of which none is a deletion. -/
theorem commit_pair_map (mLedger : Ledger) (a1 a2 : TransactionAccountAction) (x y : SLE)
    (h1 : a1 ≠ taaDELETE) (h2 : a2 ≠ taaDELETE) (i : uint256) :
    (commit mLedger [(a1, x), (a2, y)]).mAccountStateMap i =
      if i = y.mIndex then some y else if i = x.mIndex then some x
      else mLedger.mAccountStateMap i := by
  cases a1 <;> cases a2 <;>
    first
      | exact absurd rfl h1
      | exact absurd rfl h2
      | simp only [commit, List.foldl, commitOne, Ledger.writeBack]

/-- The transfer step on a staged source and destination: it returns `terSUCCESS` only for
the native currency, and then stages the source with the amount taken from its balance
and the destination with the amount added to its balance. -/
theorem paymentTransfer_success (txn : SerializedTransaction) (a1 a2 : TransactionAccountAction)
    (e1 e2 : SLE) (h : (paymentTransfer txn [(a1, e1), (a2, e2)]).1 = terSUCCESS) :
    txn.sfCurrency.getD 0 = 0 ∧
    (paymentTransfer txn [(a1, e1), (a2, e2)]).2 =
      [(a1, e1.setIFieldAmount sfBalance ((e1.getIValueFieldAmount sfBalance).sub txn.sfAmount)),
        (a2, e2.setIFieldAmount sfBalance
          ((e2.getIValueFieldAmount sfBalance).add txn.sfAmount))] := by
  unfold paymentTransfer at h ⊢
  dsimp only at h ⊢
  by_cases hc : txn.sfCurrency.getD 0 = 0
  · rw [if_pos hc] at h ⊢
    by_cases hl : ((peekEntry [(a1, e1), (a2, e2)] 0).getIValueFieldAmount sfBalance).lt
        txn.sfAmount = true
    · rw [if_pos hl] at h; cases h
    · rw [if_neg hl]
      exact ⟨hc, rfl⟩
  · rw [if_neg hc] at h; cases h

/-- A payment handled with `terSUCCESS`: the currency field is absent, the destination is
non-zero and is not the source, and the staged list is the source less the amount followed
by the destination plus the amount, the destination being a new account root staged as
`taaCREATE` when the ledger has none and the existing one staged as `taaMODIFY` otherwise. -/
theorem doPayment_success (env : Externals) (mLedger : Ledger) (txn : SerializedTransaction)
    (s : SLE) (srcAccountID : Nat)
    (h : (doPayment env mLedger txn [(taaMODIFY, s)] srcAccountID).1 = terSUCCESS) :
    txn.sfCurrency = none ∧ txn.sfDestination ≠ 0 ∧ srcAccountID ≠ txn.sfDestination ∧
    ∃ a d, ((a = taaCREATE ∧ mLedger.getAccountRoot txn.sfDestination = none ∧
          d = newAccountRoot txn.sfDestination) ∨
        (a = taaMODIFY ∧ mLedger.getAccountRoot txn.sfDestination = some d)) ∧
      (doPayment env mLedger txn [(taaMODIFY, s)] srcAccountID).2 =
        [(taaMODIFY, s.setIFieldAmount sfBalance
            ((s.getIValueFieldAmount sfBalance).sub txn.sfAmount)),
          (a, d.setIFieldAmount sfBalance
            ((d.getIValueFieldAmount sfBalance).add txn.sfAmount))] := by
  have hdst : txn.sfDestination ≠ 0 := by
    intro h0
    unfold doPayment at h
    simp [h0] at h
  have hne : srcAccountID ≠ txn.sfDestination := by
    intro h0
    unfold doPayment at h
    simp [hdst, h0] at h
  have hcur : txn.sfCurrency ≠ some 0 := by
    intro h0
    unfold doPayment at h
    simp [hdst, hne, h0] at h
  obtain ⟨c1, c2, c3, c4, c5⟩ :=
    doPayment_cases env mLedger txn [(taaMODIFY, s)] srcAccountID hdst hne hcur
  have hnative : ∀ {a d}, (paymentTransfer txn [(taaMODIFY, s), (a, d)]).1 = terSUCCESS →
      txn.sfCurrency = none := by
    intro a d ht
    have h0 := (paymentTransfer_success txn _ _ _ _ ht).1
    cases hc : txn.sfCurrency with
    | none => rfl
    | some c =>
      rw [hc] at h0 hcur
      simp only [Option.getD_some] at h0
      rw [h0] at hcur
      exact absurd rfl hcur
  by_cases hf : txn.flags &&& env.tfCreateAccount = 0
  · cases hd : mLedger.getAccountRoot txn.sfDestination with
    | none => rw [c2 hd hf] at h; cases h
    | some d =>
      rw [c5 d hd hf] at h ⊢
      have ht := paymentTransfer_success txn _ _ _ _ h
      exact ⟨hnative h, hdst, hne, taaMODIFY, d, Or.inr ⟨rfl, rfl⟩, ht.2⟩
  · cases hd : mLedger.getAccountRoot txn.sfDestination with
    | none =>
      by_cases hc : txn.sfCurrency.getD 0 = 0
      · rw [c3 hd hf hc] at h ⊢
        have ht := paymentTransfer_success txn _ _ _ _ h
        exact ⟨hnative h, hdst, hne, taaCREATE, _, Or.inl ⟨rfl, rfl, rfl⟩, ht.2⟩
      · rw [c1 hd hf hc] at h; cases h
    | some d => rw [c4 d hd hf] at h; cases h

theorem transactionCost_payment (env : Externals) (txn : SerializedTransaction)
    (htype : txn.txnType = ttPAYMENT) (hdefault : 0 < env.theConfig.FEE_DEFAULT)
    (hcreate : 0 < env.theConfig.FEE_CREATE) :
    (transactionCost env txn).1.isZero = false := by
  unfold transactionCost
  rw [htype]
  dsimp only
  split <;> simp [STAmount.isZero, STAmount.native] <;> omega

theorem dispatch_payment (env : Externals) (mLedger : Ledger) (txn : SerializedTransaction)
    (accounts : List AffectedAccount) (srcAccountID : Nat) (h : txn.txnType = ttPAYMENT) :
    dispatch env mLedger txn accounts srcAccountID
      = doPayment env mLedger txn accounts srcAccountID := by
  unfold dispatch; rw [h]

/-- The source entry a payment reaches its handler with: the index is the source's, and the
balance is the one read from the ledger less the fee, when the fee is zero whenever the
required cost is. -/
theorem validator_source_entry (env : Externals) (mLedger : Ledger)
    (txn : SerializedTransaction) (sleSrc s1 s2 : SLE)
    (hcost : (transactionCost env txn).1.isZero = true → txn.transactionFee.isZero = true)
    (hd : deductFee (transactionCost env txn).1 txn.transactionFee sleSrc = Except.ok s1)
    (hv : validateSequence mLedger txn txn.transactionID (transactionCost env txn).1 s1
      = Except.ok s2) :
    s2.mIndex = sleSrc.mIndex ∧
    (s2.getIValueFieldAmount sfBalance).value
      = (sleSrc.getIValueFieldAmount sfBalance).value - txn.transactionFee.value := by
  cases hz : (transactionCost env txn).1.isZero with
  | true =>
    rw [deductFee_zero_cost _ _ _ hz] at hd
    cases hd
    rw [validateSequence_zero_cost _ _ _ _ _ hz] at hv
    have hf : txn.transactionFee.value = 0 := by
      simpa [STAmount.isZero] using hcost hz
    split at hv
    · cases hv
    · cases hv
      exact ⟨rfl, by rw [hf]; simp⟩
  | false =>
    rw [deductFee_ok_eq _ _ _ _ hz hd] at hv
    rw [validateSequence_ok_eq _ _ _ _ _ _ hz hv]
    refine ⟨rfl, ?_⟩
    simp [SLE.getIValueFieldAmount, SLE.setIFieldU32, SLE.setIFieldAmount, SLE.setField,
      STAmount.sub]


theorem commit_mTransactions (staged : List AffectedAccount) (l : Ledger) :
    (commit l staged).mTransactions = l.mTransactions := by
  induction staged generalizing l with
  | nil => rfl
  | cons a rest ih =>
    rw [commit_cons, ih]
    unfold commitOne
    split <;> rfl

/-- C13 (counterexample): under a fee schedule without fees, a native payment of 500 from
account 1 (balance 10000) to account 2 with fee 100, applied without the fee test, returns
`terSUCCESS`; the fee recorded is 100, and the committed balance of account 1 is 9500, not
10000 - 100 - 500. -/
theorem applyTransaction_payment_free_schedule_fee_kept :
    accountState ledgerTwoAccounts 1 = some (10000, 5) ∧
    (applyTransaction freeExternals ledgerTwoAccounts
      { paymentPlain 100 with sequence := 0 } tepNONE).1 = terSUCCESS ∧
    lastFeeRecorded (applyTransaction freeExternals ledgerTwoAccounts
      { paymentPlain 100 with sequence := 0 } tepNONE).2 = some (STAmount.native 100) ∧
    (accountState (applyTransaction freeExternals ledgerTwoAccounts
      { paymentPlain 100 with sequence := 0 } tepNONE).2 1).map Prod.fst = some 9500 ∧
    (accountState (applyTransaction freeExternals ledgerTwoAccounts
      { paymentPlain 100 with sequence := 0 } tepNONE).2 1).map Prod.fst
      ≠ some (10000 - 100 - 500) := by
  refine ⟨?_, ?_, ?_, ?_, ?_⟩ <;> decide

/-- C13 (amended): for every payment that returns `terSUCCESS` and whose fee is zero
whenever its required cost is zero, the payment is native; the committed balance of the
source is its balance before the call less the fee less the amount; the committed balance
of a destination that existed is its balance before the call plus the amount, with its
sequence unchanged; a destination that did not exist is created with balance equal to the
amount and sequence 1; and the transaction is logged with the fee of the transaction. -/
theorem applyTransaction_native_payment (env : Externals) (mLedger : Ledger)
    (txn : SerializedTransaction) (params : Nat)
    (htype : txn.txnType = ttPAYMENT)
    (hcost : (transactionCost env txn).1.isZero = true → txn.transactionFee.isZero = true)
    (hok : (applyTransaction env mLedger txn params).1 = terSUCCESS) :
    txn.sfCurrency = none ∧
    (∃ b s, accountState mLedger txn.sourceAccount = some (b, s) ∧
      (accountState (applyTransaction env mLedger txn params).2 txn.sourceAccount).map Prod.fst
        = some (b - txn.transactionFee.value - txn.sfAmount.value)) ∧
    (∀ b s, accountState mLedger txn.sfDestination = some (b, s) →
      accountState (applyTransaction env mLedger txn params).2 txn.sfDestination
        = some (b + txn.sfAmount.value, s)) ∧
    (accountState mLedger txn.sfDestination = none →
      accountState (applyTransaction env mLedger txn params).2 txn.sfDestination
        = some (0 + txn.sfAmount.value, 1)) ∧
    (applyTransaction env mLedger txn params).2.mTransactions
      = mLedger.mTransactions ++ [(txn.transactionID, txn, txn.transactionFee)] := by
  obtain ⟨sleSrc, s1, s2, _, _, _, _, _, hroot, hd, hv, hdis, heq⟩ :=
    applyTransaction_success_inv env mLedger txn params hok
  rw [dispatch_payment _ _ _ _ _ htype] at hdis heq
  obtain ⟨hs2i, hs2b⟩ := validator_source_entry env mLedger txn sleSrc s1 s2 hcost hd hv
  have hsi : sleSrc.mIndex = Ledger.getAccountRootIndex txn.sourceAccount :=
    Ledger.getASNode_mIndex _ _ _ hroot
  obtain ⟨hnat, hdst, hne, a, d, hdest, hstaged⟩ :=
    doPayment_success env mLedger txn s2 txn.sourceAccount hdis
  rw [hstaged] at heq
  have ha : a ≠ taaDELETE := by
    rcases hdest with ⟨h, _⟩ | ⟨h, _⟩ <;> rw [h] <;> decide
  have hdi : d.mIndex = Ledger.getAccountRootIndex txn.sfDestination := by
    rcases hdest with ⟨_, _, h⟩ | ⟨_, h⟩
    · rw [h]; rfl
    · exact Ledger.getASNode_mIndex _ _ _ h
  have hidx : Ledger.getAccountRootIndex txn.sourceAccount
      ≠ Ledger.getAccountRootIndex txn.sfDestination := by
    simp [Ledger.getAccountRootIndex, hne]
  have hsrc2 : accountState (applyTransaction env mLedger txn params).2 txn.sourceAccount
      = some ((sleSrc.getIValueFieldAmount sfBalance).value - txn.transactionFee.value
          - txn.sfAmount.value, s2.getIFieldU32 sfSequence) := by
    rw [heq]
    simp only [accountState, Ledger.getAccountRoot, Ledger.getASNode, Ledger.addTransaction,
      commit_pair_map _ _ _ _ _ (by decide : taaMODIFY ≠ taaDELETE) ha]
    rw [if_neg (by simpa [SLE.setIFieldAmount, hdi] using hidx),
      if_pos (by simp [SLE.setIFieldAmount, hs2i, hsi])]
    simp [SLE.getIValueFieldAmount, SLE.setIFieldAmount, SLE.setField, SLE.setIndex,
      SLE.getIFieldU32, STAmount.sub] at hs2b ⊢
    rw [hs2b]
  have hdst2 : accountState (applyTransaction env mLedger txn params).2 txn.sfDestination
      = some ((d.getIValueFieldAmount sfBalance).value + txn.sfAmount.value,
          d.getIFieldU32 sfSequence) := by
    rw [heq]
    simp only [accountState, Ledger.getAccountRoot, Ledger.getASNode, Ledger.addTransaction,
      commit_pair_map _ _ _ _ _ (by decide : taaMODIFY ≠ taaDELETE) ha]
    rw [if_pos (by simp [SLE.setIFieldAmount, hdi])]
    simp [SLE.getIValueFieldAmount, SLE.setIFieldAmount, SLE.setField, SLE.setIndex,
      SLE.getIFieldU32, STAmount.add]
  refine ⟨hnat, ?_, ?_, ?_, ?_⟩
  · refine ⟨(sleSrc.getIValueFieldAmount sfBalance).value, sleSrc.getIFieldU32 sfSequence,
      ?_, ?_⟩
    · simp [accountState, hroot]
    · rw [hsrc2]; rfl
  · intro b s hb
    rw [hdst2]
    rcases hdest with ⟨_, h, _⟩ | ⟨_, h⟩
    · simp [accountState, h] at hb
    · simp only [accountState, h, Option.map_some', Option.some.injEq, Prod.mk.injEq] at hb
      rw [hb.1, hb.2]
  · intro hb
    rw [hdst2]
    rcases hdest with ⟨_, _, h⟩ | ⟨_, h⟩
    · rw [h]
      simp [newAccountRoot, SLE.getIValueFieldAmount, SLE.setIFieldAccount, SLE.setIFieldU32,
        SLE.setField, SLE.setIndex, SLE.make, SLE.getIFieldU32, STAmount.zero, UINT32_SIZE]
    · simp [accountState, h] at hb
  · rw [heq]
    simp [Ledger.addTransaction, commit_mTransactions]

/-- C13 (witness): scenario 2 of the spec.  Account 1 with balance 10000 pays 500 with fee
100 and `tfCreateAccount` to the absent account 2: account 1 then holds 9400 and account 2
is created with balance 500 and sequence 1. -/
theorem applyTransaction_native_payment_witness :
    (accountState ledgerScenario2 1 = some (10000, 5) ∧
      accountState ledgerScenario2 2 = none ∧
      (accountState (applyTransaction sampleExternals ledgerScenario2 paymentScenario2
        tepNONE).2 1).map Prod.fst = some 9400 ∧
      accountState (applyTransaction sampleExternals ledgerScenario2 paymentScenario2
        tepNONE).2 2 = some (500, 1)) ∧
    (paymentScenario2.sfCurrency = none ∧
    (∃ b s, accountState ledgerScenario2 paymentScenario2.sourceAccount = some (b, s) ∧
      (accountState (applyTransaction sampleExternals ledgerScenario2 paymentScenario2
          tepNONE).2 paymentScenario2.sourceAccount).map Prod.fst
        = some (b - paymentScenario2.transactionFee.value - paymentScenario2.sfAmount.value)) ∧
    (∀ b s, accountState ledgerScenario2 paymentScenario2.sfDestination = some (b, s) →
      accountState (applyTransaction sampleExternals ledgerScenario2 paymentScenario2
          tepNONE).2 paymentScenario2.sfDestination
        = some (b + paymentScenario2.sfAmount.value, s)) ∧
    (accountState ledgerScenario2 paymentScenario2.sfDestination = none →
      accountState (applyTransaction sampleExternals ledgerScenario2 paymentScenario2
          tepNONE).2 paymentScenario2.sfDestination
        = some (0 + paymentScenario2.sfAmount.value, 1)) ∧
    (applyTransaction sampleExternals ledgerScenario2 paymentScenario2 tepNONE).2.mTransactions
      = ledgerScenario2.mTransactions ++
        [(paymentScenario2.transactionID, paymentScenario2,
          paymentScenario2.transactionFee)]) :=
  ⟨⟨by decide, by decide, by decide, by decide⟩,
    applyTransaction_native_payment sampleExternals ledgerScenario2 paymentScenario2 tepNONE
      (by decide) (by decide) (by decide)⟩

/-! ## Credit lines (C15) -/

/-- The handler `doCreditSet` on an existing line: the limit is stored under `sfLowLimit`
for the low side and under `sfHighID` for the high side; the side's flag is set and
`dirAdd` is called when the flag was not set. -/
theorem doCreditSet_existing_line (env : Externals) (mLedger : Ledger)
    (txn : SerializedTransaction) (accounts : List AffectedAccount) (uSrcAccountID : Nat)
    (sleDst line : SLE)
    (hdst : txn.sfDestination ≠ 0) (hne : uSrcAccountID ≠ txn.sfDestination)
    (hroot : mLedger.getAccountRoot txn.sfDestination = some sleDst)
    (hline : mLedger.getRippleState uSrcAccountID txn.sfDestination txn.sfLimitAmount.currency
      = some line) :
    doCreditSet env mLedger txn accounts uSrcAccountID =
      if line.getFlags &&&
          (if uSrcAccountID < txn.sfDestination then env.lsfLowIndexed else env.lsfHighIndexed)
          = 0 then
        ((dirAdd mLedger
            (accounts ++ [(taaMODIFY, (line.setIFieldAmount
              (if uSrcAccountID < txn.sfDestination then sfLowLimit else sfHighID)
              txn.sfLimitAmount).setFlag
              (if uSrcAccountID < txn.sfDestination then env.lsfLowIndexed
                else env.lsfHighIndexed))])
            ltRIPPLE_STATE (env.uint160extend256 uSrcAccountID 0) line.mIndex).1,
          (dirAdd mLedger
            (accounts ++ [(taaMODIFY, (line.setIFieldAmount
              (if uSrcAccountID < txn.sfDestination then sfLowLimit else sfHighID)
              txn.sfLimitAmount).setFlag
              (if uSrcAccountID < txn.sfDestination then env.lsfLowIndexed
                else env.lsfHighIndexed))])
            ltRIPPLE_STATE (env.uint160extend256 uSrcAccountID 0) line.mIndex).2.1)
      else
        (terSUCCESS, accounts ++ [(taaMODIFY, line.setIFieldAmount
          (if uSrcAccountID < txn.sfDestination then sfLowLimit else sfHighID)
          txn.sfLimitAmount)]) := by
  unfold doCreditSet
  simp only [hdst, hne, hroot, hline, if_false]
  by_cases hs : uSrcAccountID < txn.sfDestination
  · by_cases hf : line.getFlags &&& env.lsfLowIndexed = 0
    · simp [hs, hf, SLE.getIndex, SLE.setFlag, SLE.setIFieldAmount, SLE.setField]
    · simp [hs, hf]
  · by_cases hf : line.getFlags &&& env.lsfHighIndexed = 0
    · simp [hs, hf, SLE.getIndex, SLE.setFlag, SLE.setIFieldAmount, SLE.setField]
    · simp [hs, hf]

/-- C15 (code at the failing input): on the line between accounts 3 and 5 opened by account
3 with limit 100, a `CREDIT_SET` from account 5, the high side, with limit 50 returns
`terSUCCESS`; `high_limit` is 0 afterwards, as before, and `high_id` no longer reads 5.  On
the same line a `CREDIT_SET` from account 3 sets `low_limit` and nothing else, and the
branch that creates a line for the high side stores the limit as `high_limit`. -/
theorem doCreditSet_high_side_writes_high_id :
    lineState ledgerLineFromLow 5 3 7 = some (3, 5, 100, 0, 0, 1) ∧
    (applyTransaction sampleExternals ledgerLineFromLow (creditSet 5 3 50 81) tepNONE).1
      = terSUCCESS ∧
    lineState (applyTransaction sampleExternals ledgerLineFromLow (creditSet 5 3 50 81)
      tepNONE).2 5 3 7 = some (3, 0, 100, 0, 0, 3) ∧
    (applyTransaction sampleExternals ledgerLineFromLow (creditSet 3 5 70 82) tepNONE).1
      = terSUCCESS ∧
    lineState (applyTransaction sampleExternals ledgerLineFromLow (creditSet 3 5 70 82)
      tepNONE).2 3 5 7 = some (3, 5, 70, 0, 0, 1) ∧
    lineState ledgerAccounts35 5 3 7 = none ∧
    lineState ledgerLineFromHigh 5 3 7 = some (3, 5, 0, 100, 0, 2) := by
  refine ⟨?_, ?_, ?_, ?_, ?_, ?_, ?_⟩ <;> decide

/-! ## Termination and safety of the coalescing loop (C22) -/

/-- Without its trace, the traced loop is the loop of `dirDelete`. -/
theorem dirDeleteLoopTrace_erase (mLedger : Ledger) (letKind : LedgerEntryType)
    (uBase : uint256) (fuel : Nat) :
    ∀ (uFirstNode uLastNode uNodeCur : Nat) (sleNode : SLE) (svIndexes : List uint256)
      (accounts : List AffectedAccount) (trace : LoopTrace),
      (dirDeleteLoopTrace mLedger letKind uBase fuel uFirstNode uLastNode uNodeCur sleNode
        svIndexes accounts trace).map Prod.fst
      = dirDeleteLoop mLedger letKind uBase fuel uFirstNode uLastNode uNodeCur sleNode
        svIndexes accounts := by
  induction fuel with
  | zero =>
    intro f l cur sleNode sv accounts trace
    unfold dirDeleteLoopTrace dirDeleteLoop
    split <;> rfl
  | succ fuel ih =>
    intro f l cur sleNode sv accounts trace
    rw [dirDeleteLoopTrace, dirDeleteLoop]
    split
    · dsimp only
      split
      · exact ih _ _ _ _ _ _ _
      · split
        · rfl
        · exact ih _ _ _ _ _ _ _
    · rfl


theorem dirDeleteLoopTrace_stop (mLedger : Ledger) (letKind : LedgerEntryType)
    (uBase : uint256) (fuel uFirstNode uLastNode uNodeCur : Nat) (sleNode : SLE)
    (svIndexes : List uint256) (accounts : List AffectedAccount) (trace : LoopTrace)
    (h : ¬ (uFirstNode ≠ 0 ∧ svIndexes = [] ∧ (uFirstNode = uNodeCur ∨ uLastNode = uNodeCur))) :
    dirDeleteLoopTrace mLedger letKind uBase fuel uFirstNode uLastNode uNodeCur sleNode
      svIndexes accounts trace = Except.ok ((uFirstNode, uLastNode, accounts), trace) := by
  unfold dirDeleteLoopTrace
  rw [if_neg h]

/-- One iteration of the traced loop at the first page of a range of more than one page. -/
theorem dirDeleteLoopTrace_advance (mLedger : Ledger) (letKind : LedgerEntryType)
    (uBase : uint256) (fuel uFirstNode uLastNode : Nat) (sleNode sleNext : SLE)
    (accounts : List AffectedAccount) (trace : LoopTrace)
    (h0 : uFirstNode ≠ 0) (hlt : uFirstNode < uLastNode) (hl : uLastNode < UINT64_SIZE)
    (hnext : mLedger.getDirNode (Ledger.getDirNodeIndex uBase letKind (uFirstNode + 1))
      = some sleNext) :
    dirDeleteLoopTrace mLedger letKind uBase (fuel + 1) uFirstNode uLastNode uFirstNode sleNode
      [] accounts trace =
    dirDeleteLoopTrace mLedger letKind uBase fuel (uFirstNode + 1) uLastNode (uFirstNode + 1)
      sleNext (sleNext.getIFieldV256 sfIndexes) (accounts ++ [(taaDELETE, sleNode)])
      { iterations := trace.iterations + 1, fetched := trace.fetched ++ [uFirstNode + 1],
        wrapped := trace.wrapped } := by
  rw [dirDeleteLoopTrace]
  rw [if_pos ⟨h0, rfl, Or.inl rfl⟩]
  have hm : (uFirstNode + 1) % UINT64_SIZE = uFirstNode + 1 := Nat.mod_eq_of_lt (by omega)
  have hw : decide (UINT64_SIZE ≤ uFirstNode + 1 ∨ UINT64_SIZE ≤ uFirstNode + 1) = false := by
    simp; omega
  simp only [if_neg (Nat.ne_of_lt hlt), if_true, hm, hnext, hw, Bool.or_false]

/-- One iteration of the traced loop at the last page of a range of more than one page. -/
theorem dirDeleteLoopTrace_rewind (mLedger : Ledger) (letKind : LedgerEntryType)
    (uBase : uint256) (fuel uFirstNode uLastNode : Nat) (sleNode sleNext : SLE)
    (accounts : List AffectedAccount) (trace : LoopTrace)
    (h0 : uFirstNode ≠ 0) (hlt : uFirstNode < uLastNode) (hl : uLastNode < UINT64_SIZE)
    (hnext : mLedger.getDirNode (Ledger.getDirNodeIndex uBase letKind (uLastNode - 1))
      = some sleNext) :
    dirDeleteLoopTrace mLedger letKind uBase (fuel + 1) uFirstNode uLastNode uLastNode sleNode
      [] accounts trace =
    dirDeleteLoopTrace mLedger letKind uBase fuel uFirstNode (uLastNode - 1) (uLastNode - 1)
      sleNext (sleNext.getIFieldV256 sfIndexes) (accounts ++ [(taaDELETE, sleNode)])
      { iterations := trace.iterations + 1, fetched := trace.fetched ++ [uLastNode - 1],
        wrapped := trace.wrapped } := by
  rw [dirDeleteLoopTrace]
  rw [if_pos ⟨h0, rfl, Or.inr rfl⟩]
  have hm : (uLastNode + (UINT64_SIZE - 1)) % UINT64_SIZE = uLastNode - 1 := by
    rw [UINT64_SIZE_eq] at hl ⊢; omega
  have hw : decide (uLastNode = 0 ∨ uLastNode = 0) = false := by
    simp; omega
  simp only [if_neg (Nat.ne_of_lt hlt), hm, hnext, hw, Bool.or_false]

/-- The traced loop on a range `uFirstNode ≤ uLastNode` whose pages all exist: it returns
within one iteration per page of the range, fetches pages of the range only, and no node
number wraps. -/
theorem dirDeleteLoopTrace_bounds (mLedger : Ledger) (letKind : LedgerEntryType)
    (uBase : uint256) (fuel : Nat) :
    ∀ (uFirstNode uLastNode uNodeCur : Nat) (sleNode : SLE) (svIndexes : List uint256)
      (accounts : List AffectedAccount) (trace : LoopTrace),
      uFirstNode ≤ uLastNode → uLastNode < UINT64_SIZE →
      (∀ n, uFirstNode ≤ n → n ≤ uLastNode →
        (mLedger.getDirNode (Ledger.getDirNodeIndex uBase letKind n)).isSome) →
      uLastNode - uFirstNode < fuel →
      ∃ r tr, dirDeleteLoopTrace mLedger letKind uBase fuel uFirstNode uLastNode uNodeCur
          sleNode svIndexes accounts trace = Except.ok (r, tr) ∧
        tr.iterations ≤ trace.iterations + (uLastNode - uFirstNode + 1) ∧
        (∀ v ∈ tr.fetched, v ∈ trace.fetched ∨ (uFirstNode ≤ v ∧ v ≤ uLastNode)) ∧
        tr.wrapped = trace.wrapped := by
  induction fuel with
  | zero => intro _ _ _ _ _ _ _ _ _ _ h; omega
  | succ fuel ih =>
    intro f l cur sleNode sv accounts trace hle hlt hpages hfuel
    by_cases h : f ≠ 0 ∧ sv = [] ∧ (f = cur ∨ l = cur)
    · obtain ⟨h0, hsv, hcur⟩ := h
      subst hsv
      by_cases hfl : f = l
      · subst hfl
        have hc : cur = f := by rcases hcur with h | h <;> exact h.symm
        subst hc
        have hrun : dirDeleteLoopTrace mLedger letKind uBase (fuel + 1) cur cur cur sleNode []
            accounts trace = Except.ok ((0, cur, accounts ++ [(taaDELETE, sleNode)]),
              { trace with iterations := trace.iterations + 1 }) := by
          rw [dirDeleteLoopTrace, if_pos ⟨h0, rfl, Or.inl rfl⟩]
          simp only [if_true]
          exact dirDeleteLoopTrace_stop _ _ _ _ _ _ _ _ _ _ _ (by simp)
        refine ⟨_, _, hrun, ?_, ?_, rfl⟩
        · simp
        · intro v hv; exact Or.inl hv
      · have hlt2 : f < l := by omega
        by_cases hc : f = cur
        · subst hc
          obtain ⟨p, hp⟩ := Option.isSome_iff_exists.mp (hpages (f + 1) (by omega) (by omega))
          rw [dirDeleteLoopTrace_advance _ _ _ _ _ _ _ _ _ _ h0 hlt2 hlt hp]
          obtain ⟨r, tr, h1, h2, h3, h4⟩ := ih (f + 1) l (f + 1) p (p.getIFieldV256 sfIndexes)
            (accounts ++ [(taaDELETE, sleNode)])
            { iterations := trace.iterations + 1, fetched := trace.fetched ++ [f + 1],
              wrapped := trace.wrapped } (by omega) hlt
            (fun n hn1 hn2 => hpages n (by omega) hn2) (by omega)
          refine ⟨r, tr, h1, ?_, ?_, h4⟩
          · simp only at h2; omega
          · intro v hv
            rcases h3 v hv with h | ⟨h, h'⟩
            · rcases List.mem_append.mp h with h | h
              · exact Or.inl h
              · right
                simp only [List.mem_singleton] at h
                omega
            · right; omega
        · have hcl : l = cur := by
            rcases hcur with h | h
            · exact absurd h hc
            · exact h
          subst hcl
          obtain ⟨p, hp⟩ := Option.isSome_iff_exists.mp (hpages (l - 1) (by omega) (by omega))
          rw [dirDeleteLoopTrace_rewind _ _ _ _ _ _ _ _ _ _ h0 hlt2 hlt hp]
          obtain ⟨r, tr, h1, h2, h3, h4⟩ := ih f (l - 1) (l - 1) p (p.getIFieldV256 sfIndexes)
            (accounts ++ [(taaDELETE, sleNode)])
            { iterations := trace.iterations + 1, fetched := trace.fetched ++ [l - 1],
              wrapped := trace.wrapped } (by omega) (by omega)
            (fun n hn1 hn2 => hpages n hn1 (by omega)) (by omega)
          refine ⟨r, tr, h1, ?_, ?_, h4⟩
          · simp only at h2; omega
          · intro v hv
            rcases h3 v hv with h | ⟨h, h'⟩
            · rcases List.mem_append.mp h with h | h
              · exact Or.inl h
              · right
                simp only [List.mem_singleton] at h
                omega
            · right; omega
    · exact ⟨_, _, dirDeleteLoopTrace_stop _ _ _ _ _ _ _ _ _ _ _ h, by omega,
        fun v hv => Or.inl hv, rfl⟩


/-- C22: for a directory whose root spans `f ≤ l` (in particular `1 ≤ f ≤ l`) and whose
pages `f..l` all exist, empty or not, the coalescing loop of `dirDelete`, from every page
it may start on, returns after at most `l - f + 1` iterations; every replacement page it
fetches has a node number in `[f, l]` and is in the ledger, so no absent entry is read; no
increment or decrement of a node number wraps; and every call of `dirDelete` on the
directory returns. -/
theorem dirDelete_loop_terminates_safely (mLedger : Ledger) (letKind : LedgerEntryType)
    (uBase : uint256) (f l : Nat)
    (hroot : rootBounds mLedger letKind uBase = some (f, l))
    (hle : f ≤ l)
    (hpages : ∀ n, f ≤ n → n ≤ l → (pageIndexes mLedger letKind uBase n).isSome) :
    (∀ (uNodeCur : Nat) (sleNode : SLE) (svIndexes : List uint256)
        (accounts : List AffectedAccount),
      ∃ r tr,
        dirDeleteLoopTrace mLedger letKind uBase UINT64_SIZE f l uNodeCur sleNode svIndexes
          accounts ⟨0, [], false⟩ = Except.ok (r, tr) ∧
        dirDeleteLoop mLedger letKind uBase UINT64_SIZE f l uNodeCur sleNode svIndexes accounts
          = Except.ok r ∧
        tr.iterations ≤ l - f + 1 ∧
        (∀ v ∈ tr.fetched, f ≤ v ∧ v ≤ l ∧ (pageIndexes mLedger letKind uBase v).isSome) ∧
        tr.wrapped = false) ∧
    (∀ (accounts : List AffectedAccount) (uNodeDir : Nat) (uLedgerIndex : uint256),
      ∃ r, dirDelete mLedger accounts uNodeDir letKind uBase uLedgerIndex = Except.ok r) := by
  obtain ⟨sleRoot, hr, hf, hl⟩ := (rootBounds_eq_some_getDirRoot _ _ _ _ _).mp hroot
  have hlt : l < UINT64_SIZE := by rw [← hl]; exact SLE.getIFieldU64_lt _ _
  have hpages2 : ∀ n, f ≤ n → n ≤ l →
      (mLedger.getDirNode (Ledger.getDirNodeIndex uBase letKind n)).isSome := by
    intro n h1 h2
    have := hpages n h1 h2
    simpa [pageIndexes] using this
  have hloop : ∀ (uNodeCur : Nat) (sleNode : SLE) (svIndexes : List uint256)
      (accounts : List AffectedAccount),
      ∃ r tr,
        dirDeleteLoopTrace mLedger letKind uBase UINT64_SIZE f l uNodeCur sleNode svIndexes
          accounts ⟨0, [], false⟩ = Except.ok (r, tr) ∧
        dirDeleteLoop mLedger letKind uBase UINT64_SIZE f l uNodeCur sleNode svIndexes accounts
          = Except.ok r ∧
        tr.iterations ≤ l - f + 1 ∧
        (∀ v ∈ tr.fetched, f ≤ v ∧ v ≤ l ∧ (pageIndexes mLedger letKind uBase v).isSome) ∧
        tr.wrapped = false := by
    intro cur sleNode sv accounts
    obtain ⟨r, tr, h1, h2, h3, h4⟩ := dirDeleteLoopTrace_bounds mLedger letKind uBase
      UINT64_SIZE f l cur sleNode sv accounts ⟨0, [], false⟩ hle hlt hpages2 (by omega)
    refine ⟨r, tr, h1, ?_, by simpa using h2, ?_, h4⟩
    · rw [← dirDeleteLoopTrace_erase _ _ _ _ _ _ _ _ _ _ ⟨0, [], false⟩, h1]
      rfl
    · intro v hv
      rcases h3 v hv with h | ⟨h, h'⟩
      · simp at h
      · exact ⟨h, h', hpages v h h'⟩
  refine ⟨hloop, ?_⟩
  intro accounts uNodeDir uLedgerIndex
  cases hpage : mLedger.getDirNode (Ledger.getDirNodeIndex uBase letKind uNodeDir) with
  | none =>
    unfold dirDelete
    simp only [hpage]
    exact ⟨_, rfl⟩
  | some sleNode =>
    by_cases hin : uLedgerIndex ∈ sleNode.getIFieldV256 sfIndexes
    · obtain ⟨r, _, _, h2, _⟩ := hloop uNodeDir
        (sleNode.setIFieldV256 sfIndexes (removeEntry (sleNode.getIFieldV256 sfIndexes)
          uLedgerIndex))
        (removeEntry (sleNode.getIFieldV256 sfIndexes) uLedgerIndex)
        (if removeEntry (sleNode.getIFieldV256 sfIndexes) uLedgerIndex ≠ [] ∨
            (f ≠ uNodeDir ∧ l ≠ uNodeDir) then
          accounts ++ [(taaMODIFY, sleNode.setIFieldV256 sfIndexes
            (removeEntry (sleNode.getIFieldV256 sfIndexes) uLedgerIndex))]
          else accounts)
      unfold dirDelete
      simp only [hpage, hr, hin, not_true_eq_false, if_false, hf, hl, h2]
      split_ifs <;> exact ⟨_, rfl⟩
    · unfold dirDelete
      simp only [hpage, hin, not_false_eq_true, if_true]
      exact ⟨_, rfl⟩

/-- C22 (witness): in `ledgerEmptyInterior` the root spans pages 1 to 4 and pages 2 and 3
are empty.  Started on the emptied page 1, the loop performs 3 iterations, fetches pages
2, 3 and 4 and wraps no counter; `dirDelete` of the key of page 1 returns `terSUCCESS`. -/
theorem dirDelete_loop_terminates_safely_witness :
    (rootBounds ledgerEmptyInterior ltRIPPLE_STATE sampleBase = some (1, 4) ∧
      traceOf (dirDeleteLoopTrace ledgerEmptyInterior ltRIPPLE_STATE sampleBase UINT64_SIZE 1 4 1
        (mkDirNode ltRIPPLE_STATE sampleBase 1 []) [] [] ⟨0, [], false⟩)
        = some ⟨3, [2, 3, 4], false⟩ ∧
      resultOf (dirDelete ledgerEmptyInterior [] 1 ltRIPPLE_STATE sampleBase (uint256.value 1))
        = some terSUCCESS) ∧
    ((∀ (uNodeCur : Nat) (sleNode : SLE) (svIndexes : List uint256)
        (accounts : List AffectedAccount),
      ∃ r tr,
        dirDeleteLoopTrace ledgerEmptyInterior ltRIPPLE_STATE sampleBase UINT64_SIZE 1 4
          uNodeCur sleNode svIndexes accounts ⟨0, [], false⟩ = Except.ok (r, tr) ∧
        dirDeleteLoop ledgerEmptyInterior ltRIPPLE_STATE sampleBase UINT64_SIZE 1 4 uNodeCur
          sleNode svIndexes accounts = Except.ok r ∧
        tr.iterations ≤ 4 - 1 + 1 ∧
        (∀ v ∈ tr.fetched, 1 ≤ v ∧ v ≤ 4 ∧
          (pageIndexes ledgerEmptyInterior ltRIPPLE_STATE sampleBase v).isSome) ∧
        tr.wrapped = false) ∧
    (∀ (accounts : List AffectedAccount) (uNodeDir : Nat) (uLedgerIndex : uint256),
      ∃ r, dirDelete ledgerEmptyInterior accounts uNodeDir ltRIPPLE_STATE sampleBase
        uLedgerIndex = Except.ok r)) :=
  ⟨⟨by decide, by decide, by decide⟩,
    dirDelete_loop_terminates_safely ledgerEmptyInterior ltRIPPLE_STATE sampleBase 1 4
      (by decide) (by decide)
      (fun n h1 h2 => by interval_cases n <;> decide)⟩

/-! ## Indexing of a credit line (C21) -/

/-- The validator hands the handler a source entry with the index it was read under. -/
theorem validator_source_index (env : Externals) (mLedger : Ledger)
    (txn : SerializedTransaction) (sleSrc s1 s2 : SLE)
    (hd : deductFee (transactionCost env txn).1 txn.transactionFee sleSrc = Except.ok s1)
    (hv : validateSequence mLedger txn txn.transactionID (transactionCost env txn).1 s1
      = Except.ok s2) :
    s2.mIndex = sleSrc.mIndex := by
  have h1 := (deductFee_ok _ _ _ _ hd).1
  cases hz : (transactionCost env txn).1.isZero with
  | true =>
    rw [validateSequence_zero_cost _ _ _ _ _ hz] at hv
    split at hv
    · cases hv
    · cases hv; exact h1
  | false =>
    rw [(validateSequence_ok _ _ _ _ _ _ hz hv).1, h1]

theorem dispatch_creditSet (env : Externals) (mLedger : Ledger) (txn : SerializedTransaction)
    (accounts : List AffectedAccount) (srcAccountID : Nat) (h : txn.txnType = ttCREDIT_SET) :
    dispatch env mLedger txn accounts srcAccountID
      = doCreditSet env mLedger txn accounts srcAccountID := by
  unfold dispatch; rw [h]

/-- The handler `doCreditSet` on an existing line whose flag for the submitter's side is
set: the line is staged with its limit, and nothing else is staged. -/
theorem doCreditSet_flagged_line (env : Externals) (mLedger : Ledger)
    (txn : SerializedTransaction) (accounts : List AffectedAccount) (uSrcAccountID : Nat)
    (sleDst line : SLE)
    (hdst : txn.sfDestination ≠ 0) (hne : uSrcAccountID ≠ txn.sfDestination)
    (hroot : mLedger.getAccountRoot txn.sfDestination = some sleDst)
    (hline : mLedger.getRippleState uSrcAccountID txn.sfDestination txn.sfLimitAmount.currency
      = some line)
    (hflag : line.getFlags &&& sideFlag env uSrcAccountID txn.sfDestination ≠ 0) :
    doCreditSet env mLedger txn accounts uSrcAccountID =
      (terSUCCESS, accounts ++ [(taaMODIFY, line.setIFieldAmount
        (sideLimitField uSrcAccountID txn.sfDestination) txn.sfLimitAmount)]) := by
  rw [doCreditSet_existing_line env mLedger txn accounts uSrcAccountID sleDst line hdst hne
    hroot hline]
  unfold sideFlag at hflag
  rw [if_neg hflag]
  rfl

/-- The handler `doCreditSet` on an existing line whose flag for the submitter's side is
not set: the line is staged with its limit and with the flag, and `dirAdd` is called on
that staged list, for the directory of the source and the index of the line. -/
theorem doCreditSet_unflagged_line (env : Externals) (mLedger : Ledger)
    (txn : SerializedTransaction) (accounts : List AffectedAccount) (uSrcAccountID : Nat)
    (sleDst line : SLE)
    (hdst : txn.sfDestination ≠ 0) (hne : uSrcAccountID ≠ txn.sfDestination)
    (hroot : mLedger.getAccountRoot txn.sfDestination = some sleDst)
    (hline : mLedger.getRippleState uSrcAccountID txn.sfDestination txn.sfLimitAmount.currency
      = some line)
    (hflag : line.getFlags &&& sideFlag env uSrcAccountID txn.sfDestination = 0) :
    doCreditSet env mLedger txn accounts uSrcAccountID =
      ((dirAdd mLedger
          (accounts ++ [(taaMODIFY, (line.setIFieldAmount
            (sideLimitField uSrcAccountID txn.sfDestination) txn.sfLimitAmount).setFlag
            (sideFlag env uSrcAccountID txn.sfDestination))])
          ltRIPPLE_STATE (env.uint160extend256 uSrcAccountID 0) line.mIndex).1,
        (dirAdd mLedger
          (accounts ++ [(taaMODIFY, (line.setIFieldAmount
            (sideLimitField uSrcAccountID txn.sfDestination) txn.sfLimitAmount).setFlag
            (sideFlag env uSrcAccountID txn.sfDestination))])
          ltRIPPLE_STATE (env.uint160extend256 uSrcAccountID 0) line.mIndex).2.1) := by
  rw [doCreditSet_existing_line env mLedger txn accounts uSrcAccountID sleDst line hdst hne
    hroot hline]
  unfold sideFlag at hflag
  rw [if_pos hflag]
  rfl


/-- A `CREDIT_SET` on a line whose flag for the submitter's side is set: whatever the call
returns, afterwards the line is there with the flags it had, and every entry other than
an account root and the line is as before. -/
theorem applyTransaction_creditSet_flagged (env : Externals) (mLedger : Ledger)
    (txn : SerializedTransaction) (params : Nat) (line : SLE)
    (htype : txn.txnType = ttCREDIT_SET)
    (hline : mLedger.getRippleState txn.sourceAccount txn.sfDestination
      txn.sfLimitAmount.currency = some line)
    (hflag : line.getFlags &&& sideFlag env txn.sourceAccount txn.sfDestination ≠ 0) :
    (∀ i, (∀ id, i ≠ Ledger.getAccountRootIndex id) →
      i ≠ Ledger.getRippleStateIndex txn.sourceAccount txn.sfDestination
        txn.sfLimitAmount.currency →
      (applyTransaction env mLedger txn params).2.mAccountStateMap i
        = mLedger.mAccountStateMap i) ∧
    ∃ line2, (applyTransaction env mLedger txn params).2.getRippleState txn.sourceAccount
        txn.sfDestination txn.sfLimitAmount.currency = some line2 ∧
      line2.getFlags = line.getFlags := by
  rcases applyTransaction_success_or_same env mLedger txn params with hok | hsame
  · obtain ⟨sleSrc, s1, s2, _, _, _, _, _, hroot, hd, hv, hdis, heq⟩ :=
      applyTransaction_success_inv env mLedger txn params hok
    rw [dispatch_creditSet _ _ _ _ _ htype] at hdis heq
    have hs2 : s2.mIndex = Ledger.getAccountRootIndex txn.sourceAccount := by
      rw [validator_source_index env mLedger txn sleSrc s1 s2 hd hv]
      exact Ledger.getASNode_mIndex _ _ _ hroot
    obtain ⟨c1, c2, c3, _, _⟩ :=
      doCreditSet_cases env mLedger txn [(taaMODIFY, s2)] txn.sourceAccount
    have hdst : txn.sfDestination ≠ 0 := by
      intro h; rw [c1 h] at hdis; cases hdis
    have hne : txn.sourceAccount ≠ txn.sfDestination := by
      intro h; rw [c2 hdst h] at hdis; cases hdis
    have hex : mLedger.getAccountRoot txn.sfDestination ≠ none := by
      intro h; rw [c3 hdst hne h] at hdis; cases hdis
    obtain ⟨sleDst, hsd⟩ := Option.ne_none_iff_exists'.mp hex
    have hli : line.mIndex = Ledger.getRippleStateIndex txn.sourceAccount txn.sfDestination
        txn.sfLimitAmount.currency := Ledger.getRippleState_mIndex _ _ _ _ _ hline
    rw [doCreditSet_flagged_line env mLedger txn _ _ sleDst line hdst hne hsd hline hflag]
      at heq
    have hmap : ∀ i, (applyTransaction env mLedger txn params).2.mAccountStateMap i =
        if i = line.mIndex then some (line.setIFieldAmount
            (sideLimitField txn.sourceAccount txn.sfDestination) txn.sfLimitAmount)
        else if i = s2.mIndex then some s2 else mLedger.mAccountStateMap i := by
      intro i
      rw [heq]
      simp only [Ledger.addTransaction, List.singleton_append]
      rw [commit_pair_map _ _ _ _ _ (by decide) (by decide)]
      rfl
    refine ⟨?_, ?_⟩
    · intro i h1 h2
      rw [hmap, if_neg (by rw [hli]; exact h2), if_neg (by rw [hs2]; exact h1 _)]
    · refine ⟨line.setIFieldAmount (sideLimitField txn.sourceAccount txn.sfDestination)
        txn.sfLimitAmount, ?_, rfl⟩
      simp only [Ledger.getRippleState, Ledger.getASNode]
      rw [hmap, if_pos hli.symm]
      simp only [Option.map_some']
      rw [SLE.setIndex_self _ _ (by simpa using hli)]
  · rw [hsame]
    exact ⟨fun _ _ _ => rfl, line, hline, rfl⟩


theorem applyAll_nil (env : Externals) (l : Ledger) (params : Nat) :
    applyAll env l [] params = l := rfl

theorem applyAll_cons (env : Externals) (l : Ledger) (txn : SerializedTransaction)
    (rest : List SerializedTransaction) (params : Nat) :
    applyAll env l (txn :: rest) params
      = applyAll env (applyTransaction env l txn params).2 rest params := rfl

/-- Any number of `CREDIT_SET`s from one account on one line whose flag for that account's
side is set: the line keeps its flags, and every entry other than an account root and the
line is as before. -/
theorem applyAll_creditSet_flagged (env : Externals) (params : Nat)
    (uSrcAccountID uDstAccountID uCurrency : Nat) (txns : List SerializedTransaction) :
    ∀ (mLedger : Ledger) (line : SLE),
      (∀ t ∈ txns, t.txnType = ttCREDIT_SET ∧ t.sourceAccount = uSrcAccountID ∧
        t.sfDestination = uDstAccountID ∧ t.sfLimitAmount.currency = uCurrency) →
      mLedger.getRippleState uSrcAccountID uDstAccountID uCurrency = some line →
      line.getFlags &&& sideFlag env uSrcAccountID uDstAccountID ≠ 0 →
      (∀ i, (∀ id, i ≠ Ledger.getAccountRootIndex id) →
        i ≠ Ledger.getRippleStateIndex uSrcAccountID uDstAccountID uCurrency →
        (applyAll env mLedger txns params).mAccountStateMap i = mLedger.mAccountStateMap i) ∧
      ∃ line2, (applyAll env mLedger txns params).getRippleState uSrcAccountID uDstAccountID
          uCurrency = some line2 ∧ line2.getFlags = line.getFlags := by
  induction txns with
  | nil =>
    intro mLedger line _ hline _
    exact ⟨fun _ _ _ => rfl, line, hline, rfl⟩
  | cons t rest ih =>
    intro mLedger line hall hline hflag
    obtain ⟨ht, hs, hd, hc⟩ := hall t (List.mem_cons_self _ _)
    rw [← hs, ← hd, ← hc] at hline
    rw [← hs, ← hd] at hflag
    obtain ⟨h1, line2, h2, h3⟩ :=
      applyTransaction_creditSet_flagged env mLedger t params line ht hline hflag
    rw [hs, hd, hc] at h1 h2
    rw [hs, hd] at hflag
    obtain ⟨h4, line3, h5, h6⟩ := ih (applyTransaction env mLedger t params).2 line2
      (fun u hu => hall u (List.mem_cons_of_mem _ hu)) h2 (by rw [h3]; exact hflag)
    rw [applyAll_cons]
    refine ⟨fun i hi1 hi2 => ?_, line3, h5, by rw [h6, h3]⟩
    rw [h4 i hi1 hi2, h1 i hi1 hi2]

theorem getRippleStateIndex_ne_dir (uA uB uCurrency : Nat) (uBase : uint256)
    (letKind : LedgerEntryType) (n : Nat) :
    Ledger.getDirIndex uBase letKind ≠ Ledger.getRippleStateIndex uA uB uCurrency ∧
    Ledger.getDirNodeIndex uBase letKind n ≠ Ledger.getRippleStateIndex uA uB uCurrency := by
  unfold Ledger.getRippleStateIndex Ledger.getDirIndex Ledger.getDirNodeIndex
  constructor <;> split <;> intro h <;> cases h

/-- C21: on an existing line, a `CREDIT_SET` from a submitter whose indexed flag
(`lsfLowIndexed` below the destination id, `lsfHighIndexed` otherwise) is set does not
call `dirAdd`: it returns `terSUCCESS` and stages the line alone, no directory root or
page; any number of such `CREDIT_SET`s from that account on that line leaves every
directory root and page of the ledger as it was, and the flag set.  When the flag is not
set, the staged line carries the flag and the result is that of one `dirAdd` call for the
directory of the source and the index of the line. -/
theorem doCreditSet_no_reindexing (env : Externals) (mLedger : Ledger)
    (txn : SerializedTransaction) (accounts : List AffectedAccount) (uSrcAccountID : Nat)
    (sleDst line : SLE)
    (hdst : txn.sfDestination ≠ 0) (hne : uSrcAccountID ≠ txn.sfDestination)
    (hroot : mLedger.getAccountRoot txn.sfDestination = some sleDst)
    (hline : mLedger.getRippleState uSrcAccountID txn.sfDestination txn.sfLimitAmount.currency
      = some line) :
    (line.getFlags &&& sideFlag env uSrcAccountID txn.sfDestination ≠ 0 →
      doCreditSet env mLedger txn accounts uSrcAccountID =
        (terSUCCESS, accounts ++ [(taaMODIFY, line.setIFieldAmount
          (sideLimitField uSrcAccountID txn.sfDestination) txn.sfLimitAmount)]) ∧
      (∀ uBase letKind n,
        (line.setIFieldAmount (sideLimitField uSrcAccountID txn.sfDestination)
          txn.sfLimitAmount).mIndex ≠ Ledger.getDirIndex uBase letKind ∧
        (line.setIFieldAmount (sideLimitField uSrcAccountID txn.sfDestination)
          txn.sfLimitAmount).mIndex ≠ Ledger.getDirNodeIndex uBase letKind n) ∧
      (∀ (txns : List SerializedTransaction) (params : Nat),
        (∀ t ∈ txns, t.txnType = ttCREDIT_SET ∧ t.sourceAccount = uSrcAccountID ∧
          t.sfDestination = txn.sfDestination ∧
          t.sfLimitAmount.currency = txn.sfLimitAmount.currency) →
        (∀ letKind uBase, rootBounds (applyAll env mLedger txns params) letKind uBase
          = rootBounds mLedger letKind uBase) ∧
        (∀ letKind uBase n, pageIndexes (applyAll env mLedger txns params) letKind uBase n
          = pageIndexes mLedger letKind uBase n) ∧
        ∃ line2, (applyAll env mLedger txns params).getRippleState uSrcAccountID
            txn.sfDestination txn.sfLimitAmount.currency = some line2 ∧
          line2.getFlags &&& sideFlag env uSrcAccountID txn.sfDestination ≠ 0)) ∧
    (line.getFlags &&& sideFlag env uSrcAccountID txn.sfDestination = 0 →
      doCreditSet env mLedger txn accounts uSrcAccountID =
        ((dirAdd mLedger
            (accounts ++ [(taaMODIFY, (line.setIFieldAmount
              (sideLimitField uSrcAccountID txn.sfDestination) txn.sfLimitAmount).setFlag
              (sideFlag env uSrcAccountID txn.sfDestination))])
            ltRIPPLE_STATE (env.uint160extend256 uSrcAccountID 0) line.mIndex).1,
          (dirAdd mLedger
            (accounts ++ [(taaMODIFY, (line.setIFieldAmount
              (sideLimitField uSrcAccountID txn.sfDestination) txn.sfLimitAmount).setFlag
              (sideFlag env uSrcAccountID txn.sfDestination))])
            ltRIPPLE_STATE (env.uint160extend256 uSrcAccountID 0) line.mIndex).2.1) ∧
      ((line.setIFieldAmount (sideLimitField uSrcAccountID txn.sfDestination)
          txn.sfLimitAmount).setFlag (sideFlag env uSrcAccountID txn.sfDestination)).getFlags
        &&& sideFlag env uSrcAccountID txn.sfDestination
        = sideFlag env uSrcAccountID txn.sfDestination) := by
  have hli : line.mIndex = Ledger.getRippleStateIndex uSrcAccountID txn.sfDestination
      txn.sfLimitAmount.currency := Ledger.getRippleState_mIndex _ _ _ _ _ hline
  refine ⟨fun hflag => ⟨?_, ?_, ?_⟩, fun hflag => ⟨?_, ?_⟩⟩
  · exact doCreditSet_flagged_line env mLedger txn accounts uSrcAccountID sleDst line hdst hne
      hroot hline hflag
  · intro uBase letKind n
    rw [SLE.setIFieldAmount_mIndex, hli]
    exact ⟨(getRippleStateIndex_ne_dir _ _ _ uBase letKind n).1.symm,
      (getRippleStateIndex_ne_dir _ _ _ uBase letKind n).2.symm⟩
  · intro txns params hall
    obtain ⟨h1, line2, h2, h3⟩ := applyAll_creditSet_flagged env params uSrcAccountID
      txn.sfDestination txn.sfLimitAmount.currency txns mLedger line hall hline hflag
    refine ⟨?_, ?_, line2, h2, by rw [h3]; exact hflag⟩
    · intro letKind uBase
      unfold rootBounds Ledger.getDirRoot Ledger.getASNode
      rw [h1 _ (fun id h => by cases h) (getRippleStateIndex_ne_dir _ _ _ uBase letKind 0).1]
    · intro letKind uBase n
      unfold pageIndexes Ledger.getDirNode Ledger.getASNode
      rw [h1 _ (fun id h => by cases h) (getRippleStateIndex_ne_dir _ _ _ uBase letKind n).2]
  · exact doCreditSet_unflagged_line env mLedger txn accounts uSrcAccountID sleDst line hdst
      hne hroot hline hflag
  · simp only [SLE.getFlags, SLE.setFlag]
    exact Nat.eq_of_testBit_eq (fun i => by
      simp only [Nat.testBit_and, Nat.testBit_or]
      cases (line.setIFieldAmount (sideLimitField uSrcAccountID txn.sfDestination)
        txn.sfLimitAmount).mFlags.testBit i <;> simp)


/-- C21 (witness): on the line that account 3 opened to account 5, with `lsfLowIndexed`
set, two more `CREDIT_SET`s from account 3 leave the line's index listed once in the
directory of account 3. -/
theorem doCreditSet_no_reindexing_witness :
    (lineState ledgerLineFromLow 3 5 7 = some (3, 5, 100, 0, 0, 1) ∧
      pageIndexes ledgerLineFromLow ltRIPPLE_STATE (sampleExternals.uint160extend256 3 0) 1
        = some [Ledger.getRippleStateIndex 3 5 7] ∧
      lineState (applyAll sampleExternals ledgerLineFromLow
        [creditSet 3 5 70 82, creditSet 3 5 80 83] tepNONE) 3 5 7
        = some (3, 5, 80, 0, 0, 1) ∧
      pageIndexes (applyAll sampleExternals ledgerLineFromLow
        [creditSet 3 5 70 82, creditSet 3 5 80 83] tepNONE) ltRIPPLE_STATE
        (sampleExternals.uint160extend256 3 0) 1 = some [Ledger.getRippleStateIndex 3 5 7]) ∧
    ∃ sleDst line,
      ledgerLineFromLow.getAccountRoot (creditSet 3 5 70 82).sfDestination = some sleDst ∧
      ledgerLineFromLow.getRippleState 3 (creditSet 3 5 70 82).sfDestination
        (creditSet 3 5 70 82).sfLimitAmount.currency = some line ∧
      ((line.getFlags &&& sideFlag sampleExternals 3 (creditSet 3 5 70 82).sfDestination ≠ 0 →
        doCreditSet sampleExternals ledgerLineFromLow (creditSet 3 5 70 82) [] 3 =
          (terSUCCESS, [] ++ [(taaMODIFY, line.setIFieldAmount
            (sideLimitField 3 (creditSet 3 5 70 82).sfDestination)
            (creditSet 3 5 70 82).sfLimitAmount)]) ∧
        (∀ uBase letKind n,
          (line.setIFieldAmount (sideLimitField 3 (creditSet 3 5 70 82).sfDestination)
            (creditSet 3 5 70 82).sfLimitAmount).mIndex ≠ Ledger.getDirIndex uBase letKind ∧
          (line.setIFieldAmount (sideLimitField 3 (creditSet 3 5 70 82).sfDestination)
            (creditSet 3 5 70 82).sfLimitAmount).mIndex
            ≠ Ledger.getDirNodeIndex uBase letKind n) ∧
        (∀ (txns : List SerializedTransaction) (params : Nat),
          (∀ t ∈ txns, t.txnType = ttCREDIT_SET ∧ t.sourceAccount = 3 ∧
            t.sfDestination = (creditSet 3 5 70 82).sfDestination ∧
            t.sfLimitAmount.currency = (creditSet 3 5 70 82).sfLimitAmount.currency) →
          (∀ letKind uBase,
            rootBounds (applyAll sampleExternals ledgerLineFromLow txns params) letKind uBase
              = rootBounds ledgerLineFromLow letKind uBase) ∧
          (∀ letKind uBase n,
            pageIndexes (applyAll sampleExternals ledgerLineFromLow txns params) letKind uBase n
              = pageIndexes ledgerLineFromLow letKind uBase n) ∧
          ∃ line2, (applyAll sampleExternals ledgerLineFromLow txns params).getRippleState 3
              (creditSet 3 5 70 82).sfDestination (creditSet 3 5 70 82).sfLimitAmount.currency
              = some line2 ∧
            line2.getFlags &&& sideFlag sampleExternals 3 (creditSet 3 5 70 82).sfDestination
              ≠ 0)) ∧
      (line.getFlags &&& sideFlag sampleExternals 3 (creditSet 3 5 70 82).sfDestination = 0 →
        doCreditSet sampleExternals ledgerLineFromLow (creditSet 3 5 70 82) [] 3 =
          ((dirAdd ledgerLineFromLow
              ([] ++ [(taaMODIFY, (line.setIFieldAmount
                (sideLimitField 3 (creditSet 3 5 70 82).sfDestination)
                (creditSet 3 5 70 82).sfLimitAmount).setFlag
                (sideFlag sampleExternals 3 (creditSet 3 5 70 82).sfDestination))])
              ltRIPPLE_STATE (sampleExternals.uint160extend256 3 0) line.mIndex).1,
            (dirAdd ledgerLineFromLow
              ([] ++ [(taaMODIFY, (line.setIFieldAmount
                (sideLimitField 3 (creditSet 3 5 70 82).sfDestination)
                (creditSet 3 5 70 82).sfLimitAmount).setFlag
                (sideFlag sampleExternals 3 (creditSet 3 5 70 82).sfDestination))])
              ltRIPPLE_STATE (sampleExternals.uint160extend256 3 0) line.mIndex).2.1) ∧
        ((line.setIFieldAmount (sideLimitField 3 (creditSet 3 5 70 82).sfDestination)
            (creditSet 3 5 70 82).sfLimitAmount).setFlag
            (sideFlag sampleExternals 3 (creditSet 3 5 70 82).sfDestination)).getFlags
          &&& sideFlag sampleExternals 3 (creditSet 3 5 70 82).sfDestination
          = sideFlag sampleExternals 3 (creditSet 3 5 70 82).sfDestination)) :=
  ⟨⟨by decide, by decide, by decide, by decide⟩,
    (mkAccountRoot 5 1000 1).setIndex (Ledger.getAccountRootIndex 5),
    (ledgerLineFromLow.getRippleState 3 5 7).get (by decide), rfl,
    (Option.some_get _).symm,
    doCreditSet_no_reindexing sampleExternals ledgerLineFromLow (creditSet 3 5 70 82) [] 3
      ((mkAccountRoot 5 1000 1).setIndex (Ledger.getAccountRootIndex 5))
      ((ledgerLineFromLow.getRippleState 3 5 7).get (by decide))
      (by decide) (by decide) rfl (Option.some_get _).symm⟩

/-! ## Balances (C23) -/

theorem ledgerTwoAccounts_nonneg : balancesNonNegative ledgerTwoAccounts := by
  intro id e h
  simp only [ledgerTwoAccounts, ledgerScenario2, Ledger.getAccountRoot, Ledger.getASNode,
    Ledger.writeBack, Ledger.empty] at h
  split_ifs at h with h1 h2
  · simp only [Option.map_some', Option.some.injEq] at h
    subst h
    exact (by decide : (0 : Int) ≤ ((mkAccountRoot 2 0 1).getIValueFieldAmount sfBalance).value)
  · simp only [Option.map_some', Option.some.injEq] at h
    subst h
    exact (by decide :
      (0 : Int) ≤ ((mkAccountRoot 1 10000 5).getIValueFieldAmount sfBalance).value)
  · simp at h

/-- The fee debit goes through only when the balance covers the fee. -/
theorem deductFee_ok_funded (saCost saPaid : STAmount) (sleSrc e : SLE)
    (hcost : saCost.isZero = false) (h : deductFee saCost saPaid sleSrc = Except.ok e) :
    saPaid.value ≤ (sleSrc.getIValueFieldAmount sfBalance).value := by
  unfold deductFee at h
  simp only [hcost, Bool.not_false, if_true] at h
  split_ifs at h with hlt
  simp only [STAmount.lt, decide_eq_true_eq, not_lt] at hlt
  exact hlt

/-- The balance of the source entry the validator hands to the handler: the balance read
from the ledger, less the fee when the required cost is not zero, and not below zero when
the balance read is not. -/
theorem validator_source_balance (env : Externals) (mLedger : Ledger)
    (txn : SerializedTransaction) (sleSrc s1 s2 : SLE)
    (hd : deductFee (transactionCost env txn).1 txn.transactionFee sleSrc = Except.ok s1)
    (hv : validateSequence mLedger txn txn.transactionID (transactionCost env txn).1 s1
      = Except.ok s2) :
    ((s2.getIValueFieldAmount sfBalance).value = (sleSrc.getIValueFieldAmount sfBalance).value ∨
      (s2.getIValueFieldAmount sfBalance).value
        = (sleSrc.getIValueFieldAmount sfBalance).value - txn.transactionFee.value) ∧
    (0 ≤ (sleSrc.getIValueFieldAmount sfBalance).value →
      0 ≤ (s2.getIValueFieldAmount sfBalance).value) := by
  cases hz : (transactionCost env txn).1.isZero with
  | true =>
    rw [deductFee_zero_cost _ _ _ hz] at hd
    cases hd
    rw [validateSequence_zero_cost _ _ _ _ _ hz] at hv
    split at hv
    · cases hv
    · cases hv
      exact ⟨Or.inl rfl, fun h => h⟩
  | false =>
    have hf := deductFee_ok_funded _ _ _ _ hz hd
    rw [deductFee_ok_eq _ _ _ _ hz hd] at hv
    rw [validateSequence_ok_eq _ _ _ _ _ _ hz hv]
    have hb : (((sleSrc.setIFieldAmount sfBalance ((sleSrc.getIValueFieldAmount sfBalance).sub
        txn.transactionFee)).setIFieldU32 sfSequence txn.sequence).getIValueFieldAmount
        sfBalance).value
        = (sleSrc.getIValueFieldAmount sfBalance).value - txn.transactionFee.value := by
      simp [SLE.getIValueFieldAmount, SLE.setIFieldU32, SLE.setIFieldAmount, SLE.setField,
        STAmount.sub]
    rw [hb]
    exact ⟨Or.inr rfl, fun _ => by omega⟩

/-- A payment handled with `terSUCCESS` was funded: the amount is not above the balance of
the staged source. -/
theorem doPayment_success_funded (env : Externals) (mLedger : Ledger)
    (txn : SerializedTransaction) (s : SLE) (srcAccountID : Nat)
    (h : (doPayment env mLedger txn [(taaMODIFY, s)] srcAccountID).1 = terSUCCESS) :
    txn.sfAmount.value ≤ (s.getIValueFieldAmount sfBalance).value := by
  have hdst : txn.sfDestination ≠ 0 := by
    intro h0
    unfold doPayment at h
    simp [h0] at h
  have hne : srcAccountID ≠ txn.sfDestination := by
    intro h0
    unfold doPayment at h
    simp [hdst, h0] at h
  have hcur : txn.sfCurrency ≠ some 0 := by
    intro h0
    unfold doPayment at h
    simp [hdst, hne, h0] at h
  obtain ⟨c1, c2, c3, c4, c5⟩ :=
    doPayment_cases env mLedger txn [(taaMODIFY, s)] srcAccountID hdst hne hcur
  have hfund : ∀ (a : TransactionAccountAction) (d : SLE),
      (paymentTransfer txn ([(taaMODIFY, s)] ++ [(a, d)])).1 = terSUCCESS →
      txn.sfAmount.value ≤ (s.getIValueFieldAmount sfBalance).value := by
    intro a d ht
    unfold paymentTransfer at ht
    dsimp only at ht
    split_ifs at ht with h1 h2
    simp only [STAmount.lt, decide_eq_true_eq, not_lt] at h2
    exact h2
  by_cases hf : txn.flags &&& env.tfCreateAccount = 0
  · cases hd : mLedger.getAccountRoot txn.sfDestination with
    | none => rw [c2 hd hf] at h; cases h
    | some d => rw [c5 d hd hf] at h; exact hfund _ _ h
  · cases hd : mLedger.getAccountRoot txn.sfDestination with
    | none =>
      by_cases hc : txn.sfCurrency.getD 0 = 0
      · rw [c3 hd hf hc] at h; exact hfund _ _ h
      · rw [c1 hd hf hc] at h; cases h
    | some d => rw [c4 d hd hf] at h; cases h

/-- The staged list of `doCreditSet` on the staged source: the source comes first,
untouched, and no other pair is for an account root. -/
theorem doCreditSet_staged_roots (env : Externals) (mLedger : Ledger)
    (txn : SerializedTransaction) (sleSrc : SLE) (srcAccountID : Nat)
    (r : TransactionEngineResult × List AffectedAccount)
    (hr : doCreditSet env mLedger txn [(taaMODIFY, sleSrc)] srcAccountID = r) :
    ∃ rest, r.2 = (taaMODIFY, sleSrc) :: rest ∧
      ∀ b ∈ rest, ∀ id, b.2.mIndex ≠ Ledger.getAccountRootIndex id := by
  have hadd : ∀ (e : SLE) (act : TransactionAccountAction) (key : uint256),
      (∀ id, e.mIndex ≠ Ledger.getAccountRootIndex id) →
      ∃ rest, (dirAdd mLedger ([(taaMODIFY, sleSrc)] ++ [(act, e)]) ltRIPPLE_STATE
          (env.uint160extend256 srcAccountID 0) key).2.1 = (taaMODIFY, sleSrc) :: rest ∧
        ∀ b ∈ rest, ∀ id, b.2.mIndex ≠ Ledger.getAccountRootIndex id := by
    intro e act key he
    obtain ⟨extra, h1, h2⟩ := dirAdd_staged_shape mLedger ([(taaMODIFY, sleSrc)] ++ [(act, e)])
      ltRIPPLE_STATE (env.uint160extend256 srcAccountID 0) key
    refine ⟨(act, e) :: extra, by rw [h1]; rfl, ?_⟩
    intro b hb
    rcases List.mem_cons.mp hb with hb | hb
    · rw [hb]; exact he
    · exact h2 b hb
  have hleaf : ∀ (e : SLE) (act : TransactionAccountAction),
      (∀ id, e.mIndex ≠ Ledger.getAccountRootIndex id) →
      ∃ rest, ([(taaMODIFY, sleSrc)] ++ [(act, e)] : List AffectedAccount)
          = (taaMODIFY, sleSrc) :: rest ∧
        ∀ b ∈ rest, ∀ id, b.2.mIndex ≠ Ledger.getAccountRootIndex id := by
    intro e act he
    refine ⟨[(act, e)], rfl, ?_⟩
    intro b hb
    rw [List.mem_singleton.mp hb]; exact he
  unfold doCreditSet at hr
  dsimp only at hr
  split_ifs at hr
  all_goals try split at hr
  all_goals try split at hr
  all_goals try split_ifs at hr
  all_goals subst hr
  all_goals first
    | exact ⟨[], rfl, by simp⟩
    | exact hadd _ _ _ (by
        intro id
        simp only [SLE.setFlag_mIndex, SLE.setIFieldAmount_mIndex,
          SLE.setIFieldAccount_mIndex, SLE.setIndex_mIndex]
        exact getRippleStateIndex_ne_account _ _ _ _)
    | exact hadd _ _ _ (by
        intro id
        simp only [SLE.setFlag_mIndex, SLE.setIFieldAmount_mIndex]
        rw [Ledger.getRippleState_mIndex _ _ _ _ _ (by assumption)]
        exact getRippleStateIndex_ne_account _ _ _ _)
    | exact hleaf _ _ (by
        intro id
        simp only [SLE.setFlag_mIndex, SLE.setIFieldAmount_mIndex]
        rw [Ledger.getRippleState_mIndex _ _ _ _ _ (by assumption)]
        exact getRippleStateIndex_ne_account _ _ _ _)


/-- The staged list of a handler that returned `terSUCCESS`: every pair staged for an
account root carries a non-negative balance, when the ledger's balances and the balance
of the staged source are non-negative and a payment's amount is non-negative. -/
theorem dispatch_success_staged_balances (env : Externals) (mLedger : Ledger)
    (txn : SerializedTransaction) (s2 : SLE) (srcAccountID : Nat)
    (hL : balancesNonNegative mLedger)
    (hs2 : 0 ≤ (s2.getIValueFieldAmount sfBalance).value)
    (hamt : txn.txnType = ttPAYMENT → 0 ≤ txn.sfAmount.value)
    (hok : (dispatch env mLedger txn [(taaMODIFY, s2)] srcAccountID).1 = terSUCCESS) :
    ∀ a ∈ (dispatch env mLedger txn [(taaMODIFY, s2)] srcAccountID).2, ∀ id,
      a.2.mIndex = Ledger.getAccountRootIndex id →
      0 ≤ (a.2.getIValueFieldAmount sfBalance).value := by
  cases htype : txn.txnType with
  | ttCLAIM =>
    rw [dispatch_claim _ _ _ _ _ htype] at hok ⊢
    rw [(doClaim_success_iff env mLedger txn s2).2 hok]
    intro a ha id hid
    simp only [List.mem_cons, List.mem_singleton, List.not_mem_nil, or_false] at ha
    rcases ha with ha | ha
    · rw [ha]
      simpa [SLE.getIValueFieldAmount, SLE.setIFieldH160, SLE.setField] using hs2
    · rw [ha] at hid
      simp [newGeneratorMap, SLE.setIFieldVL, SLE.setIFieldH160, Ledger.getGeneratorIndex,
        Ledger.getAccountRootIndex] at hid
  | ttCREDIT_SET =>
    rw [dispatch_creditSet _ _ _ _ _ htype]
    obtain ⟨rest, h1, h2⟩ := doCreditSet_staged_roots env mLedger txn s2 srcAccountID _ rfl
    rw [h1]
    intro a ha id hid
    rcases List.mem_cons.mp ha with ha | ha
    · rw [ha]; exact hs2
    · exact absurd hid (h2 a ha id)
  | ttPAYMENT =>
    rw [dispatch_payment _ _ _ _ _ htype] at hok ⊢
    have hfund := doPayment_success_funded env mLedger txn s2 srcAccountID hok
    obtain ⟨_, _, _, act, d, hdest, hstaged⟩ :=
      doPayment_success env mLedger txn s2 srcAccountID hok
    have hpos := hamt htype
    have hd : 0 ≤ (d.getIValueFieldAmount sfBalance).value := by
      rcases hdest with ⟨_, _, h⟩ | ⟨_, h⟩
      · rw [h]
        simp [newAccountRoot, SLE.getIValueFieldAmount, SLE.setIFieldAccount, SLE.setIFieldU32,
          SLE.setField, SLE.setIndex, SLE.make, STAmount.zero]
      · exact hL _ _ h
    rw [hstaged]
    intro a ha id _
    simp only [List.mem_cons, List.mem_singleton, List.not_mem_nil, or_false] at ha
    rcases ha with ha | ha
    · rw [ha]
      simp only [SLE.getIValueFieldAmount, SLE.setIFieldAmount, SLE.setField, if_true,
        STAmount.sub]
      simp only [SLE.getIValueFieldAmount] at hfund
      omega
    · rw [ha]
      simp only [SLE.getIValueFieldAmount, SLE.setIFieldAmount, SLE.setField, if_true,
        STAmount.add]
      simp only [SLE.getIValueFieldAmount] at hd
      omega
  | ttINVALID => unfold dispatch at hok; rw [htype] at hok; cases hok
  | ttINVOICE => unfold dispatch at hok; rw [htype] at hok; cases hok
  | ttOFFER => unfold dispatch at hok; rw [htype] at hok; cases hok
  | ttTRANSIT_SET => unfold dispatch at hok; rw [htype] at hok; cases hok
  | ttOTHER tag => unfold dispatch at hok; rw [htype] at hok; cases hok


/-- The two account roots after a payment that returned `terSUCCESS`, in terms of the
source entry `s2` the validator staged and of the destination entry `d` the handler
staged: the source holds the balance of `s2` less the amount, the destination the balance
of `d` plus the amount. -/
theorem applyTransaction_payment_states (env : Externals) (mLedger : Ledger)
    (txn : SerializedTransaction) (params : Nat)
    (htype : txn.txnType = ttPAYMENT)
    (hok : (applyTransaction env mLedger txn params).1 = terSUCCESS) :
    ∃ (sleSrc s2 d : SLE),
      mLedger.getAccountRoot txn.sourceAccount = some sleSrc ∧
      ((s2.getIValueFieldAmount sfBalance).value = (sleSrc.getIValueFieldAmount sfBalance).value ∨
        (s2.getIValueFieldAmount sfBalance).value
          = (sleSrc.getIValueFieldAmount sfBalance).value - txn.transactionFee.value) ∧
      (mLedger.getAccountRoot txn.sfDestination = some d ∨
        (mLedger.getAccountRoot txn.sfDestination = none ∧
          d = newAccountRoot txn.sfDestination)) ∧
      accountState (applyTransaction env mLedger txn params).2 txn.sourceAccount
        = some ((s2.getIValueFieldAmount sfBalance).value - txn.sfAmount.value,
          s2.getIFieldU32 sfSequence) ∧
      accountState (applyTransaction env mLedger txn params).2 txn.sfDestination
        = some ((d.getIValueFieldAmount sfBalance).value + txn.sfAmount.value,
          d.getIFieldU32 sfSequence) := by
  obtain ⟨sleSrc, s1, s2, _, _, _, _, _, hroot, hd, hv, hdis, heq⟩ :=
    applyTransaction_success_inv env mLedger txn params hok
  rw [dispatch_payment _ _ _ _ _ htype] at hdis heq
  have hs2i : s2.mIndex = Ledger.getAccountRootIndex txn.sourceAccount := by
    rw [validator_source_index env mLedger txn sleSrc s1 s2 hd hv]
    exact Ledger.getASNode_mIndex _ _ _ hroot
  obtain ⟨_, hdst, hne, a, d, hdest, hstaged⟩ :=
    doPayment_success env mLedger txn s2 txn.sourceAccount hdis
  rw [hstaged] at heq
  have ha : a ≠ taaDELETE := by
    rcases hdest with ⟨h, _⟩ | ⟨h, _⟩ <;> rw [h] <;> decide
  have hdi : d.mIndex = Ledger.getAccountRootIndex txn.sfDestination := by
    rcases hdest with ⟨_, _, h⟩ | ⟨_, h⟩
    · rw [h]; rfl
    · exact Ledger.getASNode_mIndex _ _ _ h
  have hidx : Ledger.getAccountRootIndex txn.sourceAccount
      ≠ Ledger.getAccountRootIndex txn.sfDestination := by
    simp [Ledger.getAccountRootIndex, hne]
  refine ⟨sleSrc, s2, d, hroot, (validator_source_balance env mLedger txn sleSrc s1 s2 hd hv).1,
    ?_, ?_, ?_⟩
  · rcases hdest with ⟨_, h1, h2⟩ | ⟨_, h⟩
    · exact Or.inr ⟨h1, h2⟩
    · exact Or.inl h
  · rw [heq]
    simp only [accountState, Ledger.getAccountRoot, Ledger.getASNode, Ledger.addTransaction,
      commit_pair_map _ _ _ _ _ (by decide : taaMODIFY ≠ taaDELETE) ha]
    rw [if_neg (by simpa [SLE.setIFieldAmount, hdi] using hidx),
      if_pos (by simp [SLE.setIFieldAmount, hs2i])]
    simp [SLE.getIValueFieldAmount, SLE.setIFieldAmount, SLE.setField, SLE.setIndex,
      SLE.getIFieldU32, STAmount.sub]
  · rw [heq]
    simp only [accountState, Ledger.getAccountRoot, Ledger.getASNode, Ledger.addTransaction,
      commit_pair_map _ _ _ _ _ (by decide : taaMODIFY ≠ taaDELETE) ha]
    rw [if_pos (by simp [SLE.setIFieldAmount, hdi])]
    simp [SLE.getIValueFieldAmount, SLE.setIFieldAmount, SLE.setField, SLE.setIndex,
      SLE.getIFieldU32, STAmount.add]

/-- C23 (counterexample): every balance of `ledgerTwoAccounts` is non-negative.  A payment
of -500 from account 1 to account 2 with fee 10 returns `terSUCCESS` and leaves account 2
with balance -500 and account 1 with 10490, above its 10000; a payment of 50 with fee -100
returns `terSUCCESS` and leaves account 1 with 10050. -/
theorem applyTransaction_negative_amount_overdraws :
    balancesNonNegative ledgerTwoAccounts ∧
    accountState ledgerTwoAccounts 1 = some (10000, 5) ∧
    accountState ledgerTwoAccounts 2 = some (0, 1) ∧
    (applyTransaction sampleExternals ledgerTwoAccounts (paymentOf 10 (-500)) tepNONE).1
      = terSUCCESS ∧
    accountState (applyTransaction sampleExternals ledgerTwoAccounts (paymentOf 10 (-500))
      tepNONE).2 2 = some (-500, 1) ∧
    accountState (applyTransaction sampleExternals ledgerTwoAccounts (paymentOf 10 (-500))
      tepNONE).2 1 = some (10490, 5) ∧
    ¬ balancesNonNegative (applyTransaction sampleExternals ledgerTwoAccounts
      (paymentOf 10 (-500)) tepNONE).2 ∧
    (applyTransaction sampleExternals ledgerTwoAccounts (paymentOf (-100) 50) tepNONE).1
      = terSUCCESS ∧
    accountState (applyTransaction sampleExternals ledgerTwoAccounts (paymentOf (-100) 50)
      tepNONE).2 1 = some (10050, 5) := by
  refine ⟨ledgerTwoAccounts_nonneg, by decide, by decide, by decide, by decide, by decide, ?_,
    by decide, by decide⟩
  intro h
  have h2 : accountState (applyTransaction sampleExternals ledgerTwoAccounts
      (paymentOf 10 (-500)) tepNONE).2 2 = some (-500, 1) := by decide
  unfold accountState at h2
  cases hr : (applyTransaction sampleExternals ledgerTwoAccounts (paymentOf 10 (-500))
      tepNONE).2.getAccountRoot 2 with
  | none => rw [hr] at h2; cases h2
  | some e =>
    rw [hr] at h2
    simp only [Option.map_some', Option.some.injEq, Prod.mk.injEq] at h2
    have := h 2 e hr
    omega

/-- C23 (amended): for every ledger whose account roots all have a non-negative balance,
every transaction that is not a payment of a negative amount and every parameter word,
every account root of the ledger after `applyTransaction` has a non-negative balance;
and a payment with a non-negative fee that returns `terSUCCESS` leaves the source with no
more than it had and the destination with no less than it had. -/
theorem applyTransaction_balances_nonneg (env : Externals) (mLedger : Ledger)
    (txn : SerializedTransaction) (params : Nat)
    (hL : balancesNonNegative mLedger)
    (hamt : txn.txnType = ttPAYMENT → 0 ≤ txn.sfAmount.value) :
    balancesNonNegative (applyTransaction env mLedger txn params).2 ∧
    (txn.txnType = ttPAYMENT → (applyTransaction env mLedger txn params).1 = terSUCCESS →
      0 ≤ txn.transactionFee.value →
      (∃ b s b2 s2, accountState mLedger txn.sourceAccount = some (b, s) ∧
        accountState (applyTransaction env mLedger txn params).2 txn.sourceAccount
          = some (b2, s2) ∧ b2 ≤ b) ∧
      (∀ b s, accountState mLedger txn.sfDestination = some (b, s) →
        ∃ b2, accountState (applyTransaction env mLedger txn params).2 txn.sfDestination
          = some (b2, s) ∧ b ≤ b2)) := by
  refine ⟨?_, ?_⟩
  · rcases applyTransaction_success_or_same env mLedger txn params with hok | hsame
    · obtain ⟨sleSrc, s1, s2, _, _, _, _, _, hroot, hd, hv, hdis, heq⟩ :=
        applyTransaction_success_inv env mLedger txn params hok
      have hs2 := (validator_source_balance env mLedger txn sleSrc s1 s2 hd hv).2
        (hL _ _ hroot)
      have hst := dispatch_success_staged_balances env mLedger txn s2 txn.sourceAccount hL hs2
        hamt hdis
      intro id e he
      rw [heq] at he
      simp only [Ledger.getAccountRoot, Ledger.getASNode, Ledger.addTransaction] at he
      rcases commit_map_cases (dispatch env mLedger txn [(taaMODIFY, s2)] txn.sourceAccount).2
        mLedger (Ledger.getAccountRootIndex id) with h | h | ⟨a, ha, _, hai, h⟩
      · rw [h] at he
        exact hL id e he
      · rw [h] at he
        cases he
      · rw [h] at he
        simp only [Option.map_some', Option.some.injEq] at he
        rw [← he]
        exact hst a ha id hai
    · rw [hsame]; exact hL
  · intro htype hok hfee
    obtain ⟨sleSrc, s2, d, hroot, hbal, hdest, hsrc2, hdst2⟩ :=
      applyTransaction_payment_states env mLedger txn params htype hok
    have hpos := hamt htype
    refine ⟨⟨(sleSrc.getIValueFieldAmount sfBalance).value, sleSrc.getIFieldU32 sfSequence,
      _, _, ?_, hsrc2, ?_⟩, ?_⟩
    · simp [accountState, hroot]
    · rcases hbal with h | h <;> omega
    · intro b s hb
      rcases hdest with h | ⟨h, _⟩
      · simp only [accountState, h, Option.map_some', Option.some.injEq, Prod.mk.injEq] at hb
        refine ⟨(d.getIValueFieldAmount sfBalance).value + txn.sfAmount.value, ?_, ?_⟩
        · rw [hdst2, hb.2]
        · omega
      · simp [accountState, h] at hb


/-- C23 (witness): on `ledgerTwoAccounts` a payment of 500 with fee 10 from account 1 to
account 2 returns `terSUCCESS`; account 1 goes from 10000 to 9490 and account 2 from 0 to
500. -/
theorem applyTransaction_balances_nonneg_witness :
    ((paymentOf 10 500).txnType = ttPAYMENT ∧ 0 ≤ (paymentOf 10 500).sfAmount.value ∧
      (applyTransaction sampleExternals ledgerTwoAccounts (paymentOf 10 500) tepNONE).1
        = terSUCCESS ∧
      accountState (applyTransaction sampleExternals ledgerTwoAccounts (paymentOf 10 500)
        tepNONE).2 1 = some (9490, 5) ∧
      accountState (applyTransaction sampleExternals ledgerTwoAccounts (paymentOf 10 500)
        tepNONE).2 2 = some (500, 1)) ∧
    (balancesNonNegative (applyTransaction sampleExternals ledgerTwoAccounts (paymentOf 10 500)
      tepNONE).2 ∧
    ((paymentOf 10 500).txnType = ttPAYMENT →
      (applyTransaction sampleExternals ledgerTwoAccounts (paymentOf 10 500) tepNONE).1
        = terSUCCESS →
      0 ≤ (paymentOf 10 500).transactionFee.value →
      (∃ b s b2 s2, accountState ledgerTwoAccounts (paymentOf 10 500).sourceAccount
          = some (b, s) ∧
        accountState (applyTransaction sampleExternals ledgerTwoAccounts (paymentOf 10 500)
          tepNONE).2 (paymentOf 10 500).sourceAccount = some (b2, s2) ∧ b2 ≤ b) ∧
      (∀ b s, accountState ledgerTwoAccounts (paymentOf 10 500).sfDestination = some (b, s) →
        ∃ b2, accountState (applyTransaction sampleExternals ledgerTwoAccounts
          (paymentOf 10 500) tepNONE).2 (paymentOf 10 500).sfDestination = some (b2, s) ∧
          b ≤ b2))) :=
  ⟨⟨by decide, by decide, by decide, by decide, by decide⟩,
    applyTransaction_balances_nonneg sampleExternals ledgerTwoAccounts (paymentOf 10 500)
      tepNONE ledgerTwoAccounts_nonneg (fun _ => by decide)⟩

/-! ## Two-sided credit lines (C16) -/

end TransactionEngine
